import Mathlib

/-! # XMPlusServer: reconciliation of subscriber snapshots and node topology

A shallow embedding of `subscription/subscription.go`, `node/node.go`,
`node/router.go` and `controller/controller.go`.

Conventions of the embedding.

* A Go `error` is an `Err := Option String`; `none` is `nil`.
* A Go `int` that is only stored, compared and printed is an `Int`; a
  `uint64` that is only stored and compared is a `Nat`.
* A `*[]T` that may be `nil` is an `Option (List T)`.
* A Go `map[int]T` is an association list with unique keys; a `range` over
  it visits the entries in an order chosen by a `RangeOrder`, an arbitrary
  permutation, because Go leaves the iteration order unspecified.
* Calls into the live data plane (xray-core handlers, router, limiter) are
  recorded in a chronological trace; whether a call fails is decided by an
  oracle of the environment.
* The traffic counters of xray-core are a map from counter names to byte
  counts; a tick of the usage monitor is sequential with respect to them.
-/

namespace XMPlus

/-! ## Data model (package `api`) -/

/-- Modelled from the spec: the declaration of `api.SubscriptionInfo` is not
among the sources. The fields are the five that `ParseSubscriptionList`
fills in, which are also the five of the spec's SubscriberRecord. -/
structure SubscriptionInfo where
  Id : Int
  Email : String
  Passwd : String
  IPLimit : Int
  SpeedLimit : Nat
deriving DecidableEq, Repr, Inhabited

/-- A Go error value: `none` is `nil`, `some msg` an error whose `Error()` is `msg`. -/
abbrev Err := Option String

/-! ## Go maps keyed by subscriber id -/

/-- The entries of a `map[int]api.SubscriptionInfo`, keys unique. The order
of the list is internal; `range` never relies on it (see `RangeOrder`). -/
abbrev GoMap := List (Int × SubscriptionInfo)

/-- The statement `m[k] = v`: overwrite the entry of `k`, or create it. -/
def GoMap.set : GoMap → Int → SubscriptionInfo → GoMap
  | [], k, v => [(k, v)]
  | (k', v') :: m, k, v => if k' = k then (k, v) :: m else (k', v') :: GoMap.set m k v

/-- The lookup `v, exists := m[k]`. -/
def GoMap.get? : GoMap → Int → Option SubscriptionInfo
  | [], _ => none
  | (k', v') :: m, k => if k' = k then some v' else GoMap.get? m k

/-- The loop `for _, v := range *l { m[v.Id] = v }` started from the empty map. -/
def populate (l : List SubscriptionInfo) : GoMap :=
  l.foldl (fun m v => GoMap.set m v.Id v) []

/-- One possible iteration order of `range` over a map: any rearrangement of
the entries. -/
structure RangeOrder where
  shuffle : GoMap → GoMap
  perm : ∀ m, (shuffle m).Perm m

/-- The iteration order that visits the entries in the order of first insertion. -/
def RangeOrder.insertion : RangeOrder := ⟨fun m => m, fun _ => List.Perm.refl _⟩

/-- The iteration order that visits the entries latest insertion first. -/
def RangeOrder.reversed : RangeOrder := ⟨fun m => m.reverse, fun m => List.reverse_perm m⟩

/-! ## `subscription.Compare` -/

/-- The condition of the `if` in `Compare`: some compared property changed. -/
def propertiesChanged (oldSub newSub : SubscriptionInfo) : Bool :=
  oldSub.SpeedLimit != newSub.SpeedLimit ||
  oldSub.IPLimit != newSub.IPLimit ||
  oldSub.Passwd != newSub.Passwd ||
  oldSub.Email != newSub.Email

/-- The first `range` loop of `Compare`, over the old map. -/
def compareDeleted (newMap : GoMap) (visit : GoMap) : List SubscriptionInfo :=
  visit.foldl (fun deleted p =>
    match GoMap.get? newMap p.1 with
    | none => deleted ++ [p.2]
    | some _ => deleted) []

/-- The second `range` loop of `Compare`, over the new map: `(added, modified)`. -/
def compareAddedModified (oldMap : GoMap) (visit : GoMap) :
    List SubscriptionInfo × List SubscriptionInfo :=
  visit.foldl (fun acc p =>
    match GoMap.get? oldMap p.1 with
    | none => (acc.1 ++ [p.2], acc.2)
    | some oldSub =>
      if propertiesChanged oldSub p.2 then (acc.1, acc.2 ++ [p.2]) else acc) ([], [])

/-- The result of `Compare`. A `nil` slice and an empty one are both `[]`. -/
structure Diff where
  deleted : List SubscriptionInfo
  added : List SubscriptionInfo
  modified : List SubscriptionInfo
deriving DecidableEq, Repr

/-- Function `Compare(old, new)`; `ro` and `rn` are the orders in which the two
`range` loops happen to visit `oldMap` and `newMap`. -/
def Compare (ro rn : RangeOrder) (old new : Option (List SubscriptionInfo)) : Diff :=
  match old, new with
  | none, none => ⟨[], [], []⟩
  | none, some n => ⟨[], n, []⟩
  | some o, none => ⟨o, [], []⟩
  | some o, some n =>
    let oldMap := populate o
    let newMap := populate n
    let deleted := compareDeleted newMap (ro.shuffle oldMap)
    let am := compareAddedModified oldMap (rn.shuffle newMap)
    ⟨deleted, am.1, am.2⟩

/-- The ids of a snapshot, in order. -/
def ids (l : List SubscriptionInfo) : List Int := l.map (·.Id)

/-- The invariant of the data model: subscriber ids are unique in a snapshot. -/
def UniqueIds (l : List SubscriptionInfo) : Prop := (ids l).Nodup

instance (l : List SubscriptionInfo) : Decidable (UniqueIds l) := by
  unfold UniqueIds; infer_instance

/-- The record that `populate` keeps for `k`: the last one of `l` with that id. -/
def lastWithId (l : List SubscriptionInfo) (k : Int) : Option SubscriptionInfo :=
  l.reverse.find? (fun v => v.Id = k)

/-! ## Node descriptors (package `api`) -/

/-- Modelled from the spec: the declaration of the blocking rules of a node
descriptor is not among the sources. The four fields are those `RouterBuilder`
reads; a slice that may be `nil` is an `Option`, since `reflect.DeepEqual`
tells a `nil` slice from an empty one. -/
structure BlockingRules where
  Port : String
  Domain : Option (List String)
  IP : Option (List String)
  Protocol : Option (List String)
deriving DecidableEq, Repr, Inhabited

/-- Modelled from the spec: the declaration of the TLS settings of a node
descriptor is not among the sources. The fields are those `certMonitor` reads. -/
structure TlsSettings where
  CertMode : String
  CertDomainName : String
deriving DecidableEq, Repr, Inhabited

/-- Modelled from the spec: the declaration of `api.NodeInfo` is not among the
sources. The fields are those the spec's NodeDescriptor lists, under the names
and types the sources use for them. -/
structure NodeInfo where
  NodeType : String
  NodeID : Int
  ListeningPort : String
  SecurityType : String
  TlsSettings : TlsSettings
  Cipher : String
  Flow : String
  SpeedLimit : Nat
  RelayType : Int
  RelayNodeID : Int
  BlockingRules : BlockingRules
  UpdateTime : Int
deriving DecidableEq, Repr, Inhabited

/-- Modelled from the spec: the declaration of `api.RelayNodeInfo` is not
among the sources. The fields are those `AddRelayTag` and `buildRNodeTag` read. -/
structure RelayNodeInfo where
  NodeType : String
  NodeID : Int
  ListeningPort : Int
  Cipher : String
  ServerKey : String
deriving DecidableEq, Repr, Inhabited

/-! ## Strings and bytes -/

/-- The verb `%d` of `fmt.Sprintf` on an `int`. -/
def fmtInt (n : Int) : String := toString n

/-- The UTF-8 encoding of one character, as bytes. -/
def utf8Char (c : Char) : List Nat :=
  let n := c.toNat
  if n < 0x80 then [n]
  else if n < 0x800 then [0xC0 + n / 64, 0x80 + n % 64]
  else if n < 0x10000 then [0xE0 + n / 4096, 0x80 + (n / 64) % 64, 0x80 + n % 64]
  else [0xF0 + n / 262144, 0x80 + (n / 4096) % 64, 0x80 + (n / 64) % 64, 0x80 + n % 64]

/-- The bytes of a Go string; `len(s)` is the length of this list. -/
def utf8Bytes (s : String) : List Nat := s.toList.flatMap utf8Char

/-- The alphabet of `base64.StdEncoding`. -/
def base64Alphabet : List Char :=
  "ABCDEFGHIJKLMNOPQRSTUVWXYZabcdefghijklmnopqrstuvwxyz0123456789+/".toList

/-- The character of the alphabet for a 6-bit value. -/
def base64Digit (n : Nat) : Char := base64Alphabet.getD n '='

/-- The characters of `base64.StdEncoding.EncodeToString` for a byte list. -/
def base64Chars : List Nat → List Char
  | [] => []
  | [a] => [base64Digit (a / 4), base64Digit ((a % 4) * 16), '=', '=']
  | [a, b] =>
    [base64Digit (a / 4), base64Digit ((a % 4) * 16 + b / 16), base64Digit ((b % 16) * 4), '=']
  | a :: b :: c :: rest =>
    base64Digit (a / 4) :: base64Digit ((a % 4) * 16 + b / 16) ::
      base64Digit ((b % 16) * 4 + c / 64) :: base64Digit (c % 64) :: base64Chars rest

/-- Function `base64.StdEncoding.EncodeToString`. -/
def base64Encode (bytes : List Nat) : String := String.mk (base64Chars bytes)

/-- The lower-case image of one rune under `unicode.ToLower`, exact for every
rune whose image is ASCII: the ASCII capitals, U+0130 and U+212A (the only
non-ASCII runes with an ASCII lower case). Other runes are left as they are;
their image under Go is not ASCII either. -/
def lowerRune (c : Char) : Char :=
  if 'A' ≤ c ∧ c ≤ 'Z' then Char.ofNat (c.toNat + 32)
  else if c.toNat = 0x212A then 'k'
  else if c.toNat = 0x0130 then 'i'
  else c

/-- Function `strings.ToLower`, as far as comparisons with ASCII constants can tell
(see `lowerRune`); the sources use it for such comparisons only. -/
def ToLower (s : String) : String := String.mk (s.toList.map lowerRune)

/-- Function `unicode.IsSpace`. -/
def isSpace (c : Char) : Bool :=
  let n := c.toNat
  n = 0x09 || n = 0x0A || n = 0x0B || n = 0x0C || n = 0x0D || n = 0x20 ||
  n = 0x85 || n = 0xA0 || n = 0x1680 || (0x2000 ≤ n && n ≤ 0x200A) ||
  n = 0x2028 || n = 0x2029 || n = 0x202F || n = 0x205F || n = 0x3000

/-- Function `strings.TrimSpace`, on the characters of a string. -/
def TrimSpace (cs : List Char) : List Char :=
  ((cs.dropWhile isSpace).reverse.dropWhile isSpace).reverse

/-- Function `strings.Split(s, ",")`, on the characters of a string: never empty. -/
def splitComma : List Char → List (List Char)
  | [] => [[]]
  | c :: cs =>
    match splitComma cs with
    | [] => [[c]]
    | tok :: toks => if c = ',' then [] :: tok :: toks else (c :: tok) :: toks

/-- Function `strings.SplitN(p, "-", 2)` on a `p` that contains `-`: the text before
the first `-` and the text after it. -/
def splitDash (cs : List Char) : List Char × List Char :=
  (cs.takeWhile (· ≠ '-'), (cs.dropWhile (· ≠ '-')).drop 1)

/-- Function `strconv.ParseUint(s, 10, 32)`: `none` is any error (empty input, a
character that is not a decimal digit, or a value of 2^32 or more). -/
def ParseUint32 (cs : List Char) : Option Nat :=
  if cs = [] then none
  else if cs.all (fun c => '0' ≤ c ∧ c ≤ '9') then
    let v := cs.foldl (fun acc c => acc * 10 + (c.toNat - '0'.toNat)) 0
    if v < 2 ^ 32 then some v else none
  else none

/-! ## Route specs (`node/router.go`) -/

/-- A `conf.PortRange`. -/
structure PortRange where
  From : Nat
  To : Nat
deriving DecidableEq, Repr, Inhabited

/-- One routing rule, with the fields the three builders of `router.go` set.
`RuleType` is the field `Type`. A pointer field that stays `nil` (and is
omitted from the JSON) is `none`. -/
structure Rule where
  RuleType : String
  RuleTag : String
  InboundTag : List String
  OutboundTag : String
  User : Option (List String)
  Domain : Option (List String)
  IP : Option (List String)
  Port : Option (List PortRange)
  Protocols : Option (List String)
deriving DecidableEq, Repr, Inhabited

/-- The loop of `parsePortString` over the comma-separated tokens; `ranges`
is the accumulator `portRanges`. -/
def parsePortTokens : List (List Char) → List PortRange → Except String (List PortRange)
  | [], ranges => .ok ranges
  | tok :: toks, ranges =>
    let p := TrimSpace tok
    if p = [] then parsePortTokens toks ranges
    else if p.contains '-' then
      let rangeParts := splitDash p
      match ParseUint32 (TrimSpace rangeParts.1) with
      | none => .error ("invalid port number in range: " ++ String.mk rangeParts.1)
      | some fromPort =>
        match ParseUint32 (TrimSpace rangeParts.2) with
        | none => .error ("invalid port number in range: " ++ String.mk rangeParts.2)
        | some toPort => parsePortTokens toks (ranges ++ [⟨fromPort, toPort⟩])
    else
      match ParseUint32 p with
      | none => .error ("invalid port number: " ++ String.mk p)
      | some port => parsePortTokens toks (ranges ++ [⟨port, port⟩])

/-- Function `parsePortString`: a port string like `53,443,1000-2000` as port ranges. -/
def parsePortString (portStr : String) : Except String (List PortRange) :=
  if portStr = "" then .ok []
  else parsePortTokens (splitComma portStr.toList) []

/-- The composite key `fmt.Sprintf("%s|%s|%d", tag, Email, Id)`. -/
def buildUserTag (tag : String) (subscription : SubscriptionInfo) : String :=
  tag ++ "|" ++ subscription.Email ++ "|" ++ fmtInt subscription.Id

/-- Function `FormatEmails`: the composite keys of the records, for removal.
The early `return nil` for an empty slice is the empty list of the `map`. -/
def FormatEmails (subscriptions : List SubscriptionInfo) (tag : String) : List String :=
  subscriptions.map (fun u => tag ++ "|" ++ u.Email ++ "|" ++ fmtInt u.Id)

/-- The per-subscriber relay tag `fmt.Sprintf("%s_%d", relayTag, Id)`. -/
def relayUserTag (relayTag : String) (subscription : SubscriptionInfo) : String :=
  relayTag ++ "_" ++ fmtInt subscription.Id

/-- The rule that `RelayRouterBuilder` marshals. -/
def relayRule (tag relayTag : String) (subscription : SubscriptionInfo) : Rule :=
  { RuleType := "field"
    RuleTag := relayUserTag relayTag subscription
    InboundTag := [tag]
    OutboundTag := relayUserTag relayTag subscription
    User := some [tag ++ "|" ++ subscription.Email ++ "|" ++ fmtInt subscription.Id]
    Domain := none, IP := none, Port := none, Protocols := none }

/-- The rule that `DefaultRouterBuilder` marshals. -/
def defaultRule (tag : String) : Rule :=
  { RuleType := "field"
    RuleTag := tag ++ "_default"
    InboundTag := [tag]
    OutboundTag := tag
    User := none, Domain := none, IP := none, Port := none, Protocols := none }

/-- A slice pointer set only when the slice is non-nil and non-empty. -/
def nonEmptyList (l : Option (List String)) : Option (List String) :=
  match l with
  | some (x :: xs) => some (x :: xs)
  | _ => none

/-- The flag `hasBlockingRules` of `RouterBuilder`. -/
def hasBlockingRules (b : BlockingRules) : Bool :=
  (b.Port != "" && b.Port != "0") ||
  (nonEmptyList b.Domain).isSome ||
  (nonEmptyList b.IP).isSome ||
  (nonEmptyList b.Protocol).isSome

/-- The rule list that `RouterBuilder` marshals into `routerConfig.RuleList`
and hands to `routerConfig.Build()`: empty, or the one blocking rule, with the
fields the struct literal of the source sets; an error when the port string
does not parse. What `json.Marshal` and `Build`, neither among the sources,
make of a rule (of a port range, for one) is not part of it. -/
def blockingRuleList (nodeInfo : NodeInfo) (tag : String) : Except String (List Rule) :=
  let b := nodeInfo.BlockingRules
  if hasBlockingRules b then
    let parsed : Except String (List PortRange) :=
      if b.Port != "" && b.Port != "0" then parsePortString b.Port else .ok []
    match parsed with
    | .error e => .error ("failed to parse port string: " ++ e)
    | .ok portRanges =>
      .ok [{ RuleType := "field"
             RuleTag := tag ++ "_blackhole"
             InboundTag := [tag]
             OutboundTag := tag ++ "_blackhole"
             User := none
             Domain := nonEmptyList b.Domain
             IP := nonEmptyList b.IP
             Port := if portRanges.length > 0 then some portRanges else none
             Protocols := nonEmptyList b.Protocol }]
  else .ok []

/-! ## The live data plane -/

/-- Modelled from the spec: `BuildVlessUsers`, `BuildVmessUsers`,
`BuildTrojanUsers` and `BuildShadowsocksUsers` are not among the sources. The
credential shape of each protocol: vless needs the flow, vmess and trojan the
secret only, shadowsocks the cipher. -/
inductive Account where
  | vless (secret flow : String)
  | vmess (secret : String)
  | trojan (secret : String)
  | shadowsocks (secret cipher : String)
deriving DecidableEq, Repr, Inhabited

/-- Modelled from the spec: a `protocol.User` as the missing user builders
make it, keyed by the composite key `tag|identifier|id` that
`RemoveSubscribers` removes by. -/
structure User where
  Email : String
  Account : Account
deriving DecidableEq, Repr, Inhabited

/-- Modelled from the spec: the outbound builders (`OutboundBuilder`,
`BlackholeOutboundBuilder`, `OutboundRelayBuilder`) are not among the sources.
An outbound spec is identified by the builder and its arguments. -/
inductive OutboundSpec where
  | main (tag : String) (nodeInfo : NodeInfo)
  | blackhole (tag : String)
  | relay (relayTag : String) (relayNodeInfo : RelayNodeInfo)
      (subscription : SubscriptionInfo) (key : String)
deriving DecidableEq, Repr, Inhabited

/-- Modelled from the spec: the tag an outbound spec is registered under. The
outbound builders are not among the sources; the tags are those of the spec's
tag formats, which are also the ones `RemoveTag`, `RemoveBlockingRules` and
`RemoveRelayTag` remove. -/
def OutboundSpec.tag : OutboundSpec → String
  | .main tag _ => tag
  | .blackhole tag => tag ++ "_blackhole"
  | .relay relayTag _ subscription _ => relayUserTag relayTag subscription

/-- One call into the live data plane: the xray-core inbound and outbound
managers, the router, the user manager of an inbound, and the limiter of the
dispatcher. `AddInbound` carries the arguments of the missing `InboundBuilder`. -/
inductive Call where
  | AddInbound (tag : String) (nodeInfo : NodeInfo)
  | RemoveInbound (tag : String)
  | AddOutbound (spec : OutboundSpec)
  | RemoveOutbound (tag : String)
  | AddRule (rules : List Rule)
  | RemoveRule (ruleTag : String)
  | GetHandler (tag : String)
  | AddUser (tag : String) (user : User)
  | RemoveUser (tag : String) (email : String)
  | AddInboundLimiter (tag : String) (nodeSpeedLimit : Nat) (subscriptionList : List SubscriptionInfo)
  | UpdateInboundLimiter (tag : String) (updated : List SubscriptionInfo)
  | DeleteInboundLimiter (tag : String)
deriving DecidableEq, Repr, Inhabited

/-- What the code cannot see: the answers of the remote panel during one tick,
the verdicts of the builders that are not among the sources, the outcome of
every data-plane call (given the calls made before it), the two not-modified
constants of package `api`, and the iteration orders of the two maps of
`Compare`. -/
structure Env where
  NodeNotModified : String
  SubscriptionNotModified : String
  GetNodeInfo : Except String NodeInfo
  GetSubscriptionList : Except String (List SubscriptionInfo)
  GetTransitNode : Except String RelayNodeInfo
  InboundBuilder : NodeInfo → String → Err
  OutboundBuilder : NodeInfo → String → Err
  OutboundRelayBuilder : RelayNodeInfo → String → SubscriptionInfo → String → Err
  BlackholeOutboundBuilder : String → Err
  routerBuild : List Rule → Err
  ToMemoryUser : User → Err
  dataPlane : List Call → Call → Err
  rangeOld : RangeOrder
  rangeNew : RangeOrder

/-- A program over a state `σ`: from the state before to the result and the
state after. -/
def Prog (σ α : Type) : Type := σ → α × σ

instance (σ : Type) : Monad (Prog σ) where
  pure a := fun s => (a, s)
  bind x f := fun s => f (x s).1 (x s).2

/-- Code that talks to the data plane: a program over the trace of the calls
made so far, oldest first. -/
abbrev DP := Prog (List Call)

/-- Issue one data-plane call: record it, and return what the oracle answers. -/
def call (env : Env) (c : Call) : DP Err :=
  fun trace => (env.dataPlane trace c, trace ++ [c])

/-! ## `node.Manager` (`node/node.go`) -/

/-- Modelled from the spec: the list `shadowaead_2022.List` of the library
sing-shadowsocks is not among the sources; it is the "2022" family of ciphers,
the three that `checkShadowsocksPassword` knows. -/
def shadowaead2022List : List String :=
  ["2022-blake3-aes-128-gcm", "2022-blake3-aes-256-gcm", "2022-blake3-chacha20-poly1305"]

/-- Function `checkShadowsocksPassword`: the base64 text of the first 16 or 32 bytes of
the password. -/
def checkShadowsocksPassword (password method : String) : Except String String :=
  let bytes := utf8Bytes password
  if bytes.length < 16 then .error "shadowsocks2022 key's length must be greater than 16"
  else
    let m := ToLower method
    if m = "2022-blake3-aes-128-gcm" then .ok (base64Encode (bytes.take 16))
    else if m = "2022-blake3-aes-256-gcm" ∨ m = "2022-blake3-chacha20-poly1305" then
      if bytes.length < 32 then .error "shadowsocks2022 key's length must be greater than 32"
      else .ok (base64Encode (bytes.take 32))
    else .error ("unsupported SS2022 method: " ++ method)

/-- Function `addInbound`: create the handler for the built config and add it. -/
def addInbound (env : Env) (tag : String) (nodeInfo : NodeInfo) : DP Err :=
  call env (.AddInbound tag nodeInfo)

/-- Function `addOutbound`: create the handler for the built config and add it. -/
def addOutbound (env : Env) (spec : OutboundSpec) : DP Err :=
  call env (.AddOutbound spec)

/-- Function `removeInbound`. -/
def removeInbound (env : Env) (tag : String) : DP Err := call env (.RemoveInbound tag)

/-- Function `removeOutbound`. -/
def removeOutbound (env : Env) (tag : String) : DP Err := call env (.RemoveOutbound tag)

/-- Function `addRouterRule(config, true)`. -/
def addRouterRule (env : Env) (rules : List Rule) : DP Err := call env (.AddRule rules)

/-- Function `removeRouterRule`. -/
def removeRouterRule (env : Env) (ruleTag : String) : DP Err := call env (.RemoveRule ruleTag)

/-- Function `Manager.AddTag`: inbound, outbound and, unless the node is a relay head,
the default route. -/
def AddTag (env : Env) (nodeInfo : NodeInfo) (tag : String) : DP Err := do
  if nodeInfo.NodeType = "Shadowsocks-Plugin" then
    return some ("Inbound server with type " ++ nodeInfo.NodeType ++ " is not supportted")
  if let some e := env.InboundBuilder nodeInfo tag then
    return some ("failed to build inbound config: " ++ e)
  if let some e ← addInbound env tag nodeInfo then
    return some ("failed to add inbound: " ++ e)
  if let some e := env.OutboundBuilder nodeInfo tag then
    return some ("failed to build outbound config: " ++ e)
  if let some e ← addOutbound env (.main tag nodeInfo) then
    return some ("failed to add outbound: " ++ e)
  if nodeInfo.RelayType = 0 ∨ nodeInfo.RelayNodeID = 0 then
    if let some e := env.routerBuild [defaultRule tag] then
      return some e
    if let some e ← addRouterRule env [defaultRule tag] then
      return some e
  return none

/-- Function `Manager.RemoveTag`: inbound, outbound and default route of a tag. -/
def RemoveTag (env : Env) (tag : String) : DP Err := do
  if let some e ← removeInbound env tag then
    return some ("failed to remove inbound: " ++ e)
  if let some e ← removeOutbound env tag then
    return some ("failed to remove outbound: " ++ e)
  let defaultRuleTag := tag ++ "_default"
  if let some e ← removeRouterRule env defaultRuleTag then
    return some e
  return none

/-- The loop of `Manager.AddRelayTag` over `*subscriptionInfo`: one relay
outbound and one relay rule per subscriber; a subscriber whose key cannot be
derived is skipped (`continue`). -/
def AddRelayTagLoop (env : Env) (relayNodeInfo : RelayNodeInfo) (relayTag mainTag : String) :
    List SubscriptionInfo → DP Err
  | [] => pure none
  | subscription :: rest => do
    let mut key := subscription.Passwd
    if shadowaead2022List.contains (ToLower relayNodeInfo.Cipher) then
      match checkShadowsocksPassword subscription.Passwd relayNodeInfo.Cipher with
      | .error _ => return ← AddRelayTagLoop env relayNodeInfo relayTag mainTag rest
      | .ok userKey => key := relayNodeInfo.ServerKey ++ ":" ++ userKey
    if let some e := env.OutboundRelayBuilder relayNodeInfo relayTag subscription key then
      return some ("failed to build relay outbound for Id " ++ fmtInt subscription.Id ++ ": " ++ e)
    if let some e ← addOutbound env (.relay relayTag relayNodeInfo subscription key) then
      return some ("failed to add relay outbound for UID " ++ fmtInt subscription.Id ++ ": " ++ e)
    if let some e := env.routerBuild [relayRule mainTag relayTag subscription] then
      return some ("failed to build router for UID " ++ fmtInt subscription.Id ++ ": " ++ e)
    if let some e ← addRouterRule env [relayRule mainTag relayTag subscription] then
      return some ("failed to add router rule for UID " ++ fmtInt subscription.Id ++ ": " ++ e)
    AddRelayTagLoop env relayNodeInfo relayTag mainTag rest

/-- Function `Manager.AddRelayTag`: relay outbounds and relay rules for all subscribers. -/
def AddRelayTag (env : Env) (relayNodeInfo : RelayNodeInfo) (relayTag mainTag : String)
    (subscriptionInfo : List SubscriptionInfo) : DP Err := do
  if relayNodeInfo.NodeType = "Shadowsocks-Plugin" then
    return some ("Rely outbound server with type " ++ relayNodeInfo.NodeType ++
      " is not supportted")
  AddRelayTagLoop env relayNodeInfo relayTag mainTag subscriptionInfo

/-- Function `Manager.RemoveRelayTag`: the relay outbound of every subscriber. -/
def RemoveRelayTag (env : Env) (tag : String) : List SubscriptionInfo → DP Err
  | [] => pure none
  | subscription :: rest => do
    let outboundTag := tag ++ "_" ++ fmtInt subscription.Id
    if let some e ← removeOutbound env outboundTag then
      return some e
    RemoveRelayTag env tag rest

/-- Function `Manager.RemoveRelayRules`: the relay rule of every subscriber. -/
def RemoveRelayRules (env : Env) (tag : String) : List SubscriptionInfo → DP Err
  | [] => pure none
  | subscription :: rest => do
    let ruleTag := tag ++ "_" ++ fmtInt subscription.Id
    if let some e ← removeRouterRule env ruleTag then
      return some e
    RemoveRelayRules env tag rest

/-- Function `Manager.RemoveBlockingRules`: the blocking rule and its outbound. -/
def RemoveBlockingRules (env : Env) (tag : String) : DP Err := do
  let ruleTag := tag ++ "_blackhole"
  if let some e ← removeRouterRule env ruleTag then
    return some e
  if let some e ← removeOutbound env ruleTag then
    return some e
  return none

/-- Function `Manager.AddRuleTag`: the blackhole outbound and the blocking rule list. -/
def AddRuleTag (env : Env) (nodeInfo : NodeInfo) (tag : String) : DP Err := do
  if let some e := env.BlackholeOutboundBuilder tag then
    return some ("failed to build outbound config: " ++ e)
  if let some e ← addOutbound env (.blackhole tag) then
    return some ("failed to add outbound: " ++ e)
  match blockingRuleList nodeInfo tag with
  | .error e => return some e
  | .ok rules =>
    if let some e := env.routerBuild rules then
      return some e
    if let some e ← addRouterRule env rules then
      return some e
    return none

/-- Function `Manager.AddInboundLimiter`; the Redis configuration is fixed per controller. -/
def AddInboundLimiter (env : Env) (tag : String) (nodeSpeedLimit : Nat)
    (subscriptionList : List SubscriptionInfo) : DP Err :=
  call env (.AddInboundLimiter tag nodeSpeedLimit subscriptionList)

/-- Function `Manager.UpdateInboundLimiter`. -/
def UpdateInboundLimiter (env : Env) (tag : String)
    (updatedSubscriptionList : List SubscriptionInfo) : DP Err :=
  call env (.UpdateInboundLimiter tag updatedSubscriptionList)

/-- Function `Manager.DeleteInboundLimiter`. -/
def DeleteInboundLimiter (env : Env) (tag : String) : DP Err :=
  call env (.DeleteInboundLimiter tag)

/-! ## `subscription.Manager` (`subscription/subscription.go`) -/

/-- Modelled from the spec: `BuildVlessUsers`, `BuildVmessUsers`,
`BuildTrojanUsers` and `BuildShadowsocksUsers` are not among the sources. Each
converts every record, in order, into the credential shape of its protocol
under the composite key; `none` is the `default` case of the `switch` in
`AddNewSubscription`, an unsupported node type. -/
def buildUsers (subscriptionInfo : List SubscriptionInfo) (nodeInfo : NodeInfo) (tag : String) :
    Option (List User) :=
  if nodeInfo.NodeType = "vless" then
    some (subscriptionInfo.map fun u => ⟨buildUserTag tag u, .vless u.Passwd nodeInfo.Flow⟩)
  else if nodeInfo.NodeType = "vmess" then
    some (subscriptionInfo.map fun u => ⟨buildUserTag tag u, .vmess u.Passwd⟩)
  else if nodeInfo.NodeType = "trojan" then
    some (subscriptionInfo.map fun u => ⟨buildUserTag tag u, .trojan u.Passwd⟩)
  else if nodeInfo.NodeType = "shadowsocks" then
    some (subscriptionInfo.map fun u => ⟨buildUserTag tag u, .shadowsocks u.Passwd nodeInfo.Cipher⟩)
  else none

/-- The loop of `addInboundSubscriptions` over the users. -/
def addUsersLoop (env : Env) (tag : String) : List User → DP Err
  | [] => pure none
  | item :: rest => do
    if let some e := env.ToMemoryUser item then
      return some e
    if let some e ← call env (.AddUser tag item) then
      return some e
    addUsersLoop env tag rest

/-- Function `addInboundSubscriptions`: resolve the user manager of the inbound `tag`,
then add the users one by one. -/
def addInboundSubscriptions (env : Env) (subscriptions : List User) (tag : String) : DP Err := do
  if let some e ← call env (.GetHandler tag) then
    return some ("no such inbound tag: " ++ e)
  addUsersLoop env tag subscriptions

/-- The loop of `removeInboundSubscriptions` over the composite keys. -/
def removeUsersLoop (env : Env) (tag : String) : List String → DP Err
  | [] => pure none
  | email :: rest => do
    if let some e ← call env (.RemoveUser tag email) then
      return some e
    removeUsersLoop env tag rest

/-- Function `removeInboundSubscriptions`: resolve the user manager of the inbound
`tag`, then remove the users one by one. -/
def removeInboundSubscriptions (env : Env) (emails : List String) (tag : String) : DP Err := do
  if let some e ← call env (.GetHandler tag) then
    return some ("no such inbound tag: " ++ e)
  removeUsersLoop env tag emails

/-- Function `Manager.Add`. -/
def Add (env : Env) (subscriptions : List User) (tag : String) : DP Err := do
  if subscriptions.length = 0 then
    return none
  if let some e ← addInboundSubscriptions env subscriptions tag then
    return some ("failed to add subscriptions to tag " ++ tag ++ ": " ++ e)
  return none

/-- Function `Manager.Remove`. -/
def Remove (env : Env) (emails : List String) (tag : String) : DP Err := do
  if emails.length = 0 then
    return none
  if let some e ← removeInboundSubscriptions env emails tag then
    return some ("failed to remove subscriptions from tag " ++ tag ++ ": " ++ e)
  return none

/-- Function `Manager.AddNewSubscription`, on a non-nil list. -/
def AddNewSubscription (env : Env) (subscriptionInfo : List SubscriptionInfo)
    (nodeInfo : NodeInfo) (tag : String) : DP Err := do
  if subscriptionInfo.length = 0 then
    return none
  match buildUsers subscriptionInfo nodeInfo tag with
  | none =>
    return some ("unsupported node type " ++ nodeInfo.NodeType ++ ". Abort building user")
  | some users => Add env users tag

/-! ## `controller.Controller` (`controller/controller.go`) -/

/-- The fields of `Controller` that `nodeInfoMonitor` reads or writes. The
two pointers `nodeInfo` and `subscriptionList` are non-nil once `Start` has
returned without error. -/
structure Controller where
  nodeInfo : NodeInfo
  relaynodeInfo : Option RelayNodeInfo
  Tag : String
  LogPrefix : String
  RelayTag : String
  Relay : Bool
  subscriptionList : List SubscriptionInfo
deriving DecidableEq, Repr, Inhabited

/-- Function `Controller.buildNodeTag`, on the descriptor `c.nodeInfo`. -/
def buildNodeTag (nodeInfo : NodeInfo) : String :=
  nodeInfo.NodeType ++ "_" ++ nodeInfo.ListeningPort ++ "_" ++ fmtInt nodeInfo.NodeID

/-- Function `Controller.buildRNodeTag`, on the descriptor `c.relaynodeInfo`. -/
def buildRNodeTag (relaynodeInfo : RelayNodeInfo) : String :=
  "Relay_" ++ relaynodeInfo.NodeType ++ "_" ++ fmtInt relaynodeInfo.ListeningPort ++ "_" ++
    fmtInt relaynodeInfo.NodeID

/-- The controller together with the data plane it drives. -/
structure Sys where
  c : Controller
  trace : List Call
deriving DecidableEq, Repr, Inhabited

/-- Code of the controller: a program over the controller and the trace. -/
abbrev Tick := Prog Sys

/-- Run data-plane code from the controller. -/
def live {α : Type} (x : DP α) : Tick α :=
  fun s => ((x s.trace).1, { s with trace := (x s.trace).2 })

/-- The current value of the controller `c`. -/
def self : Tick Controller := fun s => (s.c, s)

/-- An assignment to fields of the controller. -/
def assign (f : Controller → Controller) : Tick Unit := fun s => ((), { s with c := f s.c })

/-- How a call of `nodeInfoMonitor` ends: it returns an error value, or
`log.Panic` panics. -/
inductive Ret where
  | returned (err : Err)
  | panicked (msg : String)
deriving DecidableEq, Repr, Inhabited

/-- How a block of `nodeInfoMonitor` ends: control falls through to the next
block with a value, or the function is left (`return` or panic). -/
inductive Step (α : Type) where
  | next (a : α)
  | stop (r : Ret)
deriving DecidableEq, Repr, Inhabited

/-- The local variables of `nodeInfoMonitor` after the two fetches. -/
structure Fetched where
  nodeInfoChanged : Bool
  newNodeInfo : NodeInfo
  subscriptionChanged : Bool
  newSubscriptionInfo : List SubscriptionInfo
deriving DecidableEq, Repr, Inhabited

/-- Lines 188 to 211 of `nodeInfoMonitor`: the two fetches. A fetch that
answers not-modified keeps the retained value; any other error ends the tick
with `return nil` (`none` here). -/
def fetchBoth (env : Env) (c : Controller) : Option Fetched :=
  match env.GetNodeInfo with
  | .error e =>
    if e = env.NodeNotModified then
      match env.GetSubscriptionList with
      | .error e' =>
        if e' = env.SubscriptionNotModified then some ⟨false, c.nodeInfo, false, c.subscriptionList⟩
        else none
      | .ok newSubscriptionInfo => some ⟨false, c.nodeInfo, true, newSubscriptionInfo⟩
    else none
  | .ok newNodeInfo =>
    match env.GetSubscriptionList with
    | .error e' =>
      if e' = env.SubscriptionNotModified then some ⟨true, newNodeInfo, false, c.subscriptionList⟩
      else none
    | .ok newSubscriptionInfo => some ⟨true, newNodeInfo, true, newSubscriptionInfo⟩

/-- Lines 218 to 236 of `nodeInfoMonitor`: on a dirty tick of a relay-active
controller the relay rules and relay outbounds of the retained snapshot are
removed. -/
def relayTeardown (env : Env) (InfoUpdated : Bool) : Tick (Step Unit) := do
  if (← self).Relay && InfoUpdated then
    let _ ← live (RemoveRelayRules env (← self).RelayTag (← self).subscriptionList)
    -- Remove relay tag
    if let some e ← live (RemoveRelayTag env (← self).RelayTag (← self).subscriptionList) then
      return .stop (.returned (some e))
    assign fun c => { c with Relay := false }
  return .next ()

/-- Lines 238 to 259 of `nodeInfoMonitor`: on a dirty tick whose descriptor
requests relay the relay descriptor is fetched and the relay topology built;
`log.Panic` on either error. -/
def relayBuild (env : Env) (f : Fetched) (InfoUpdated : Bool) : Tick (Step Unit) := do
  if f.newNodeInfo.RelayType = 1 && f.newNodeInfo.RelayNodeID > 0 && InfoUpdated then
    match env.GetTransitNode with
    | .error e => return .stop (.panicked e)
    | .ok newRelayNodeInfo =>
      assign fun c => { c with relaynodeInfo := some newRelayNodeInfo }
      assign fun c => { c with RelayTag := buildRNodeTag newRelayNodeInfo }
      if let some e ← live (AddRelayTag env newRelayNodeInfo (← self).RelayTag (← self).Tag
          f.newSubscriptionInfo) then
        return .stop (.panicked e)
      assign fun c => { c with Relay := true }
  return .next ()

/-- Lines 261 to 312 of `nodeInfoMonitor`: if the fetched descriptor is not
deep-equal to the retained one, the old tag is removed and the new one added.
The value is the local `nodeInfoChanged` afterwards. -/
def replaceNode (env : Env) (f : Fetched) : Tick (Step Bool) := do
  if f.nodeInfoChanged then
    if (← self).nodeInfo ≠ f.newNodeInfo then
      -- Remove old tag
      let oldTag := (← self).Tag
      if let some _ ← live (RemoveTag env oldTag) then
        return .stop (.returned none)
      let mut err ← live (RemoveBlockingRules env oldTag)
      if (← self).nodeInfo.NodeType = "Shadowsocks-Plugin" then
        err ← live (RemoveTag env ("dokodemo-door_" ++ (← self).Tag ++ "+1"))
      if err ≠ none then
        return .stop (.returned none)
      -- Add new tag
      assign fun c => { c with nodeInfo := f.newNodeInfo }
      assign fun c => { c with Tag := buildNodeTag c.nodeInfo }
      if let some _ ← live (AddRuleTag env f.newNodeInfo (← self).Tag) then
        return .stop (.returned none)
      if let some _ ← live (AddTag env f.newNodeInfo (← self).Tag) then
        return .stop (.returned none)
      -- Remove Old limiter
      if let some _ ← live (DeleteInboundLimiter env oldTag) then
        return .stop (.returned none)
      return .next true
    else
      return .next false
  else
    return .next false

/-- Lines 343 to 373 of `nodeInfoMonitor`: the three results of `Compare` are
applied; errors are logged only. -/
def applyDiff (env : Env) (d : Diff) : Tick Unit := do
  -- Handle deleted subscriptions
  if d.deleted.length > 0 then
    let deletedEmail := FormatEmails d.deleted (← self).Tag
    let _ ← live (Remove env deletedEmail (← self).Tag)
  -- Handle added subscriptions
  if d.added.length > 0 then
    let err ← live (AddNewSubscription env d.added (← self).nodeInfo (← self).Tag)
    if err = none then
      -- Update Limiter for new subscriptions
      let _ ← live (UpdateInboundLimiter env (← self).Tag d.added)
  -- Handle modified subscriptions (properties changed but same ID)
  if d.modified.length > 0 then
    -- Update Limiter for modified subscriptions without removing/re-adding them
    let _ ← live (UpdateInboundLimiter env (← self).Tag d.modified)

/-- Lines 314 to 375 of `nodeInfoMonitor`: after a replacement of the node the
whole new snapshot is provisioned and the limiter installed; otherwise, if the
subscribers changed, the difference to the retained snapshot is applied. -/
def provision (env : Env) (f : Fetched) (nodeInfoChanged : Bool) : Tick (Step Unit) := do
  if nodeInfoChanged then
    if let some _ ← live (AddNewSubscription env f.newSubscriptionInfo f.newNodeInfo
        (← self).Tag) then
      return .stop (.returned none)
    if let some _ ← live (AddInboundLimiter env (← self).Tag f.newNodeInfo.SpeedLimit
        f.newSubscriptionInfo) then
      return .stop (.returned none)
  else
    if f.subscriptionChanged then
      let d := Compare env.rangeOld env.rangeNew (some (← self).subscriptionList)
        (some f.newSubscriptionInfo)
      applyDiff env d
  return .next ()

/-- Function `Controller.nodeInfoMonitor`: one reconciliation tick, as the sequence of
its blocks. Logging is left out; every other statement is kept, in order. -/
def nodeInfoMonitor (env : Env) : Tick Ret := do
  match fetchBoth env (← self) with
  | none => return .returned none
  | some f =>
    let InfoUpdated := f.subscriptionChanged || f.nodeInfoChanged
    match ← relayTeardown env InfoUpdated with
    | .stop r => return r
    | .next _ =>
      match ← relayBuild env f InfoUpdated with
      | .stop r => return r
      | .next _ =>
        match ← replaceNode env f with
        | .stop r => return r
        | .next nodeInfoChanged =>
          match ← provision env f nodeInfoChanged with
          | .stop r => return r
          | .next _ =>
            assign fun c => { c with subscriptionList := f.newSubscriptionInfo }
            return .returned none

/-! ## Ticks in which nothing fails, and the calls they issue -/

/-- No data-plane call fails, whatever was called before. -/
def Env.DataPlaneOK (env : Env) : Prop := ∀ tr c, env.dataPlane tr c = none

/-- No spec construction fails: the builders that are not among the sources,
`routerConfig.Build()` and `ToMemoryUser` all succeed. -/
def Env.BuildersOK (env : Env) : Prop :=
  (∀ n t, env.InboundBuilder n t = none) ∧ (∀ n t, env.OutboundBuilder n t = none) ∧
  (∀ r t u k, env.OutboundRelayBuilder r t u k = none) ∧
  (∀ t, env.BlackholeOutboundBuilder t = none) ∧
  (∀ rules, env.routerBuild rules = none) ∧ (∀ u, env.ToMemoryUser u = none)

/-- The controller's test for a relay-requesting descriptor. -/
def requestsRelay (nodeInfo : NodeInfo) : Bool :=
  nodeInfo.RelayType = 1 && nodeInfo.RelayNodeID > 0

/-- Whatever relay work a dirty tick on `newNodeInfo` needs can be done: the
relay descriptor is fetched and `AddRelayTag` accepts its type. -/
def Env.RelayOK (env : Env) (newNodeInfo : NodeInfo) : Prop :=
  requestsRelay newNodeInfo = true →
    ∃ r, env.GetTransitNode = .ok r ∧ r.NodeType ≠ "Shadowsocks-Plugin"

/-- The key `AddRelayTag` derives for a subscriber; `none` when the
derivation fails and the subscriber is skipped. -/
def relayKey (relayNodeInfo : RelayNodeInfo) (subscription : SubscriptionInfo) : Option String :=
  if shadowaead2022List.contains (ToLower relayNodeInfo.Cipher) then
    match checkShadowsocksPassword subscription.Passwd relayNodeInfo.Cipher with
    | .error _ => none
    | .ok userKey => some (relayNodeInfo.ServerKey ++ ":" ++ userKey)
  else some subscription.Passwd

/-- The calls of an `AddRelayTag` in which nothing fails. -/
def relayBuildCalls (relayNodeInfo : RelayNodeInfo) (relayTag mainTag : String)
    (subscriptionInfo : List SubscriptionInfo) : List Call :=
  subscriptionInfo.flatMap fun u =>
    match relayKey relayNodeInfo u with
    | none => []
    | some key =>
      [.AddOutbound (.relay relayTag relayNodeInfo u key), .AddRule [relayRule mainTag relayTag u]]

/-- The calls of `RemoveRelayRules` followed by `RemoveRelayTag` when nothing fails. -/
def relayTeardownCalls (relayTag : String) (subscriptionInfo : List SubscriptionInfo) :
    List Call :=
  subscriptionInfo.map (fun u => Call.RemoveRule (relayTag ++ "_" ++ fmtInt u.Id)) ++
  subscriptionInfo.map (fun u => Call.RemoveOutbound (relayTag ++ "_" ++ fmtInt u.Id))

/-- The calls of a `RemoveTag` in which nothing fails. -/
def removeTagCalls (tag : String) : List Call :=
  [.RemoveInbound tag, .RemoveOutbound tag, .RemoveRule (tag ++ "_default")]

/-- The calls of a `RemoveBlockingRules` in which nothing fails. -/
def removeBlockingCalls (tag : String) : List Call :=
  [.RemoveRule (tag ++ "_blackhole"), .RemoveOutbound (tag ++ "_blackhole")]

/-- The calls of an `AddTag` in which nothing fails. -/
def addTagCalls (nodeInfo : NodeInfo) (tag : String) : List Call :=
  [.AddInbound tag nodeInfo, .AddOutbound (.main tag nodeInfo)] ++
  if nodeInfo.RelayType = 0 ∨ nodeInfo.RelayNodeID = 0 then [.AddRule [defaultRule tag]] else []

/-- The calls of a `Manager.Add` in which nothing fails. -/
def addUsersCalls (users : List User) (tag : String) : List Call :=
  if users.length = 0 then [] else .GetHandler tag :: users.map (.AddUser tag)

/-- The calls of a `Manager.Remove` in which nothing fails. -/
def removeUsersCalls (emails : List String) (tag : String) : List Call :=
  if emails.length = 0 then [] else .GetHandler tag :: emails.map (.RemoveUser tag)

/-- The relay calls of a dirty tick in which nothing fails: the teardown for
the retained snapshot if the controller is relay-active, then the build for
the new snapshot if the descriptor requests relay. -/
def relayCalls (env : Env) (newNodeInfo : NodeInfo) (newSubscriptionInfo : List SubscriptionInfo)
    (c : Controller) : List Call :=
  (if c.Relay then relayTeardownCalls c.RelayTag c.subscriptionList else []) ++
  (if requestsRelay newNodeInfo then
    match env.GetTransitNode with
    | .ok r => relayBuildCalls r (buildRNodeTag r) c.Tag newSubscriptionInfo
    | .error _ => []
  else [])

/-- The controller after the relay blocks of a dirty tick in which nothing fails. -/
def relayController (env : Env) (newNodeInfo : NodeInfo) (c : Controller) : Controller :=
  if requestsRelay newNodeInfo then
    match env.GetTransitNode with
    | .ok r => { c with relaynodeInfo := some r, RelayTag := buildRNodeTag r, Relay := true }
    | .error _ => { c with Relay := false }
  else { c with Relay := false }

/-- The calls of `applyDiff` when no data-plane call fails. For an
unsupported node type `AddNewSubscription` fails before any call. -/
def diffCalls (d : Diff) (nodeInfo : NodeInfo) (tag : String) : List Call :=
  (if d.deleted.length > 0 then removeUsersCalls (FormatEmails d.deleted tag) tag else []) ++
  (if d.added.length > 0 then
    match buildUsers d.added nodeInfo tag with
    | some users => addUsersCalls users tag ++ [.UpdateInboundLimiter tag d.added]
    | none => []
  else []) ++
  (if d.modified.length > 0 then [.UpdateInboundLimiter tag d.modified] else [])

/-- The calls of `replaceNode` when the descriptor changed and nothing fails:
teardown of the old tag, then the blocking rules, inbound, outbound and
default route of the new tag, then removal of the old limiter. -/
def replaceCalls (oldTag oldNodeType : String) (newNodeInfo : NodeInfo) (rules : List Rule) :
    List Call :=
  removeTagCalls oldTag ++ removeBlockingCalls oldTag ++
  (if oldNodeType = "Shadowsocks-Plugin" then
    removeTagCalls ("dokodemo-door_" ++ oldTag ++ "+1") else []) ++
  [.AddOutbound (.blackhole (buildNodeTag newNodeInfo)), .AddRule rules] ++
  addTagCalls newNodeInfo (buildNodeTag newNodeInfo) ++
  [.DeleteInboundLimiter oldTag]

/-- The credential removals among some calls: inbound tag and composite key. -/
def removedCredentials (calls : List Call) : List (String × String) :=
  calls.filterMap fun c =>
    match c with
    | .RemoveUser tag email => some (tag, email)
    | _ => none

/-- The credential additions among some calls: inbound tag and user. -/
def addedCredentials (calls : List Call) : List (String × User) :=
  calls.filterMap fun c =>
    match c with
    | .AddUser tag user => some (tag, user)
    | _ => none

/-- The limiter updates among some calls: tag and updated records. -/
def limiterUpdates (calls : List Call) : List (String × List SubscriptionInfo) :=
  calls.filterMap fun c =>
    match c with
    | .UpdateInboundLimiter tag updated => some (tag, updated)
    | _ => none

/-- The calls a tick issues from state `s`: what it appends to the trace. -/
def issued (env : Env) (s : Sys) : List Call :=
  (nodeInfoMonitor env s).2.trace.drop s.trace.length

/-! ## Spec-side notions for the claims about `Compare` -/

/-- The four compared fields agree, in the spec's words: credential,
identifier, speed limit, IP limit. -/
def fieldsEqual (o n : SubscriptionInfo) : Prop :=
  o.Passwd = n.Passwd ∧ o.Email = n.Email ∧ o.SpeedLimit = n.SpeedLimit ∧ o.IPLimit = n.IPLimit

instance (o n : SubscriptionInfo) : Decidable (fieldsEqual o n) := by
  unfold fieldsEqual; infer_instance

/-- The unchanged ids of the spec: the ids present in both snapshots whose
records agree on all four fields. -/
def unchangedIds (old new : List SubscriptionInfo) : List Int :=
  ids (old.filter fun o => new.any fun n => decide (n.Id = o.Id ∧ fieldsEqual o n))

/-- A well-formed map of subscribers: keys unique, and every record filed
under its own id. -/
def GoMap.WF (m : GoMap) : Prop := (m.map Prod.fst).Nodup ∧ ∀ p ∈ m, p.2.Id = p.1

/-- The test under which the second loop of `Compare` files a record as modified. -/
def changedIn (oldMap : GoMap) (p : Int × SubscriptionInfo) : Bool :=
  match GoMap.get? oldMap p.1 with
  | none => false
  | some oldSub => propertiesChanged oldSub p.2

/-! ## Concrete records and snapshots used by the witnesses -/

/-- A subscriber record with the given id and otherwise fixed fields. -/
def subscriber (id : Int) : SubscriptionInfo :=
  { Id := id, Email := "user", Passwd := "secret", IPLimit := 2, SpeedLimit := 1000 }

/-- The record `subscriber 2` with a changed credential. -/
def subscriber2Changed : SubscriptionInfo :=
  { Id := 2, Email := "user", Passwd := "changed", IPLimit := 2, SpeedLimit := 1000 }

/-- A node descriptor of the given node type, on port 443 with node id 7 and
speed limit 5000, without relay and without blocking rules. -/
def plainNode (nodeType : String) : NodeInfo :=
  { NodeType := nodeType, NodeID := 7, ListeningPort := "443", SecurityType := "tls"
    TlsSettings := ⟨"none", ""⟩, Cipher := "", Flow := "xtls-rprx-vision", SpeedLimit := 5000
    RelayType := 0, RelayNodeID := 0, BlockingRules := ⟨"", none, none, none⟩
    UpdateTime := 60 }

/-- A controller in the steady state for `plainNode "vless"`, retaining the
snapshot `{1, 2}`. -/
def steadyController : Controller :=
  { nodeInfo := plainNode "vless", relaynodeInfo := none
    Tag := buildNodeTag (plainNode "vless"), LogPrefix := "", RelayTag := "", Relay := false
    subscriptionList := [subscriber 1, subscriber 2] }

/-- An environment in which both fetches answer not-modified and nothing
fails; the relay descriptor cannot be fetched. -/
def quietEnv : Env :=
  { NodeNotModified := "NodeNotModified"
    SubscriptionNotModified := "SubscriptionNotModified"
    GetNodeInfo := .error "NodeNotModified"
    GetSubscriptionList := .error "SubscriptionNotModified"
    GetTransitNode := .error "relay node unreachable"
    InboundBuilder := fun _ _ => none
    OutboundBuilder := fun _ _ => none
    OutboundRelayBuilder := fun _ _ _ _ => none
    BlackholeOutboundBuilder := fun _ => none
    routerBuild := fun _ => none
    ToMemoryUser := fun _ => none
    dataPlane := fun _ _ => none
    rangeOld := RangeOrder.insertion
    rangeNew := RangeOrder.insertion }

/-- The environment of scenario 1: the node answers not-modified, the
subscriber fetch returns `{2, 3}`, nothing fails. -/
def scenario1Env : Env := { quietEnv with GetSubscriptionList := .ok [subscriber 2, subscriber 3] }

/-- A relay-active controller whose descriptor requests relay, retaining `{1, 2}`. -/
def relayHeadController : Controller :=
  { steadyController with
    nodeInfo := { plainNode "vless" with RelayType := 1, RelayNodeID := 3 }
    relaynodeInfo := some ⟨"vless", 3, 8443, "", ""⟩
    RelayTag := buildRNodeTag ⟨"vless", 3, 8443, "", ""⟩, Relay := true }

/-- The descriptor `plainNode "vless"` moved to port 8443. -/
def movedNode : NodeInfo := { plainNode "vless" with ListeningPort := "8443" }

/-- An environment in which the node fetch returns a descriptor of the
plugin-only kind, the subscribers answer not-modified, and no data-plane call
and no builder fails. -/
def pluginEnv : Env := { quietEnv with GetNodeInfo := .ok (plainNode "Shadowsocks-Plugin") }

/-- An environment in which the node fetch fails with a transport error. -/
def nodeErrorEnv : Env := { quietEnv with GetNodeInfo := .error "connection refused" }

/-- An environment in which the node answers not-modified and the subscriber
fetch fails with a transport error. -/
def subscriberErrorEnv : Env := { quietEnv with GetSubscriptionList := .error "connection refused" }

/-! ## Usage reporting (`Manager.SubscriptionMonitor`) -/

/-- The traffic counters of the stats manager of xray-core, by name: `none`
is a counter that does not exist yet (`GetCounter` returns `nil`). A value is
a cumulative byte count: it grows by the sizes of the buffers that pass and
is set back to zero by `resetTraffic`, so it is a natural number. -/
abbrev Counters := String → Option Nat

/-- Modelled from the spec: the declaration of `api.SubscriptionTraffic` is
not among the sources. One line of a usage report: id, up, down. -/
structure SubscriptionTraffic where
  Id : Int
  Upload : Nat
  Download : Nat
deriving DecidableEq, Repr, Inhabited

/-- Modelled from the spec: the declaration of `api.OnlineIP` is not among
the sources. The fields are those `ReportOnlineIPs` reads. -/
structure OnlineIP where
  Id : Int
  IP : String
deriving DecidableEq, Repr, Inhabited

/-- The name of the uplink counter of a composite key, as in `getTraffic`. -/
def upName (email : String) : String := "user>>>" ++ email ++ ">>>traffic>>>uplink"

/-- The name of the downlink counter of a composite key, as in `getTraffic`. -/
def downName (email : String) : String := "user>>>" ++ email ++ ">>>traffic>>>downlink"

/-- One of the two halves of `getTraffic`: the value read and the counter
kept, by name; both are dropped (`0`, `nil`) unless the counter exists and is
not zero. -/
def readCounter (st : Counters) (name : String) : Nat × Option String :=
  match st name with
  | some v => if v ≠ 0 then (v, some name) else (0, none)
  | none => (0, none)

/-- Function `Manager.getTraffic`: `(up, down, upCounter, downCounter)`. -/
def getTraffic (st : Counters) (email : String) : Nat × Nat × Option String × Option String :=
  ((readCounter st (upName email)).1, (readCounter st (downName email)).1,
   (readCounter st (upName email)).2, (readCounter st (downName email)).2)

/-- The three slices that the first loop of `SubscriptionMonitor` fills. -/
structure Usage where
  subscriptionTraffic : List SubscriptionTraffic
  upCounterList : List String
  downCounterList : List String
deriving DecidableEq, Repr, Inhabited

/-- The body of the first loop of `SubscriptionMonitor`, for one subscriber. -/
def collectOne (st : Counters) (tag : String) (acc : Usage) (subscription : SubscriptionInfo) :
    Usage :=
  let t := getTraffic st (buildUserTag tag subscription)
  if t.1 > 0 ∨ t.2.1 > 0 then
    { subscriptionTraffic :=
        acc.subscriptionTraffic ++ [⟨subscription.Id, t.1, t.2.1⟩]
      upCounterList :=
        match t.2.2.1 with
        | some upCounter => acc.upCounterList ++ [upCounter]
        | none => acc.upCounterList
      downCounterList :=
        match t.2.2.2 with
        | some downCounter => acc.downCounterList ++ [downCounter]
        | none => acc.downCounterList }
  else acc

/-- The first loop of `SubscriptionMonitor` (lines 158 to 174). -/
def collectTraffic (st : Counters) (tag : String) (subscriptionList : List SubscriptionInfo) :
    Usage :=
  subscriptionList.foldl (collectOne st tag) ⟨[], [], []⟩

/-- The call `counter.Set(0)` on the counter of the given name. -/
def Counters.reset (st : Counters) (name : String) : Counters :=
  fun n => if n = name then some 0 else st n

/-- Function `Manager.resetTraffic`: every collected counter is set to zero. -/
def resetTraffic (upCounterList downCounterList : List String) (st : Counters) : Counters :=
  downCounterList.foldl Counters.reset (upCounterList.foldl Counters.reset st)

/-- A call to the remote panel made by `SubscriptionMonitor`. -/
inductive RemoteCall where
  | ReportTraffic (subscriptionTraffic : List SubscriptionTraffic)
  | ReportOnlineIPs (onlineIPs : List OnlineIP)
deriving DecidableEq, Repr, Inhabited

/-- What `SubscriptionMonitor` cannot see: the answers of the remote panel to
the two reports, and the connected endpoints the limiter knows for a tag. -/
structure MonitorEnv where
  ReportTraffic : List SubscriptionTraffic → Err
  GetOnlineDevice : String → Except String (List OnlineIP)
  ReportOnlineIPs : List OnlineIP → Err

/-- The outcome of one `SubscriptionMonitor`: the returned error, the counters
afterwards, and the remote calls made, oldest first. -/
structure Monitored where
  err : Err
  counters : Counters
  calls : List RemoteCall

/-- Lines 176 to 187 of `SubscriptionMonitor`: a non-empty report is sent, and
the collected counters are reset only if the remote side accepts it. -/
def reportUsage (env : MonitorEnv) (u : Usage) (st : Counters) : Counters × List RemoteCall :=
  if u.subscriptionTraffic.length > 0 then
    match env.ReportTraffic u.subscriptionTraffic with
    | some _ => (st, [.ReportTraffic u.subscriptionTraffic])
    | none => (resetTraffic u.upCounterList u.downCounterList st,
        [.ReportTraffic u.subscriptionTraffic])
  else (st, [])

/-- Lines 189 to 199 of `SubscriptionMonitor`: the online endpoints of the tag
are reported if there are any; errors are logged only. -/
def reportOnline (env : MonitorEnv) (tag : String) : List RemoteCall :=
  match env.GetOnlineDevice tag with
  | .error _ => []
  | .ok onlineIPs => if onlineIPs.length > 0 then [.ReportOnlineIPs onlineIPs] else []

/-- Function `Manager.SubscriptionMonitor`. Logging is left out. -/
def SubscriptionMonitor (env : MonitorEnv) (subscriptionList : List SubscriptionInfo)
    (tag : String) (st : Counters) : Monitored :=
  let u := collectTraffic st tag subscriptionList
  let r := reportUsage env u st
  { err := none, counters := r.1, calls := r.2 ++ reportOnline env tag }

/-! ## Spec-side notions for the claims about usage reporting -/

/-- The value a counter reads as: zero when it does not exist yet. -/
def counterValue (st : Counters) (name : String) : Nat := (st name).getD 0

/-- The usage report in the spec's words: in snapshot order, one entry for
each subscriber whose up or down counter under the composite key is not zero. -/
def usageReport (st : Counters) (tag : String) (subscriptionList : List SubscriptionInfo) :
    List SubscriptionTraffic :=
  subscriptionList.filterMap fun u =>
    let up := counterValue st (upName (tag ++ "|" ++ u.Email ++ "|" ++ fmtInt u.Id))
    let down := counterValue st (downName (tag ++ "|" ++ u.Email ++ "|" ++ fmtInt u.Id))
    if up ≠ 0 ∨ down ≠ 0 then some ⟨u.Id, up, down⟩ else none

/-- Further accrual: no counter reads less in `st2` than in `st1`. -/
def Accrued (st1 st2 : Counters) : Prop :=
  ∀ name, counterValue st1 name ≤ counterValue st2 name

/-- The counters of scenario 4: subscriber 7 has sent 100 and received 200
bytes under the tag `vless_443_7`; no other counter exists. -/
def scenario4Counters : Counters := fun n =>
  if n = "user>>>vless_443_7|user|7>>>traffic>>>uplink" then some 100
  else if n = "user>>>vless_443_7|user|7>>>traffic>>>downlink" then some 200
  else none

/-- A panel whose traffic report fails in transport; no endpoint is online. -/
def failingPanel : MonitorEnv :=
  { ReportTraffic := fun _ => some "transport failed"
    GetOnlineDevice := fun _ => .ok []
    ReportOnlineIPs := fun _ => none }

/-- A panel that accepts every report; no endpoint is online. -/
def acceptingPanel : MonitorEnv :=
  { ReportTraffic := fun _ => none
    GetOnlineDevice := fun _ => .ok []
    ReportOnlineIPs := fun _ => none }

/-- A relay descriptor with the cipher `2022-blake3-aes-128-gcm`, written in
capitals, and the server key `serverKey`. -/
def relay128 : RelayNodeInfo :=
  { NodeType := "shadowsocks", NodeID := 3, ListeningPort := 8443
    Cipher := "2022-BLAKE3-AES-128-GCM", ServerKey := "serverKey" }

/-- A subscriber with a secret of 20 bytes. -/
def subscriber20 : SubscriptionInfo :=
  { Id := 5, Email := "user", Passwd := "0123456789abcdefghij", IPLimit := 2, SpeedLimit := 1000 }

/-! ## Spec-side notions for the claims about decimal text and port strings -/

/-- A decimal digit character. -/
def isDecimalDigit (c : Char) : Prop := '0' ≤ c ∧ c ≤ '9'

instance (c : Char) : Decidable (isDecimalDigit c) := by
  unfold isDecimalDigit; infer_instance

/-- The number a string of decimal digits denotes. -/
def decimalValue (cs : List Char) : Nat :=
  cs.foldl (fun acc c => acc * 10 + (c.toNat - '0'.toNat)) 0

/-- A well-formed port token: a single integer or a range of two integers. -/
inductive PortToken where
  | single (n : Nat)
  | range (a b : Nat)
deriving DecidableEq, Repr, Inhabited

/-- The decimal text of a port token: `n`, or `a-b`. -/
def PortToken.text : PortToken → List Char
  | .single n => Nat.toDigits 10 n
  | .range a b => Nat.toDigits 10 a ++ '-' :: Nat.toDigits 10 b

/-- The port range a token stands for: `[n, n]`, or `[a, b]`. -/
def PortToken.toRange : PortToken → PortRange
  | .single n => ⟨n, n⟩
  | .range a b => ⟨a, b⟩

/-- The values of a token are below 2^32. -/
def PortToken.InRange : PortToken → Prop
  | .single n => n < 2 ^ 32
  | .range a b => a < 2 ^ 32 ∧ b < 2 ^ 32

instance (t : PortToken) : Decidable t.InRange := by
  cases t <;> unfold PortToken.InRange <;> infer_instance

/-- Texts joined by commas. -/
def joinComma : List (List Char) → List Char
  | [] => []
  | [t] => t
  | t :: t' :: ts => t ++ ',' :: joinComma (t' :: ts)

/-- An unsigned decimal integer that fits 32 bits: digits only, at least one. -/
def isUInt32Text (cs : List Char) : Prop :=
  cs ≠ [] ∧ (∀ c ∈ cs, isDecimalDigit c) ∧ decimalValue cs < 2 ^ 32

instance (cs : List Char) : Decidable (isUInt32Text cs) := by
  unfold isUInt32Text; infer_instance

/-- A token of the port grammar, white space around the numbers aside: an
unsigned integer, or two unsigned integers with a `-` between them. -/
def wellFormedPortToken (p : List Char) : Prop :=
  isUInt32Text p ∨
    ∃ a b, p = a ++ '-' :: b ∧ isUInt32Text (TrimSpace a) ∧ isUInt32Text (TrimSpace b)

/-! ## `Controller.Start` and the task manager -/

/-- The value of an `int64` after an arithmetic operation whose mathematical
result is `x`: Go wraps around. -/
def wrapInt64 (x : Int) : Int := (x + 2 ^ 63) % 2 ^ 64 - 2 ^ 63

/-- The constant `time.Second`, a `time.Duration` in nanoseconds. -/
def Second : Int := 1000000000

/-- Modelled from the spec: package `helper/task` is not among the sources. A
periodic task as `task.NewWithInterval` makes it, by name and interval; the
interval is a `time.Duration`, an `int64` of nanoseconds; the function the
task runs is the one `Start` passes under that name. -/
structure Task where
  Name : String
  Interval : Int
deriving DecidableEq, Repr, Inhabited

/-- How a call of `Start` ends. `tasks` are the tasks handed to
`taskManager.Add`, in order; `startAll` tells whether `taskManager.StartAll`
was called. -/
structure Started where
  ret : Ret
  tasks : List Task
  startAll : Bool
deriving DecidableEq, Repr, Inhabited

/-- Function `Controller.logPrefix`. -/
def logPrefix (APIHost : String) (nodeInfo : NodeInfo) : String :=
  "[" ++ APIHost ++ "] " ++ nodeInfo.NodeType ++ "(NodeID=" ++ fmtInt nodeInfo.NodeID ++ ")"

/-- Lines 89 to 111 of `Start`: the relay topology of a relay-requesting
descriptor. Both failures end in `log.Panic`. -/
def startRelay (env : Env) : Tick (Step Unit) := do
  assign fun c => { c with Relay := false }
  -- Add new relay tag
  if (← self).nodeInfo.RelayType = 1 && (← self).nodeInfo.RelayNodeID > 0 then
    match env.GetTransitNode with
    | .error e => return .stop (.panicked e)
    | .ok newRelayNodeInfo =>
      assign fun c => { c with relaynodeInfo := some newRelayNodeInfo }
      assign fun c => { c with RelayTag := buildRNodeTag newRelayNodeInfo }
      if let some e ← live (AddRelayTag env newRelayNodeInfo (← self).RelayTag (← self).Tag
          (← self).subscriptionList) then
        return .stop (.panicked e)
      assign fun c => { c with Relay := true }
  return .next ()

/-- The interval `time.Duration(c.nodeInfo.UpdateTime)*time.Second` of the
poll tasks, in `int64` arithmetic. -/
def pollInterval (nodeInfo : NodeInfo) : Int :=
  wrapInt64 (wrapInt64 nodeInfo.UpdateTime * Second)

/-- Lines 156 to 180 of `Start`: the tasks handed to the task manager. The
interval of the renewal task is
`time.Duration(c.nodeInfo.UpdateTime)*time.Second*60`. -/
def startTasks (nodeInfo : NodeInfo) : List Task :=
  [⟨"server", pollInterval nodeInfo⟩, ⟨"subscriptions", pollInterval nodeInfo⟩] ++
  -- Check cert service if needed
  if nodeInfo.SecurityType = "tls" then
    if nodeInfo.TlsSettings.CertMode ≠ "none" then
      [⟨"cert renew", wrapInt64 (pollInterval nodeInfo * 60)⟩]
    else []
  else []

/-- Lines 113 to 185 of `Start`: blocking rules, primary topology, subscriber
credentials and limiter, then the tasks. A failed `AddInboundLimiter` is only
printed. `StartAll` is the answer of `taskManager.StartAll`, which is not
among the sources. -/
def startTopology (env : Env) (APIHost : String) (StartAll : List Task → Err)
    (newNodeInfo : NodeInfo) (subscriptionInfo : List SubscriptionInfo) : Tick Started := do
  if let some e ← live (AddRuleTag env (← self).nodeInfo (← self).Tag) then
    return ⟨.panicked e, [], false⟩
  -- Add new tag
  if let some e ← live (AddTag env (← self).nodeInfo (← self).Tag) then
    return ⟨.panicked e, [], false⟩
  -- Add user Subscriptions
  if let some e ← live (AddNewSubscription env subscriptionInfo newNodeInfo (← self).Tag) then
    return ⟨.returned (some e), [], false⟩
  -- Add Limiter
  let _ ← live (AddInboundLimiter env (← self).Tag newNodeInfo.SpeedLimit subscriptionInfo)
  assign fun c => { c with LogPrefix := logPrefix APIHost c.nodeInfo }
  -- Add periodic tasks using the task manager
  let tasks := startTasks (← self).nodeInfo
  -- Start all tasks
  return ⟨.returned (StartAll tasks), tasks, true⟩

/-- Function `Controller.Start`. `APIHost` is the host of `c.client.Describe()`. -/
def Start (env : Env) (APIHost : String) (StartAll : List Task → Err) : Tick Started := do
  match env.GetNodeInfo with
  | .error e => return ⟨.returned (some e), [], false⟩
  | .ok newNodeInfo =>
    assign fun c => { c with nodeInfo := newNodeInfo }
    assign fun c => { c with Tag := buildNodeTag c.nodeInfo }
    -- Update Subscription
    match env.GetSubscriptionList with
    | .error e => return ⟨.returned (some e), [], false⟩
    | .ok subscriptionInfo =>
      assign fun c => { c with subscriptionList := subscriptionInfo }
      match ← startRelay env with
      | .stop r => return ⟨r, [], false⟩
      | .next _ => startTopology env APIHost StartAll newNodeInfo subscriptionInfo

/-- The controller `New` returns: every field that `Start` sets has its zero value. -/
def newController : Controller :=
  { nodeInfo := default, relaynodeInfo := none, Tag := "", LogPrefix := "", RelayTag := "",
    Relay := false, subscriptionList := [] }

/-- The system before `Start`: a new controller and an empty data plane. -/
def newSys : Sys := ⟨newController, []⟩

/-! ## What a trace leaves live -/

/-- Modelled from the spec: the registries of xray-core are not among the
sources. The tags of the inbounds, outbounds, routing rules and limiters that
are registered, each registry keyed by tag. -/
structure Plane where
  inbounds : List String
  outbounds : List String
  rules : List String
  limiters : List String
deriving DecidableEq, Repr, Inhabited

/-- Modelled from the spec: the effect of one successful data-plane call on
the registries. An add registers the tag of the object, a remove takes the tag
out; calls on the users of an inbound leave the registries as they are. -/
def Plane.apply (p : Plane) : Call → Plane
  | .AddInbound tag _ => { p with inbounds := tag :: p.inbounds.filter (· ≠ tag) }
  | .RemoveInbound tag => { p with inbounds := p.inbounds.filter (· ≠ tag) }
  | .AddOutbound spec => { p with outbounds := spec.tag :: p.outbounds.filter (· ≠ spec.tag) }
  | .RemoveOutbound tag => { p with outbounds := p.outbounds.filter (· ≠ tag) }
  | .AddRule rules =>
    { p with rules := rules.map (·.RuleTag) ++ p.rules.filter (· ∉ rules.map (·.RuleTag)) }
  | .RemoveRule ruleTag => { p with rules := p.rules.filter (· ≠ ruleTag) }
  | .AddInboundLimiter tag _ _ => { p with limiters := tag :: p.limiters.filter (· ≠ tag) }
  | .DeleteInboundLimiter tag => { p with limiters := p.limiters.filter (· ≠ tag) }
  | _ => p

/-- The registries after the calls of a trace, all successful, from `p` on. -/
def Plane.after (p : Plane) (calls : List Call) : Plane := calls.foldl Plane.apply p

/-- The empty data plane. -/
def Plane.empty : Plane := ⟨[], [], [], []⟩

/-- The objects every descriptor needs under `tag`, whatever its blocking
rules and relay settings: the inbound, the outbound and the blackhole outbound. -/
def Plane.Holds (p : Plane) (tag : String) : Prop :=
  tag ∈ p.inbounds ∧ tag ∈ p.outbounds ∧ (tag ++ "_blackhole") ∈ p.outbounds

instance (p : Plane) (tag : String) : Decidable (p.Holds tag) := by
  unfold Plane.Holds; infer_instance

/-! ## Notions and records for the claims about blocking rules, relay and start-up -/

/-- An environment for `Start`: the two fetches return the given descriptor
and snapshot, the relay descriptor is `relay128`, nothing fails. -/
def startEnv (nodeInfo : NodeInfo) (subscriptionInfo : List SubscriptionInfo) : Env :=
  { quietEnv with
    GetNodeInfo := .ok nodeInfo, GetSubscriptionList := .ok subscriptionInfo
    GetTransitNode := .ok relay128 }

/-- The descriptor `plainNode "vless"` with relay type 2 and relay node 5. -/
def relayType2Node : NodeInfo := { plainNode "vless" with RelayType := 2, RelayNodeID := 5 }

/-- The descriptor `plainNode "vless"` with a blocking port string of one
blank, and no blocking domains, ips or protocols. -/
def blankPortNode : NodeInfo := { plainNode "vless" with BlockingRules := ⟨" ", none, none, none⟩ }

/-- The descriptor `plainNode "vless"` with a lone comma as blocking port
string, and no blocking domains, ips or protocols. -/
def commaPortNode : NodeInfo := { plainNode "vless" with BlockingRules := ⟨",", none, none, none⟩ }

/-- The state in which `Start` enters its relay block: the fetched descriptor,
its tag and the fetched snapshot are assigned. -/
def startFetched (s : Sys) (newNodeInfo : NodeInfo) (subscriptionInfo : List SubscriptionInfo) :
    Sys :=
  ⟨{ s.c with
      nodeInfo := newNodeInfo, Tag := buildNodeTag newNodeInfo
      subscriptionList := subscriptionInfo }, s.trace⟩

/-- The relay block of `Start` went through, from the trace `tr` to the trace
`tr1`: the descriptor does not request relay and nothing was called, or the
relay descriptor was fetched and `AddRelayTag` returned nil. -/
def StartRelayDone (env : Env) (newNodeInfo : NodeInfo)
    (subscriptionInfo : List SubscriptionInfo) (tr tr1 : List Call) : Prop :=
  (requestsRelay newNodeInfo = false ∧ tr1 = tr) ∨
  (requestsRelay newNodeInfo = true ∧ ∃ relay, env.GetTransitNode = .ok relay ∧
    AddRelayTag env relay (buildRNodeTag relay) (buildNodeTag newNodeInfo) subscriptionInfo tr =
      (none, tr1))

/-- The protocol kinds of a node descriptor, as the sources spell them: the
four of the `switch` in `AddNewSubscription`, and the plugin-only kind that
`AddTag` rejects. -/
def protocolKinds : List String :=
  ["vless", "vmess", "trojan", "shadowsocks", "Shadowsocks-Plugin"]

/-! ## The calls a piece of data-plane code issues -/

/-- The calls that data-plane code issues when it is run after the trace `tr`. -/
def issuedBy {α : Type} (x : DP α) (tr : List Call) : List Call := (x tr).2.drop tr.length

/-- The tags of the outbounds that the calls add. -/
def outboundTagsAdded (calls : List Call) : List String :=
  calls.filterMap fun
    | .AddOutbound spec => some spec.tag
    | _ => none

/-- The tags of the rules that the calls add. -/
def ruleTagsAdded (calls : List Call) : List String :=
  calls.flatMap fun
    | .AddRule rules => rules.map (·.RuleTag)
    | _ => []

/-- The tags of the outbounds that the calls ask to remove. -/
def outboundTagsRemoved (calls : List Call) : List String :=
  calls.filterMap fun
    | .RemoveOutbound tag => some tag
    | _ => none

/-- The tags of the rules that the calls ask to remove. -/
def ruleTagsRemoved (calls : List Call) : List String :=
  calls.filterMap fun
    | .RemoveRule ruleTag => some ruleTag
    | _ => none

/-- No removal of an outbound or of a rule fails, whatever was called before. -/
def Env.RemovalsOK (env : Env) : Prop :=
  ∀ tr tag, env.dataPlane tr (.RemoveOutbound tag) = none ∧
    env.dataPlane tr (.RemoveRule tag) = none

/-- A call that `AddRelayTag` may issue for the given arguments: the relay
outbound or the relay rule of a subscriber of the list. -/
def IsRelayAdd (relayNodeInfo : RelayNodeInfo) (relayTag mainTag : String)
    (subscriptionInfo : List SubscriptionInfo) (c : Call) : Prop :=
  ∃ u ∈ subscriptionInfo,
    (∃ key, c = .AddOutbound (.relay relayTag relayNodeInfo u key)) ∨
    c = .AddRule [relayRule mainTag relayTag u]

/-- The words of the spec: the secret length a 2022-family cipher requires,
16 bytes, and 32 for the two stronger variants. -/
def requiredSecretLength (cipher : String) : Nat :=
  if ToLower cipher = "2022-blake3-aes-128-gcm" then 16 else 32

/-- The words of the spec: the key derived for a subscriber under a
2022-family cipher, the server key, `:` and the base64 text of the secret
truncated to the required length. -/
def derivedKey (relayNodeInfo : RelayNodeInfo) (subscription : SubscriptionInfo) : String :=
  relayNodeInfo.ServerKey ++ ":" ++
    base64Encode ((utf8Bytes subscription.Passwd).take (requiredSecretLength relayNodeInfo.Cipher))

/-- The subscribers whose secret meets the length requirement of the cipher, in list order. -/
def eligibleSubscribers (relayNodeInfo : RelayNodeInfo)
    (subscriptionInfo : List SubscriptionInfo) : List SubscriptionInfo :=
  subscriptionInfo.filter fun u =>
    requiredSecretLength relayNodeInfo.Cipher ≤ (utf8Bytes u.Passwd).length

/-- The relay descriptor `relay128` with the plugin-only node type. -/
def pluginRelay : RelayNodeInfo := { relay128 with NodeType := "Shadowsocks-Plugin" }

/-- An environment in which nothing fails but the builder of relay outbounds. -/
def relayBuilderErrorEnv : Env :=
  { quietEnv with OutboundRelayBuilder := fun _ _ _ _ => some "unknown relay protocol" }

/-- A subscriber with a secret of 6 bytes. -/
def subscriber6 : SubscriptionInfo := subscriber 1

/-! ## Spec-side notions for the claims about the order of a tick -/

/-- The calls that provision a replaced node when nothing fails: the
credentials of the whole snapshot, then the limiter, under the new tag. An
empty snapshot needs no credential call, whatever the protocol. -/
def provisionCalls (newSubscriptionInfo : List SubscriptionInfo) (newNodeInfo : NodeInfo) :
    List Call :=
  (match buildUsers newSubscriptionInfo newNodeInfo (buildNodeTag newNodeInfo) with
    | some users => addUsersCalls users (buildNodeTag newNodeInfo)
    | none => []) ++
  [.AddInboundLimiter (buildNodeTag newNodeInfo) newNodeInfo.SpeedLimit newSubscriptionInfo]

/-- No sub-step of a tick on the fetched values `f` fails: no data-plane call
and no builder fails; on a dirty tick whatever relay work the descriptor needs
can be done; and when the descriptor is replaced, the new one is not of the
plugin-only kind, its blocking port string parses, and its protocol is
supported unless the snapshot is empty. -/
def Env.NothingFails (env : Env) (c : Controller) (f : Fetched) : Prop :=
  env.DataPlaneOK ∧ env.BuildersOK ∧
  ((f.subscriptionChanged || f.nodeInfoChanged) = true → env.RelayOK f.newNodeInfo) ∧
  (f.nodeInfoChanged = true → c.nodeInfo ≠ f.newNodeInfo →
    f.newNodeInfo.NodeType ≠ "Shadowsocks-Plugin" ∧
    (∃ rules, blockingRuleList f.newNodeInfo (buildNodeTag f.newNodeInfo) = .ok rules) ∧
    (f.newSubscriptionInfo = [] ∨
      ∃ users, buildUsers f.newSubscriptionInfo f.newNodeInfo (buildNodeTag f.newNodeInfo) =
        some users))

/-- The relay rules among the rules that the calls add: a relay rule is the
only kind of rule that names a user. -/
def relayRulesAdded (calls : List Call) : List Rule :=
  calls.flatMap fun
    | .AddRule rules => rules.filter (·.User.isSome)
    | _ => []

/-- The descriptor `movedNode` as a relay head for relay node 3. -/
def movedRelayHead : NodeInfo := { movedNode with RelayType := 1, RelayNodeID := 3 }

/-- An environment in which the node fetch returns the relay head on the new
port, the subscribers answer not-modified, the relay descriptor is fetched and
nothing fails. -/
def movedRelayEnv : Env :=
  { quietEnv with
    GetNodeInfo := .ok movedRelayHead, GetTransitNode := .ok ⟨"vless", 3, 8443, "", ""⟩ }

/-- The system after a `Start` in which nothing fails, for the descriptor
`plainNode "vless"` and the snapshot `{1, 2}`. -/
def runningSys : Sys :=
  (Start (startEnv (plainNode "vless") [subscriber 1, subscriber 2]) "panel" (fun _ => none)
    newSys).2

/-- An environment for `Start` in which every call succeeds but the
installation of the limiter. -/
def limiterErrorEnv : Env :=
  { startEnv (plainNode "vless") [subscriber 1] with
    dataPlane := fun _ c =>
      match c with
      | .AddInboundLimiter _ _ _ => some "limiter already exists"
      | _ => none }

/-- Whether a call adds a piece of relay topology: a relay outbound, or a
rule that names a user, as only relay rules do. -/
def addsRelay : Call → Bool
  | .AddOutbound (.relay _ _ _ _) => true
  | .AddRule rules => rules.any (·.User.isSome)
  | _ => false

/-- An environment in which the subscribers change to `{2, 3}`, the relay
descriptor is fetched, and nothing fails. -/
def relayDeltaEnv : Env := { scenario1Env with GetTransitNode := .ok ⟨"vless", 3, 8443, "", ""⟩ }

/-- A removal that targets the old tag: its inbound, outbound and default
route, its blocking route and blackhole outbound, and the same for the
dokodemo-door companion of a plugin node. -/
def IsOldRemoval (oldTag : String) (c : Call) : Prop :=
  c ∈ removeTagCalls oldTag ∨ c ∈ removeBlockingCalls oldTag ∨
    c ∈ removeTagCalls ("dokodemo-door_" ++ oldTag ++ "+1")

/-- An add of the topology of the new descriptor under its tag: the blackhole
outbound, the blocking rule list, the inbound, the outbound, the default route. -/
def IsNewTopologyAdd (newNodeInfo : NodeInfo) (c : Call) : Prop :=
  c = .AddOutbound (.blackhole (buildNodeTag newNodeInfo)) ∨
  (∃ rules, blockingRuleList newNodeInfo (buildNodeTag newNodeInfo) = .ok rules ∧
    c = .AddRule rules) ∨
  c ∈ [Call.AddInbound (buildNodeTag newNodeInfo) newNodeInfo,
    .AddOutbound (.main (buildNodeTag newNodeInfo) newNodeInfo),
    .AddRule [defaultRule (buildNodeTag newNodeInfo)]]

/-- The trace `tr2` continues the trace `tr1` by calls that add no piece of
relay topology. -/
def NoRelayAddSince (tr1 tr2 : List Call) : Prop :=
  ∃ calls, tr2 = tr1 ++ calls ∧ ∀ c ∈ calls, addsRelay c = false

/-! # Theorems

Lemmas on the embedding first, then the claims, each under its id. -/

/-! ## Lemmas on Go maps -/

theorem GoMap.get?_set (m : GoMap) (k k' : Int) (v : SubscriptionInfo) :
    GoMap.get? (GoMap.set m k v) k' = if k = k' then some v else GoMap.get? m k' := by
  induction m with
  | nil => simp [GoMap.set, GoMap.get?]
  | cons p m ih =>
    obtain ⟨a, b⟩ := p
    by_cases h : a = k
    · subst h
      by_cases h' : a = k' <;> simp [GoMap.set, GoMap.get?, h']
    · by_cases h' : a = k'
      · subst h'; simp [GoMap.set, GoMap.get?, h, Ne.symm h]
      · simp [GoMap.set, GoMap.get?, h, h', ih]

theorem GoMap.keys_set (m : GoMap) (k : Int) (v : SubscriptionInfo) :
    (GoMap.set m k v).map Prod.fst =
      if k ∈ m.map Prod.fst then m.map Prod.fst else m.map Prod.fst ++ [k] := by
  induction m with
  | nil => simp [GoMap.set]
  | cons p m ih =>
    obtain ⟨a, b⟩ := p
    by_cases h : a = k
    · subst h; simp [GoMap.set]
    · have h' : ¬ k = a := fun e => h e.symm
      simp only [GoMap.set, h, if_false, List.map_cons, ih, List.mem_cons, h', false_or]
      split <;> simp

theorem GoMap.WF_set (m : GoMap) (v : SubscriptionInfo) (h : GoMap.WF m) :
    GoMap.WF (GoMap.set m v.Id v) := by
  constructor
  · rw [GoMap.keys_set]
    split
    · exact h.1
    · rename_i hk
      exact List.Nodup.append h.1 (List.nodup_singleton _) (by simpa using hk)
  · induction m with
    | nil => simp [GoMap.set]
    | cons p m ih =>
      obtain ⟨a, b⟩ := p
      have hm : GoMap.WF m := ⟨(List.nodup_cons.1 h.1).2, fun q hq => h.2 q (List.mem_cons_of_mem _ hq)⟩
      by_cases e : a = v.Id
      · simp only [GoMap.set, e, if_true]
        intro q hq
        rcases List.mem_cons.1 hq with rfl | hq
        · rfl
        · exact h.2 q (List.mem_cons_of_mem _ hq)
      · simp only [GoMap.set, e, if_false]
        intro q hq
        rcases List.mem_cons.1 hq with rfl | hq
        · exact h.2 _ (List.mem_cons_self _ _)
        · exact ih hm q hq

theorem foldl_set_WF (l : List SubscriptionInfo) (m : GoMap) (h : GoMap.WF m) :
    GoMap.WF (l.foldl (fun m v => GoMap.set m v.Id v) m) := by
  induction l generalizing m with
  | nil => exact h
  | cons a l ih => exact ih _ (GoMap.WF_set m a h)

theorem populate_WF (l : List SubscriptionInfo) : GoMap.WF (populate l) :=
  foldl_set_WF l [] ⟨List.nodup_nil, fun _ h => absurd h (List.not_mem_nil _)⟩

theorem get?_foldl_set (l : List SubscriptionInfo) (m : GoMap) (k : Int) :
    GoMap.get? (l.foldl (fun m v => GoMap.set m v.Id v) m) k =
      (lastWithId l k).or (GoMap.get? m k) := by
  induction l generalizing m with
  | nil => simp [lastWithId]
  | cons a l ih =>
    rw [List.foldl_cons, ih, GoMap.get?_set]
    simp only [lastWithId, List.reverse_cons, List.find?_append]
    cases h : List.find? (fun v => decide (v.Id = k)) l.reverse with
    | some r => simp
    | none =>
      by_cases e : a.Id = k <;> simp [List.find?, e]

theorem get?_populate (l : List SubscriptionInfo) (k : Int) :
    GoMap.get? (populate l) k = lastWithId l k := by
  unfold populate
  rw [get?_foldl_set]
  simp [GoMap.get?]

theorem GoMap.mem_iff_get? (m : GoMap) (h : (m.map Prod.fst).Nodup) (k : Int)
    (v : SubscriptionInfo) : (k, v) ∈ m ↔ GoMap.get? m k = some v := by
  induction m with
  | nil => simp [GoMap.get?]
  | cons p m ih =>
    obtain ⟨a, b⟩ := p
    have hn := List.nodup_cons.1 h
    by_cases e : a = k
    · subst e
      simp only [GoMap.get?, if_true, List.mem_cons, Prod.mk.injEq, true_and, Option.some.injEq]
      constructor
      · rintro (rfl | hm)
        · rfl
        · exact absurd (List.mem_map_of_mem Prod.fst hm) hn.1
      · intro e; exact Or.inl e.symm
    · have e' : ¬ k = a := fun x => e x.symm
      simp [GoMap.get?, e, e', ih hn.2]

/-! ## Lemmas on `lastWithId` -/

theorem lastWithId_eq_none (l : List SubscriptionInfo) (k : Int) :
    lastWithId l k = none ↔ k ∉ ids l := by
  simp only [lastWithId, List.find?_eq_none, List.mem_reverse, ids, List.mem_map, not_exists,
    not_and, decide_eq_true_eq]

theorem lastWithId_some_mem {l : List SubscriptionInfo} {k : Int} {r : SubscriptionInfo}
    (h : lastWithId l k = some r) : r ∈ l ∧ r.Id = k := by
  unfold lastWithId at h
  have h1 := List.mem_of_find?_eq_some h
  have h2 := List.find?_some h
  exact ⟨List.mem_reverse.1 h1, by simpa using h2⟩

theorem lastWithId_of_unique {l : List SubscriptionInfo} (hu : UniqueIds l)
    {r : SubscriptionInfo} (hr : r ∈ l) : lastWithId l r.Id = some r := by
  cases h : lastWithId l r.Id with
  | none =>
    exact absurd (List.mem_map_of_mem _ hr) ((lastWithId_eq_none l r.Id).1 h)
  | some r' =>
    obtain ⟨hm, hid⟩ := lastWithId_some_mem h
    have := List.inj_on_of_nodup_map hu hm hr hid
    rw [this]

theorem lastWithId_isSome (l : List SubscriptionInfo) (k : Int) (h : k ∈ ids l) :
    ∃ r, lastWithId l k = some r := by
  cases e : lastWithId l k with
  | none => exact absurd h ((lastWithId_eq_none l k).1 e)
  | some r => exact ⟨r, rfl⟩

/-! ## The two loops of `Compare` as filters -/

theorem compareDeleted_eq (newMap visit : GoMap) :
    compareDeleted newMap visit =
      (visit.filter fun p => (GoMap.get? newMap p.1).isNone).map Prod.snd := by
  unfold compareDeleted
  suffices h : ∀ acc : List SubscriptionInfo,
      visit.foldl (fun deleted p =>
        match GoMap.get? newMap p.1 with
        | none => deleted ++ [p.2]
        | some _ => deleted) acc =
      acc ++ (visit.filter fun p => (GoMap.get? newMap p.1).isNone).map Prod.snd by
    simpa using h []
  induction visit with
  | nil => simp
  | cons p visit ih =>
    intro acc
    rw [List.foldl_cons, ih]
    cases h : GoMap.get? newMap p.1 <;> simp [List.filter_cons, h]

theorem compareAddedModified_eq (oldMap visit : GoMap) :
    compareAddedModified oldMap visit =
      ((visit.filter fun p => (GoMap.get? oldMap p.1).isNone).map Prod.snd,
       (visit.filter (changedIn oldMap)).map Prod.snd) := by
  unfold compareAddedModified
  suffices h : ∀ acc : List SubscriptionInfo × List SubscriptionInfo,
      visit.foldl (fun acc p =>
        match GoMap.get? oldMap p.1 with
        | none => (acc.1 ++ [p.2], acc.2)
        | some oldSub =>
          if propertiesChanged oldSub p.2 then (acc.1, acc.2 ++ [p.2]) else acc) acc =
      (acc.1 ++ (visit.filter fun p => (GoMap.get? oldMap p.1).isNone).map Prod.snd,
       acc.2 ++ (visit.filter (changedIn oldMap)).map Prod.snd) by
    simpa using h ([], [])
  induction visit with
  | nil => simp
  | cons p visit ih =>
    intro acc
    rw [List.foldl_cons, ih]
    cases h : GoMap.get? oldMap p.1 with
    | none => simp [List.filter_cons, h, changedIn]
    | some o =>
      by_cases hc : propertiesChanged o p.2 <;> simp [List.filter_cons, h, changedIn, hc]

theorem Compare_some (ro rn : RangeOrder) (o n : List SubscriptionInfo) :
    Compare ro rn (some o) (some n) =
      ⟨((ro.shuffle (populate o)).filter fun p => (GoMap.get? (populate n) p.1).isNone).map Prod.snd,
       ((rn.shuffle (populate n)).filter fun p => (GoMap.get? (populate o) p.1).isNone).map Prod.snd,
       ((rn.shuffle (populate n)).filter (changedIn (populate o))).map Prod.snd⟩ := by
  simp only [Compare, compareDeleted_eq, compareAddedModified_eq]

/-- Membership in the values of a filtered, shuffled well-formed map. -/
theorem mem_filter_shuffle (r : RangeOrder) (l : List SubscriptionInfo)
    (f : Int × SubscriptionInfo → Bool) (x : SubscriptionInfo) :
    x ∈ ((r.shuffle (populate l)).filter f).map Prod.snd ↔
      lastWithId l x.Id = some x ∧ f (x.Id, x) = true := by
  have wf := populate_WF l
  simp only [List.mem_map, List.mem_filter]
  constructor
  · rintro ⟨⟨k, v⟩, ⟨hm, hf⟩, rfl⟩
    have hm' : (k, v) ∈ populate l := (r.perm _).mem_iff.1 hm
    have hk : v.Id = k := wf.2 _ hm'
    subst hk
    exact ⟨by rw [← get?_populate]; exact (GoMap.mem_iff_get? _ wf.1 _ _).1 hm', hf⟩
  · rintro ⟨hl, hf⟩
    refine ⟨(x.Id, x), ⟨(r.perm _).mem_iff.2 ?_, hf⟩, rfl⟩
    rw [← get?_populate] at hl
    exact (GoMap.mem_iff_get? _ wf.1 _ _).2 hl

/-- The values of a filtered, shuffled well-formed map have distinct ids. -/
theorem nodup_ids_filter_shuffle (r : RangeOrder) (l : List SubscriptionInfo)
    (f : Int × SubscriptionInfo → Bool) :
    (ids (((r.shuffle (populate l)).filter f).map Prod.snd)).Nodup := by
  have wf := populate_WF l
  have hfst : ids (((r.shuffle (populate l)).filter f).map Prod.snd) =
      ((r.shuffle (populate l)).filter f).map Prod.fst := by
    simp only [ids, List.map_map]
    apply List.map_congr_left
    intro p hp
    exact wf.2 p ((r.perm _).mem_iff.1 (List.mem_of_mem_filter hp))
  rw [hfst]
  have h1 : ((r.shuffle (populate l)).map Prod.fst).Nodup :=
    ((r.perm _).map Prod.fst).nodup_iff.2 wf.1
  exact List.Nodup.sublist (List.Sublist.map _ (List.filter_sublist _)) h1

theorem mem_deleted (ro rn : RangeOrder) (o n : List SubscriptionInfo) (x : SubscriptionInfo) :
    x ∈ (Compare ro rn (some o) (some n)).deleted ↔
      lastWithId o x.Id = some x ∧ x.Id ∉ ids n := by
  rw [Compare_some, mem_filter_shuffle]
  simp [get?_populate, lastWithId_eq_none]

theorem mem_added (ro rn : RangeOrder) (o n : List SubscriptionInfo) (x : SubscriptionInfo) :
    x ∈ (Compare ro rn (some o) (some n)).added ↔
      lastWithId n x.Id = some x ∧ x.Id ∉ ids o := by
  rw [Compare_some, mem_filter_shuffle]
  simp [get?_populate, lastWithId_eq_none]

theorem mem_modified (ro rn : RangeOrder) (o n : List SubscriptionInfo) (x : SubscriptionInfo) :
    x ∈ (Compare ro rn (some o) (some n)).modified ↔
      lastWithId n x.Id = some x ∧
        ∃ oldSub, lastWithId o x.Id = some oldSub ∧ propertiesChanged oldSub x = true := by
  rw [Compare_some, mem_filter_shuffle]
  simp only [changedIn, get?_populate]
  cases h : lastWithId o x.Id <;> simp

theorem propertiesChanged_iff (o n : SubscriptionInfo) :
    propertiesChanged o n = true ↔ ¬ fieldsEqual o n := by
  simp only [propertiesChanged, fieldsEqual, Bool.or_eq_true, bne_iff_ne, ne_eq]
  tauto

/-! ## Ids of the three results -/

theorem mem_ids_deleted (ro rn : RangeOrder) (o n : List SubscriptionInfo) (k : Int) :
    k ∈ ids (Compare ro rn (some o) (some n)).deleted ↔ k ∈ ids o ∧ k ∉ ids n := by
  constructor
  · intro h
    obtain ⟨x, hx, rfl⟩ := List.mem_map.1 h
    obtain ⟨h1, h2⟩ := (mem_deleted ro rn o n x).1 hx
    exact ⟨List.mem_map_of_mem _ (lastWithId_some_mem h1).1, h2⟩
  · rintro ⟨h1, h2⟩
    obtain ⟨r, hr⟩ := lastWithId_isSome o k h1
    have hk := (lastWithId_some_mem hr).2
    subst hk
    exact List.mem_map_of_mem _ ((mem_deleted ro rn o n r).2 ⟨hr, h2⟩)

theorem mem_ids_added (ro rn : RangeOrder) (o n : List SubscriptionInfo) (k : Int) :
    k ∈ ids (Compare ro rn (some o) (some n)).added ↔ k ∈ ids n ∧ k ∉ ids o := by
  constructor
  · intro h
    obtain ⟨x, hx, rfl⟩ := List.mem_map.1 h
    obtain ⟨h1, h2⟩ := (mem_added ro rn o n x).1 hx
    exact ⟨List.mem_map_of_mem _ (lastWithId_some_mem h1).1, h2⟩
  · rintro ⟨h1, h2⟩
    obtain ⟨r, hr⟩ := lastWithId_isSome n k h1
    have hk := (lastWithId_some_mem hr).2
    subst hk
    exact List.mem_map_of_mem _ ((mem_added ro rn o n r).2 ⟨hr, h2⟩)

theorem mem_ids_modified (ro rn : RangeOrder) (o n : List SubscriptionInfo) (k : Int) :
    k ∈ ids (Compare ro rn (some o) (some n)).modified ↔
      ∃ a b, lastWithId o k = some a ∧ lastWithId n k = some b ∧ ¬ fieldsEqual a b := by
  constructor
  · intro h
    obtain ⟨x, hx, rfl⟩ := List.mem_map.1 h
    obtain ⟨h1, a, h2, h3⟩ := (mem_modified ro rn o n x).1 hx
    exact ⟨a, x, h2, h1, (propertiesChanged_iff a x).1 h3⟩
  · rintro ⟨a, b, h1, h2, h3⟩
    have hk := (lastWithId_some_mem h2).2
    subst hk
    exact List.mem_map_of_mem _
      ((mem_modified ro rn o n b).2 ⟨h2, a, h1, (propertiesChanged_iff a b).2 h3⟩)

theorem mem_unchangedIds (o n : List SubscriptionInfo) (k : Int) :
    k ∈ unchangedIds o n ↔ ∃ a ∈ o, ∃ b ∈ n, a.Id = k ∧ b.Id = k ∧ fieldsEqual a b := by
  simp only [unchangedIds, ids, List.mem_map, List.mem_filter, List.any_eq_true,
    decide_eq_true_eq]
  constructor
  · rintro ⟨a, ⟨ha, b, hb, hid, hf⟩, rfl⟩
    exact ⟨a, ha, b, hb, rfl, hid, hf⟩
  · rintro ⟨a, ha, b, hb, rfl, hid, hf⟩
    exact ⟨a, ⟨ha, b, hb, hid, hf⟩, rfl⟩

/-- Every id of the old snapshot is deleted, modified or unchanged, and
nothing else is; this needs no uniqueness of ids. -/
theorem old_ids_cover (ro rn : RangeOrder) (o n : List SubscriptionInfo) (k : Int) :
    (k ∈ ids (Compare ro rn (some o) (some n)).deleted ∨
      k ∈ ids (Compare ro rn (some o) (some n)).modified ∨ k ∈ unchangedIds o n) ↔
    k ∈ ids o := by
  rw [mem_ids_deleted, mem_ids_modified, mem_unchangedIds]
  constructor
  · rintro (⟨h, _⟩ | ⟨a, b, h1, _, _⟩ | ⟨a, ha, b, _, rfl, _, _⟩)
    · exact h
    · have := lastWithId_some_mem h1
      exact this.2 ▸ List.mem_map_of_mem _ this.1
    · exact List.mem_map_of_mem _ ha
  · intro h
    by_cases hn : k ∈ ids n
    · obtain ⟨a, ha⟩ := lastWithId_isSome o k h
      obtain ⟨b, hb⟩ := lastWithId_isSome n k hn
      by_cases hf : fieldsEqual a b
      · exact Or.inr (Or.inr ⟨a, (lastWithId_some_mem ha).1, b, (lastWithId_some_mem hb).1,
          (lastWithId_some_mem ha).2, (lastWithId_some_mem hb).2, hf⟩)
      · exact Or.inr (Or.inl ⟨a, b, ha, hb, hf⟩)
    · exact Or.inl ⟨h, hn⟩

/-- Every id of the new snapshot is added, modified or unchanged, and
nothing else is; this needs no uniqueness of ids. -/
theorem new_ids_cover (ro rn : RangeOrder) (o n : List SubscriptionInfo) (k : Int) :
    (k ∈ ids (Compare ro rn (some o) (some n)).added ∨
      k ∈ ids (Compare ro rn (some o) (some n)).modified ∨ k ∈ unchangedIds o n) ↔
    k ∈ ids n := by
  rw [mem_ids_added, mem_ids_modified, mem_unchangedIds]
  constructor
  · rintro (⟨h, _⟩ | ⟨a, b, _, h2, _⟩ | ⟨a, _, b, hb, _, rfl, _⟩)
    · exact h
    · have := lastWithId_some_mem h2
      exact this.2 ▸ List.mem_map_of_mem _ this.1
    · exact List.mem_map_of_mem _ hb
  · intro h
    by_cases ho : k ∈ ids o
    · obtain ⟨a, ha⟩ := lastWithId_isSome o k ho
      obtain ⟨b, hb⟩ := lastWithId_isSome n k h
      by_cases hf : fieldsEqual a b
      · exact Or.inr (Or.inr ⟨a, (lastWithId_some_mem ha).1, b, (lastWithId_some_mem hb).1,
          (lastWithId_some_mem ha).2, (lastWithId_some_mem hb).2, hf⟩)
      · exact Or.inr (Or.inl ⟨a, b, ha, hb, hf⟩)
    · exact Or.inl ⟨h, ho⟩

/-- With unique ids no id is both modified and unchanged. -/
theorem modified_not_unchanged (ro rn : RangeOrder) (o n : List SubscriptionInfo)
    (ho : UniqueIds o) (hn : UniqueIds n) (k : Int)
    (hm : k ∈ ids (Compare ro rn (some o) (some n)).modified) : k ∉ unchangedIds o n := by
  rw [mem_ids_modified] at hm
  rw [mem_unchangedIds]
  rintro ⟨a, ha, b, hb, rfl, hid, hf⟩
  obtain ⟨a', b', h1, h2, h3⟩ := hm
  rw [lastWithId_of_unique ho ha] at h1
  rw [← hid, lastWithId_of_unique hn hb] at h2
  cases h1; cases h2
  exact h3 hf

/-! ## Claims C1 to C6: `Compare` -/

/-- C1. For non-null snapshots with unique ids, `Compare` partitions the ids:
deleted, modified and unchanged ids together are the ids of old; added,
modified and unchanged ids together are the ids of new; no id is both deleted
and added. The parts are moreover pairwise disjoint. -/
theorem Compare_partitions_ids (ro rn : RangeOrder) (old new : List SubscriptionInfo)
    (ho : UniqueIds old) (hn : UniqueIds new) :
    ((ids (Compare ro rn (some old) (some new)).deleted).toFinset ∪
        (ids (Compare ro rn (some old) (some new)).modified).toFinset ∪
        (unchangedIds old new).toFinset = (ids old).toFinset) ∧
    ((ids (Compare ro rn (some old) (some new)).added).toFinset ∪
        (ids (Compare ro rn (some old) (some new)).modified).toFinset ∪
        (unchangedIds old new).toFinset = (ids new).toFinset) ∧
    ((ids (Compare ro rn (some old) (some new)).deleted).toFinset ∩
        (ids (Compare ro rn (some old) (some new)).added).toFinset = ∅) ∧
    Disjoint (ids (Compare ro rn (some old) (some new)).deleted).toFinset
        (ids (Compare ro rn (some old) (some new)).modified).toFinset ∧
    Disjoint (ids (Compare ro rn (some old) (some new)).added).toFinset
        (ids (Compare ro rn (some old) (some new)).modified).toFinset ∧
    Disjoint (ids (Compare ro rn (some old) (some new)).deleted).toFinset
        (unchangedIds old new).toFinset ∧
    Disjoint (ids (Compare ro rn (some old) (some new)).added).toFinset
        (unchangedIds old new).toFinset ∧
    Disjoint (ids (Compare ro rn (some old) (some new)).modified).toFinset
        (unchangedIds old new).toFinset := by
  have hcov_o := old_ids_cover ro rn old new
  have hcov_n := new_ids_cover ro rn old new
  have hun : ∀ k, k ∈ unchangedIds old new → k ∈ ids old ∧ k ∈ ids new := fun k hk =>
    ⟨(hcov_o k).1 (Or.inr (Or.inr hk)), (hcov_n k).1 (Or.inr (Or.inr hk))⟩
  have hmo : ∀ k, k ∈ ids (Compare ro rn (some old) (some new)).modified →
      k ∈ ids old ∧ k ∈ ids new := fun k hk =>
    ⟨(hcov_o k).1 (Or.inr (Or.inl hk)), (hcov_n k).1 (Or.inr (Or.inl hk))⟩
  refine ⟨?_, ?_, ?_, ?_, ?_, ?_, ?_, ?_⟩
  · ext k
    simp only [Finset.mem_union, List.mem_toFinset, or_assoc]
    exact hcov_o k
  · ext k
    simp only [Finset.mem_union, List.mem_toFinset, or_assoc]
    exact hcov_n k
  · ext k
    simp only [Finset.mem_inter, List.mem_toFinset, Finset.not_mem_empty, iff_false, not_and,
      mem_ids_deleted, mem_ids_added]
    exact fun h h' => absurd h' h.2
  · rw [Finset.disjoint_left]
    intro k h1 h2
    rw [List.mem_toFinset] at h1 h2
    exact ((mem_ids_deleted ro rn old new k).1 h1).2 (hmo k h2).2
  · rw [Finset.disjoint_left]
    intro k h1 h2
    rw [List.mem_toFinset] at h1 h2
    exact ((mem_ids_added ro rn old new k).1 h1).2 (hmo k h2).1
  · rw [Finset.disjoint_left]
    intro k h1 h2
    rw [List.mem_toFinset] at h1 h2
    exact ((mem_ids_deleted ro rn old new k).1 h1).2 (hun k h2).2
  · rw [Finset.disjoint_left]
    intro k h1 h2
    rw [List.mem_toFinset] at h1 h2
    exact ((mem_ids_added ro rn old new k).1 h1).2 (hun k h2).1
  · rw [Finset.disjoint_left]
    intro k h1 h2
    rw [List.mem_toFinset] at h1 h2
    exact modified_not_unchanged ro rn old new ho hn k h1 h2

/-- C1, witness: old `{1, 2}`, new `{2 (changed), 3}`. -/
theorem Compare_partitions_ids_witness :
    UniqueIds [subscriber 1, subscriber 2] ∧ UniqueIds [subscriber2Changed, subscriber 3] ∧
    (ids (Compare RangeOrder.insertion RangeOrder.reversed
          (some [subscriber 1, subscriber 2]) (some [subscriber2Changed, subscriber 3])).deleted).toFinset ∪
        (ids (Compare RangeOrder.insertion RangeOrder.reversed
          (some [subscriber 1, subscriber 2]) (some [subscriber2Changed, subscriber 3])).modified).toFinset ∪
        (unchangedIds [subscriber 1, subscriber 2] [subscriber2Changed, subscriber 3]).toFinset =
      (ids [subscriber 1, subscriber 2]).toFinset :=
  ⟨by decide, by decide,
   (Compare_partitions_ids RangeOrder.insertion RangeOrder.reversed
      [subscriber 1, subscriber 2] [subscriber2Changed, subscriber 3] (by decide) (by decide)).1⟩

theorem nodup_of_uniqueIds {l : List SubscriptionInfo} (h : UniqueIds l) : l.Nodup :=
  List.Nodup.of_map _ h

theorem Compare_deleted_nodup (ro rn : RangeOrder) (o n : List SubscriptionInfo) :
    (ids (Compare ro rn (some o) (some n)).deleted).Nodup := by
  rw [Compare_some]; exact nodup_ids_filter_shuffle ro o _

theorem Compare_added_nodup (ro rn : RangeOrder) (o n : List SubscriptionInfo) :
    (ids (Compare ro rn (some o) (some n)).added).Nodup := by
  rw [Compare_some]; exact nodup_ids_filter_shuffle rn n _

theorem Compare_modified_nodup (ro rn : RangeOrder) (o n : List SubscriptionInfo) :
    (ids (Compare ro rn (some o) (some n)).modified).Nodup := by
  rw [Compare_some]; exact nodup_ids_filter_shuffle rn n _

/-- C2. For non-null snapshots with unique ids, `deleted` is, up to order,
the records of old whose id does not occur in new, and `added` the records of
new whose id does not occur in old, each once and unaltered; the selection
looks at the id only. -/
theorem Compare_deleted_added_by_id (ro rn : RangeOrder) (old new : List SubscriptionInfo)
    (ho : UniqueIds old) (hn : UniqueIds new) :
    (Compare ro rn (some old) (some new)).deleted.Perm
        (old.filter fun r => decide (r.Id ∉ ids new)) ∧
    (Compare ro rn (some old) (some new)).added.Perm
        (new.filter fun r => decide (r.Id ∉ ids old)) := by
  constructor
  · rw [List.perm_ext_iff_of_nodup (nodup_of_uniqueIds (Compare_deleted_nodup ro rn old new))
      ((nodup_of_uniqueIds ho).filter _)]
    intro x
    rw [mem_deleted, List.mem_filter, decide_eq_true_eq]
    constructor
    · rintro ⟨h1, h2⟩
      exact ⟨(lastWithId_some_mem h1).1, h2⟩
    · rintro ⟨h1, h2⟩
      exact ⟨lastWithId_of_unique ho h1, h2⟩
  · rw [List.perm_ext_iff_of_nodup (nodup_of_uniqueIds (Compare_added_nodup ro rn old new))
      ((nodup_of_uniqueIds hn).filter _)]
    intro x
    rw [mem_added, List.mem_filter, decide_eq_true_eq]
    constructor
    · rintro ⟨h1, h2⟩
      exact ⟨(lastWithId_some_mem h1).1, h2⟩
    · rintro ⟨h1, h2⟩
      exact ⟨lastWithId_of_unique hn h1, h2⟩

/-- C2, witness: old `{1, 2}`, new `{2 (changed), 3}`: record 1 is deleted,
record 3 is added, although record 2 differs in a field. -/
theorem Compare_deleted_added_by_id_witness :
    (Compare RangeOrder.reversed RangeOrder.insertion
        (some [subscriber 1, subscriber 2]) (some [subscriber2Changed, subscriber 3])).deleted.Perm
      [subscriber 1] ∧
    (Compare RangeOrder.reversed RangeOrder.insertion
        (some [subscriber 1, subscriber 2]) (some [subscriber2Changed, subscriber 3])).added.Perm
      [subscriber 3] :=
  Compare_deleted_added_by_id RangeOrder.reversed RangeOrder.insertion
    [subscriber 1, subscriber 2] [subscriber2Changed, subscriber 3] (by decide) (by decide)

/-- C3. For non-null snapshots with unique ids and records `o` of old and `n`
of new with the same id: `n` is in `modified` exactly when credential,
identifier, speed limit or IP limit differs between `o` and `n`; and every
record of `modified` is a record of new whose id also occurs in old. -/
theorem Compare_modified_iff_field_differs (ro rn : RangeOrder)
    (old new : List SubscriptionInfo) (ho : UniqueIds old) (hn : UniqueIds new)
    (o n : SubscriptionInfo) (hmo : o ∈ old) (hmn : n ∈ new) (hid : o.Id = n.Id) :
    (n ∈ (Compare ro rn (some old) (some new)).modified ↔
      (o.Passwd ≠ n.Passwd ∨ o.Email ≠ n.Email ∨ o.SpeedLimit ≠ n.SpeedLimit ∨
        o.IPLimit ≠ n.IPLimit)) ∧
    (∀ r ∈ (Compare ro rn (some old) (some new)).modified,
      r ∈ new ∧ r.Id ∈ ids old ∧ r.Id ∈ ids new) := by
  constructor
  · rw [mem_modified, lastWithId_of_unique hn hmn, ← hid, lastWithId_of_unique ho hmo]
    simp only [true_and, Option.some.injEq, exists_eq_left', propertiesChanged_iff, fieldsEqual]
    tauto
  · intro r hr
    obtain ⟨h1, a, h2, _⟩ := (mem_modified ro rn old new r).1 hr
    have h1' := lastWithId_some_mem h1
    have h2' := lastWithId_some_mem h2
    exact ⟨h1'.1, h2'.2 ▸ List.mem_map_of_mem _ h2'.1, List.mem_map_of_mem _ h1'.1⟩

/-- C3, witness: record 2 changes its credential between `{1, 2}` and
`{2 (changed), 3}`, so its new version is in `modified`. -/
theorem Compare_modified_iff_field_differs_witness :
    subscriber2Changed ∈ (Compare RangeOrder.insertion RangeOrder.insertion
        (some [subscriber 1, subscriber 2]) (some [subscriber2Changed, subscriber 3])).modified :=
  ((Compare_modified_iff_field_differs RangeOrder.insertion RangeOrder.insertion
      [subscriber 1, subscriber 2] [subscriber2Changed, subscriber 3] (by decide) (by decide)
      (subscriber 2) subscriber2Changed (by decide) (by decide) (by decide)).1).2
    (Or.inl (by decide))

/-- C4. `Compare(S, S)` is empty in all three results, for every snapshot `S`
(null or not, with unique ids or not) and every iteration order. -/
theorem Compare_self_empty (ro rn : RangeOrder) (S : Option (List SubscriptionInfo)) :
    Compare ro rn S S = ⟨[], [], []⟩ := by
  cases S with
  | none => rfl
  | some l =>
    have hd : (Compare ro rn (some l) (some l)).deleted = [] := by
      rw [List.eq_nil_iff_forall_not_mem]
      intro x hx
      obtain ⟨h1, h2⟩ := (mem_deleted ro rn l l x).1 hx
      exact h2 (List.mem_map_of_mem _ (lastWithId_some_mem h1).1)
    have ha : (Compare ro rn (some l) (some l)).added = [] := by
      rw [List.eq_nil_iff_forall_not_mem]
      intro x hx
      obtain ⟨h1, h2⟩ := (mem_added ro rn l l x).1 hx
      exact h2 (List.mem_map_of_mem _ (lastWithId_some_mem h1).1)
    have hm : (Compare ro rn (some l) (some l)).modified = [] := by
      rw [List.eq_nil_iff_forall_not_mem]
      intro x hx
      obtain ⟨h1, a, h2, h3⟩ := (mem_modified ro rn l l x).1 hx
      rw [h1] at h2
      cases h2
      exact (propertiesChanged_iff x x).1 h3 ⟨rfl, rfl, rfl, rfl⟩
    cases h : Compare ro rn (some l) (some l) with
    | mk d a m =>
      rw [h] at hd ha hm
      simp only at hd ha hm
      rw [hd, ha, hm]

/-- C5. Null snapshots: `Compare(null, new)` adds all of new, in order;
`Compare(old, null)` deletes all of old, in order; `Compare(null, null)` is
empty. -/
theorem Compare_null (ro rn : RangeOrder) :
    (∀ new : List SubscriptionInfo, Compare ro rn none (some new) = ⟨[], new, []⟩) ∧
    (∀ old : List SubscriptionInfo, Compare ro rn (some old) none = ⟨old, [], []⟩) ∧
    Compare ro rn none none = ⟨[], [], []⟩ :=
  ⟨fun _ => rfl, fun _ => rfl, rfl⟩

theorem count_of_nodup_ids {l : List SubscriptionInfo} (h : (ids l).Nodup)
    (r : SubscriptionInfo) : l.count r = if r ∈ l then 1 else 0 :=
  List.count_eq_of_nodup (nodup_of_uniqueIds h)

/-- C6, counterexample: the new snapshot holds the record `subscriber 1`
twice and the old snapshot is empty; `added` holds the record once. -/
theorem Compare_deduplicates :
    (Compare RangeOrder.insertion RangeOrder.insertion
        (some []) (some [subscriber 1, subscriber 1])).added.count (subscriber 1) = 1 ∧
    [subscriber 1, subscriber 1].count (subscriber 1) = 2 ∧
    (subscriber 1).Id ∉ ids [] := by
  decide

/-- C6, amended. `Compare` keeps one record per id, the last one of the
snapshot: a record whose id is absent from old is in `added` once if it is the
last record of new with its id and not at all otherwise, and so for old and
`deleted`; if the ids of the snapshot are unique this is as many times as the
record occurs in the snapshot. -/
theorem Compare_keeps_last_record_per_id (ro rn : RangeOrder)
    (old new : List SubscriptionInfo) (r : SubscriptionInfo) :
    (r.Id ∉ ids old →
      (Compare ro rn (some old) (some new)).added.count r =
        if lastWithId new r.Id = some r then 1 else 0) ∧
    (r.Id ∉ ids new →
      (Compare ro rn (some old) (some new)).deleted.count r =
        if lastWithId old r.Id = some r then 1 else 0) ∧
    (UniqueIds new → r.Id ∉ ids old →
      (Compare ro rn (some old) (some new)).added.count r = new.count r) ∧
    (UniqueIds old → r.Id ∉ ids new →
      (Compare ro rn (some old) (some new)).deleted.count r = old.count r) := by
  have hadd : r.Id ∉ ids old →
      (Compare ro rn (some old) (some new)).added.count r =
        if lastWithId new r.Id = some r then 1 else 0 := by
    intro h
    rw [count_of_nodup_ids (Compare_added_nodup ro rn old new)]
    simp only [mem_added, h, not_false_eq_true, and_true]
  have hdel : r.Id ∉ ids new →
      (Compare ro rn (some old) (some new)).deleted.count r =
        if lastWithId old r.Id = some r then 1 else 0 := by
    intro h
    rw [count_of_nodup_ids (Compare_deleted_nodup ro rn old new)]
    simp only [mem_deleted, h, not_false_eq_true, and_true]
  refine ⟨hadd, hdel, ?_, ?_⟩
  · intro hu h
    rw [hadd h, count_of_nodup_ids hu]
    by_cases hm : r ∈ new
    · simp [hm, lastWithId_of_unique hu hm]
    · have : lastWithId new r.Id ≠ some r := fun e => hm (lastWithId_some_mem e).1
      simp [hm, this]
  · intro hu h
    rw [hdel h, count_of_nodup_ids hu]
    by_cases hm : r ∈ old
    · simp [hm, lastWithId_of_unique hu hm]
    · have : lastWithId old r.Id ≠ some r := fun e => hm (lastWithId_some_mem e).1
      simp [hm, this]

/-- C6, amended, witness: with unique ids `{1, 2}` → `{2, 3}`, record 3
occurs once in new and once in `added`. -/
theorem Compare_keeps_last_record_per_id_witness :
    (Compare RangeOrder.insertion RangeOrder.insertion
        (some [subscriber 1, subscriber 2]) (some [subscriber 2, subscriber 3])).added.count
      (subscriber 3) = [subscriber 2, subscriber 3].count (subscriber 3) :=
  (Compare_keeps_last_record_per_id RangeOrder.insertion RangeOrder.insertion
    [subscriber 1, subscriber 2] [subscriber 2, subscriber 3] (subscriber 3)).2.2.1
    (by decide) (by decide)

/-! ## Data-plane code in which nothing fails -/

theorem call_ok {env : Env} (h : env.DataPlaneOK) (c : Call) (tr : List Call) :
    call env c tr = (none, tr ++ [c]) := by
  simp [call, h tr c]

theorem RemoveTag_ok {env : Env} (h : env.DataPlaneOK) (tag : String) (tr : List Call) :
    RemoveTag env tag tr = (none, tr ++ removeTagCalls tag) := by
  simp [RemoveTag, removeInbound, removeOutbound, removeRouterRule, bind, pure, call_ok h,
    removeTagCalls]

theorem RemoveBlockingRules_ok {env : Env} (h : env.DataPlaneOK) (tag : String)
    (tr : List Call) :
    RemoveBlockingRules env tag tr = (none, tr ++ removeBlockingCalls tag) := by
  simp [RemoveBlockingRules, removeOutbound, removeRouterRule, bind, pure, call_ok h,
    removeBlockingCalls]

theorem RemoveRelayRules_ok {env : Env} (h : env.DataPlaneOK) (tag : String)
    (subs : List SubscriptionInfo) (tr : List Call) :
    RemoveRelayRules env tag subs tr =
      (none, tr ++ subs.map fun u => Call.RemoveRule (tag ++ "_" ++ fmtInt u.Id)) := by
  induction subs generalizing tr with
  | nil => simp [RemoveRelayRules, pure]
  | cons u subs ih =>
    simp [RemoveRelayRules, removeRouterRule, bind, pure, call_ok h, ih]

theorem RemoveRelayTag_ok {env : Env} (h : env.DataPlaneOK) (tag : String)
    (subs : List SubscriptionInfo) (tr : List Call) :
    RemoveRelayTag env tag subs tr =
      (none, tr ++ subs.map fun u => Call.RemoveOutbound (tag ++ "_" ++ fmtInt u.Id)) := by
  induction subs generalizing tr with
  | nil => simp [RemoveRelayTag, pure]
  | cons u subs ih =>
    simp [RemoveRelayTag, removeOutbound, bind, pure, call_ok h, ih]

theorem relayBuildCalls_cons (relay : RelayNodeInfo) (relayTag mainTag : String)
    (u : SubscriptionInfo) (subs : List SubscriptionInfo) :
    relayBuildCalls relay relayTag mainTag (u :: subs) =
      (match relayKey relay u with
        | none => []
        | some key =>
          [.AddOutbound (.relay relayTag relay u key), .AddRule [relayRule mainTag relayTag u]]) ++
        relayBuildCalls relay relayTag mainTag subs := by
  simp [relayBuildCalls]

theorem AddRelayTagLoop_ok {env : Env} (h : env.DataPlaneOK) (hb : env.BuildersOK)
    (relay : RelayNodeInfo) (relayTag mainTag : String) (subs : List SubscriptionInfo)
    (tr : List Call) :
    AddRelayTagLoop env relay relayTag mainTag subs tr =
      (none, tr ++ relayBuildCalls relay relayTag mainTag subs) := by
  obtain ⟨_, _, hrel, _, hrb, _⟩ := hb
  induction subs generalizing tr with
  | nil => simp [AddRelayTagLoop, pure, relayBuildCalls]
  | cons u subs ih =>
    rw [relayBuildCalls_cons]
    unfold AddRelayTagLoop
    by_cases hc : ToLower relay.Cipher ∈ shadowaead2022List
    · cases hk : checkShadowsocksPassword u.Passwd relay.Cipher with
      | error e =>
        have hkey : relayKey relay u = none := by simp [relayKey, hc, hk]
        simp [hc, hk, hkey, bind, pure, ih]
      | ok k =>
        have hkey : relayKey relay u = some (relay.ServerKey ++ ":" ++ k) := by
          simp [relayKey, hc, hk]
        simp [hc, hk, hkey, bind, pure, ih, hrel, hrb, addOutbound, addRouterRule, call_ok h]
    · have hkey : relayKey relay u = some u.Passwd := by simp [relayKey, hc]
      simp [hc, hkey, bind, pure, ih, hrel, hrb, addOutbound, addRouterRule, call_ok h]

theorem AddRelayTag_ok {env : Env} (h : env.DataPlaneOK) (hb : env.BuildersOK)
    (relay : RelayNodeInfo) (hnp : relay.NodeType ≠ "Shadowsocks-Plugin")
    (relayTag mainTag : String) (subs : List SubscriptionInfo) (tr : List Call) :
    AddRelayTag env relay relayTag mainTag subs tr =
      (none, tr ++ relayBuildCalls relay relayTag mainTag subs) := by
  simp [AddRelayTag, hnp, bind, pure, AddRelayTagLoop_ok h hb]

theorem AddRuleTag_ok {env : Env} (h : env.DataPlaneOK) (hb : env.BuildersOK)
    (nodeInfo : NodeInfo) (tag : String) (rules : List Rule)
    (hr : blockingRuleList nodeInfo tag = .ok rules) (tr : List Call) :
    AddRuleTag env nodeInfo tag tr =
      (none, tr ++ [.AddOutbound (.blackhole tag), .AddRule rules]) := by
  obtain ⟨_, _, _, hbh, hrb, _⟩ := hb
  simp [AddRuleTag, hr, hbh, hrb, bind, pure, addOutbound, addRouterRule, call_ok h]

theorem AddTag_ok {env : Env} (h : env.DataPlaneOK) (hb : env.BuildersOK)
    (nodeInfo : NodeInfo) (hnp : nodeInfo.NodeType ≠ "Shadowsocks-Plugin") (tag : String)
    (tr : List Call) :
    AddTag env nodeInfo tag tr = (none, tr ++ addTagCalls nodeInfo tag) := by
  obtain ⟨hib, hob, _, _, hrb, _⟩ := hb
  by_cases hc : nodeInfo.RelayType = 0 ∨ nodeInfo.RelayNodeID = 0
  · simp [AddTag, hnp, hib, hob, hrb, hc, bind, pure, addInbound, addOutbound, addRouterRule,
      call_ok h, addTagCalls]
  · simp [AddTag, hnp, hib, hob, hrb, hc, bind, pure, addInbound, addOutbound, addRouterRule,
      call_ok h, addTagCalls]

theorem addUsersLoop_ok {env : Env} (h : env.DataPlaneOK) (hb : env.BuildersOK)
    (tag : String) (users : List User) (tr : List Call) :
    addUsersLoop env tag users tr = (none, tr ++ users.map (.AddUser tag)) := by
  obtain ⟨_, _, _, _, _, hmu⟩ := hb
  induction users generalizing tr with
  | nil => simp [addUsersLoop, pure]
  | cons u users ih => simp [addUsersLoop, hmu, bind, pure, call_ok h, ih]

theorem removeUsersLoop_ok {env : Env} (h : env.DataPlaneOK)
    (tag : String) (emails : List String) (tr : List Call) :
    removeUsersLoop env tag emails tr = (none, tr ++ emails.map (.RemoveUser tag)) := by
  induction emails generalizing tr with
  | nil => simp [removeUsersLoop, pure]
  | cons e emails ih => simp [removeUsersLoop, bind, pure, call_ok h, ih]

theorem Add_ok {env : Env} (h : env.DataPlaneOK) (hb : env.BuildersOK)
    (users : List User) (tag : String) (tr : List Call) :
    Add env users tag tr = (none, tr ++ addUsersCalls users tag) := by
  by_cases hl : users.length = 0
  · simp [Add, hl, bind, pure, addUsersCalls]
  · simp [Add, hl, bind, pure, addUsersCalls, addInboundSubscriptions, call_ok h,
      addUsersLoop_ok h hb]

theorem Remove_ok {env : Env} (h : env.DataPlaneOK)
    (emails : List String) (tag : String) (tr : List Call) :
    Remove env emails tag tr = (none, tr ++ removeUsersCalls emails tag) := by
  by_cases hl : emails.length = 0
  · simp [Remove, hl, bind, pure, removeUsersCalls]
  · simp [Remove, hl, bind, pure, removeUsersCalls, removeInboundSubscriptions, call_ok h,
      removeUsersLoop_ok h]

theorem AddNewSubscription_ok {env : Env} (h : env.DataPlaneOK) (hb : env.BuildersOK)
    (subs : List SubscriptionInfo) (nodeInfo : NodeInfo) (tag : String) (users : List User)
    (hu : buildUsers subs nodeInfo tag = some users) (tr : List Call) :
    AddNewSubscription env subs nodeInfo tag tr = (none, tr ++ addUsersCalls users tag) := by
  have hlen : users.length = subs.length := by
    unfold buildUsers at hu
    split_ifs at hu <;> simp at hu <;> subst hu <;> simp
  by_cases hl : subs.length = 0
  · simp [AddNewSubscription, hl, bind, pure, addUsersCalls, hlen]
  · simp [AddNewSubscription, hl, hu, bind, pure, Add_ok h hb]

/-! ## The blocks of `nodeInfoMonitor` when nothing fails -/

theorem relayTeardown_ok {env : Env} (h : env.DataPlaneOK) (upd : Bool) (s : Sys) :
    relayTeardown env upd s =
      (.next (),
        if s.c.Relay && upd then
          ⟨{ s.c with Relay := false },
            s.trace ++ relayTeardownCalls s.c.RelayTag s.c.subscriptionList⟩
        else s) := by
  by_cases hc : (s.c.Relay && upd) = true
  · simp [relayTeardown, bind, pure, self, live, assign, hc, RemoveRelayRules_ok h,
      RemoveRelayTag_ok h, relayTeardownCalls]
  · simp [relayTeardown, bind, pure, self, live, assign, hc]

theorem relayBuild_skip (env : Env) (f : Fetched) (upd : Bool) (s : Sys)
    (hc : (requestsRelay f.newNodeInfo && upd) = false) :
    relayBuild env f upd s = (.next (), s) := by
  simp only [requestsRelay] at hc
  simp [relayBuild, bind, pure, hc]

theorem relayBuild_ok {env : Env} (h : env.DataPlaneOK) (hb : env.BuildersOK) (f : Fetched)
    (s : Sys) (hq : requestsRelay f.newNodeInfo = true) (r : RelayNodeInfo)
    (hr : env.GetTransitNode = .ok r) (hnp : r.NodeType ≠ "Shadowsocks-Plugin") :
    relayBuild env f true s =
      (.next (),
        ⟨{ s.c with relaynodeInfo := some r, RelayTag := buildRNodeTag r, Relay := true },
          s.trace ++ relayBuildCalls r (buildRNodeTag r) s.c.Tag f.newSubscriptionInfo⟩) := by
  simp only [requestsRelay] at hq
  simp [relayBuild, bind, pure, self, live, assign, hq, hr, AddRelayTag_ok h hb r hnp]

theorem replaceNode_same (env : Env) (f : Fetched) (s : Sys)
    (hs : f.nodeInfoChanged = false ∨ s.c.nodeInfo = f.newNodeInfo) :
    replaceNode env f s = (.next false, s) := by
  rcases hs with hs | hs
  · simp [replaceNode, bind, pure, hs]
  · by_cases hc : f.nodeInfoChanged = true
    · simp [replaceNode, bind, pure, self, hs, hc]
    · simp [replaceNode, bind, pure, hc]

theorem replaceNode_ok {env : Env} (h : env.DataPlaneOK) (hb : env.BuildersOK) (f : Fetched)
    (s : Sys) (hc : f.nodeInfoChanged = true) (hne : s.c.nodeInfo ≠ f.newNodeInfo)
    (hnp : f.newNodeInfo.NodeType ≠ "Shadowsocks-Plugin") (rules : List Rule)
    (hr : blockingRuleList f.newNodeInfo (buildNodeTag f.newNodeInfo) = .ok rules) :
    replaceNode env f s =
      (.next true,
        ⟨{ s.c with nodeInfo := f.newNodeInfo, Tag := buildNodeTag f.newNodeInfo },
          s.trace ++ replaceCalls s.c.Tag s.c.nodeInfo.NodeType f.newNodeInfo rules⟩) := by
  by_cases hp : s.c.nodeInfo.NodeType = "Shadowsocks-Plugin"
  · simp [replaceNode, bind, pure, self, live, assign, hc, hne, hp, RemoveTag_ok h,
      RemoveBlockingRules_ok h, AddRuleTag_ok h hb _ _ rules hr, AddTag_ok h hb _ hnp,
      DeleteInboundLimiter, call_ok h, replaceCalls]
  · simp [replaceNode, bind, pure, self, live, assign, hc, hne, hp, RemoveTag_ok h,
      RemoveBlockingRules_ok h, AddRuleTag_ok h hb _ _ rules hr, AddTag_ok h hb _ hnp,
      DeleteInboundLimiter, call_ok h, replaceCalls]

theorem applyDiff_ok {env : Env} (h : env.DataPlaneOK) (hb : env.BuildersOK) (d : Diff)
    (s : Sys) :
    applyDiff env d s = ((), ⟨s.c, s.trace ++ diffCalls d s.c.nodeInfo s.c.Tag⟩) := by
  have hadd : ∀ tr, AddNewSubscription env d.added s.c.nodeInfo s.c.Tag tr =
      match buildUsers d.added s.c.nodeInfo s.c.Tag with
      | some users => (none, tr ++ addUsersCalls users s.c.Tag)
      | none =>
        if d.added.length = 0 then (none, tr)
        else (some ("unsupported node type " ++ s.c.nodeInfo.NodeType ++
          ". Abort building user"), tr) := by
    intro tr
    cases hu : buildUsers d.added s.c.nodeInfo s.c.Tag with
    | some users => exact AddNewSubscription_ok h hb _ _ _ users hu tr
    | none =>
      by_cases hl : d.added.length = 0 <;> simp [AddNewSubscription, hl, hu, bind, pure]
  unfold applyDiff diffCalls
  by_cases h1 : d.deleted.length > 0 <;> by_cases h2 : d.added.length > 0 <;>
    by_cases h3 : d.modified.length > 0 <;>
    cases hu : buildUsers d.added s.c.nodeInfo s.c.Tag <;>
    simp [bind, pure, self, live, h1, h2, h3, hu, hadd, Remove_ok h, UpdateInboundLimiter,
      call_ok h, Nat.ne_of_gt]

theorem provision_clean (env : Env) (f : Fetched) (s : Sys)
    (hsc : f.subscriptionChanged = false) :
    provision env f false s = (.next (), s) := by
  simp [provision, bind, pure, hsc]

theorem provision_delta {env : Env} (h : env.DataPlaneOK) (hb : env.BuildersOK) (f : Fetched)
    (s : Sys) (hsc : f.subscriptionChanged = true) :
    provision env f false s =
      (.next (),
        ⟨s.c, s.trace ++ diffCalls (Compare env.rangeOld env.rangeNew
          (some s.c.subscriptionList) (some f.newSubscriptionInfo)) s.c.nodeInfo s.c.Tag⟩) := by
  simp [provision, bind, pure, self, hsc, applyDiff_ok h hb]

theorem provision_replaced {env : Env} (h : env.DataPlaneOK) (hb : env.BuildersOK)
    (f : Fetched) (s : Sys) (users : List User)
    (hu : buildUsers f.newSubscriptionInfo f.newNodeInfo s.c.Tag = some users) :
    provision env f true s =
      (.next (),
        ⟨s.c, s.trace ++ addUsersCalls users s.c.Tag ++
          [.AddInboundLimiter s.c.Tag f.newNodeInfo.SpeedLimit f.newSubscriptionInfo]⟩) := by
  simp [provision, bind, pure, self, live, AddNewSubscription_ok h hb _ _ _ users hu,
    AddInboundLimiter, call_ok h]

/-- The two relay blocks of a dirty tick in which nothing fails. -/
theorem relay_blocks_ok {env : Env} (h : env.DataPlaneOK) (hb : env.BuildersOK) (f : Fetched)
    (s : Sys) (hrel : env.RelayOK f.newNodeInfo) :
    relayBuild env f true (relayTeardown env true s).2 =
      (.next (),
        ⟨relayController env f.newNodeInfo s.c,
          s.trace ++ relayCalls env f.newNodeInfo f.newSubscriptionInfo s.c⟩) := by
  rw [relayTeardown_ok h]
  by_cases hq : requestsRelay f.newNodeInfo = true
  · obtain ⟨r, hr, hnp⟩ := hrel hq
    rw [relayBuild_ok h hb f _ hq r hr hnp]
    by_cases hR : s.c.Relay = true <;>
      simp [hR, hq, hr, relayController, relayCalls]
  · rw [relayBuild_skip env f true _ (by simpa using hq)]
    by_cases hR : s.c.Relay = true
    · simp [hR, hq, relayController, relayCalls]
    · simp [hR, hq, relayController, relayCalls]
      cases s with
      | mk c tr =>
        cases c
        simp at hR
        simp [hR]

theorem relayController_nodeInfo (env : Env) (n : NodeInfo) (c : Controller) :
    (relayController env n c).nodeInfo = c.nodeInfo ∧ (relayController env n c).Tag = c.Tag ∧
    (relayController env n c).subscriptionList = c.subscriptionList := by
  unfold relayController
  split
  · split <;> simp
  · simp

/-- A dirty tick that keeps the node descriptor, with new subscribers, in
which nothing fails: the relay work, then the difference of the snapshots. -/
theorem tick_delta {env : Env} (h : env.DataPlaneOK) (hb : env.BuildersOK) (s : Sys)
    (f : Fetched) (hf : fetchBoth env s.c = some f) (hsc : f.subscriptionChanged = true)
    (hsame : f.nodeInfoChanged = false ∨ s.c.nodeInfo = f.newNodeInfo)
    (hrel : env.RelayOK f.newNodeInfo) :
    nodeInfoMonitor env s =
      (.returned none,
        ⟨{ relayController env f.newNodeInfo s.c with subscriptionList := f.newSubscriptionInfo },
          s.trace ++ relayCalls env f.newNodeInfo f.newSubscriptionInfo s.c ++
            diffCalls (Compare env.rangeOld env.rangeNew (some s.c.subscriptionList)
              (some f.newSubscriptionInfo)) s.c.nodeInfo s.c.Tag⟩) := by
  obtain ⟨hn, ht, hl⟩ := relayController_nodeInfo env f.newNodeInfo s.c
  have h1 : (relayTeardown env true s).1 = .next () := by rw [relayTeardown_ok h]
  have h2 := relay_blocks_ok h hb f s hrel
  have h3 := replaceNode_same env f
    ⟨relayController env f.newNodeInfo s.c,
      s.trace ++ relayCalls env f.newNodeInfo f.newSubscriptionInfo s.c⟩
    (by rcases hsame with e | e
        · exact Or.inl e
        · exact Or.inr (by simpa [hn] using e))
  have h4 := provision_delta h hb f
    ⟨relayController env f.newNodeInfo s.c,
      s.trace ++ relayCalls env f.newNodeInfo f.newSubscriptionInfo s.c⟩ hsc
  simp only [nodeInfoMonitor, bind, pure, self, assign, hf, hsc, Bool.true_or, h1, h2, h3, h4,
    hn, ht, hl]

theorem issued_eq {env : Env} {s : Sys} {calls : List Call}
    (h : (nodeInfoMonitor env s).2.trace = s.trace ++ calls) : issued env s = calls := by
  simp [issued, h]

theorem removedCredentials_append (a b : List Call) :
    removedCredentials (a ++ b) = removedCredentials a ++ removedCredentials b := by
  simp [removedCredentials]

theorem addedCredentials_append (a b : List Call) :
    addedCredentials (a ++ b) = addedCredentials a ++ addedCredentials b := by
  simp [addedCredentials]

theorem limiterUpdates_append (a b : List Call) :
    limiterUpdates (a ++ b) = limiterUpdates a ++ limiterUpdates b := by
  simp [limiterUpdates]

/-- The relay calls touch routing rules and outbounds only. -/
theorem relayCalls_kind (env : Env) (n : NodeInfo) (subs : List SubscriptionInfo)
    (c : Controller) (x : Call) (hx : x ∈ relayCalls env n subs c) :
    (∃ t, x = .RemoveRule t) ∨ (∃ t, x = .RemoveOutbound t) ∨
    (∃ o, x = .AddOutbound o) ∨ (∃ rs, x = .AddRule rs) := by
  unfold relayCalls at hx
  rcases List.mem_append.1 hx with hx | hx
  · split at hx
    · simp only [relayTeardownCalls, List.mem_append, List.mem_map] at hx
      rcases hx with ⟨u, _, rfl⟩ | ⟨u, _, rfl⟩
      · exact Or.inl ⟨_, rfl⟩
      · exact Or.inr (Or.inl ⟨_, rfl⟩)
    · simp at hx
  · split at hx
    · split at hx
      · simp only [relayBuildCalls, List.mem_flatMap] at hx
        obtain ⟨u, _, hu⟩ := hx
        split at hu
        · simp at hu
        · simp only [List.mem_cons, List.mem_singleton, List.not_mem_nil, or_false] at hu
          rcases hu with rfl | rfl
          · exact Or.inr (Or.inr (Or.inl ⟨_, rfl⟩))
          · exact Or.inr (Or.inr (Or.inr ⟨_, rfl⟩))
      · simp at hx
    · simp at hx

theorem relayCalls_no_credentials (env : Env) (n : NodeInfo) (subs : List SubscriptionInfo)
    (c : Controller) :
    removedCredentials (relayCalls env n subs c) = [] ∧
    addedCredentials (relayCalls env n subs c) = [] ∧
    limiterUpdates (relayCalls env n subs c) = [] := by
  refine ⟨?_, ?_, ?_⟩ <;>
  · simp only [removedCredentials, addedCredentials, limiterUpdates, List.filterMap_eq_nil_iff]
    intro x hx
    rcases relayCalls_kind env n subs c x hx with ⟨t, rfl⟩ | ⟨t, rfl⟩ | ⟨t, rfl⟩ | ⟨t, rfl⟩ <;> rfl

theorem filterMap_some_eq_map {α β : Type} (f : α → β) (l : List α) :
    l.filterMap (fun x => some (f x)) = l.map f := by
  induction l with
  | nil => rfl
  | cons a l ih => simp [List.filterMap_cons, ih]

theorem removedCredentials_removeUsersCalls (emails : List String) (tag : String) :
    removedCredentials (removeUsersCalls emails tag) = emails.map fun e => (tag, e) := by
  unfold removeUsersCalls removedCredentials
  split
  · rename_i hl
    rw [List.length_eq_zero] at hl
    simp [hl]
  · simp [List.filterMap_cons, List.filterMap_map, Function.comp_def, filterMap_some_eq_map]

theorem addedCredentials_removeUsersCalls (emails : List String) (tag : String) :
    addedCredentials (removeUsersCalls emails tag) = [] ∧
    limiterUpdates (removeUsersCalls emails tag) = [] := by
  unfold removeUsersCalls addedCredentials limiterUpdates
  split <;> simp [List.filterMap_cons, List.filterMap_map, Function.comp_def]

theorem addedCredentials_addUsersCalls (users : List User) (tag : String) :
    addedCredentials (addUsersCalls users tag) = users.map fun u => (tag, u) := by
  unfold addUsersCalls addedCredentials
  split
  · rename_i hl
    rw [List.length_eq_zero] at hl
    simp [hl]
  · simp [List.filterMap_cons, List.filterMap_map, Function.comp_def, filterMap_some_eq_map]

theorem removedCredentials_addUsersCalls (users : List User) (tag : String) :
    removedCredentials (addUsersCalls users tag) = [] ∧
    limiterUpdates (addUsersCalls users tag) = [] := by
  unfold addUsersCalls removedCredentials limiterUpdates
  split <;> simp [List.filterMap_cons, List.filterMap_map, Function.comp_def]

theorem buildUsers_supported (subs : List SubscriptionInfo) (nodeInfo : NodeInfo) (tag : String)
    (hp : nodeInfo.NodeType ∈ ["vless", "vmess", "trojan", "shadowsocks"]) :
    ∃ users, buildUsers subs nodeInfo tag = some users ∧
      users.map (·.Email) = subs.map (buildUserTag tag) ∧ users.length = subs.length := by
  simp only [List.mem_cons, List.mem_singleton, List.not_mem_nil, or_false] at hp
  unfold buildUsers
  split_ifs <;> first | exact ⟨_, rfl, by simp [Function.comp_def], by simp⟩ | tauto

/-! ## Claims C7 to C10: the reconciliation tick -/

/-- C7, counterexample: a relay-active controller whose descriptor requests
relay; the node answers not-modified, the subscribers change from `{1, 2}` to
`{2, 3}`, no data-plane call fails, but the relay descriptor cannot be
fetched. `log.Panic` ends the tick after the relay teardown: no credential is
removed although record 1 is deleted, none is added although record 3 is
added, and the retained snapshot stays `{1, 2}`. -/
theorem tick_relay_fetch_failure_skips_diff :
    scenario1Env.GetNodeInfo = .error scenario1Env.NodeNotModified ∧
    scenario1Env.GetSubscriptionList = .ok [subscriber 2, subscriber 3] ∧
    scenario1Env.DataPlaneOK ∧
    (Compare scenario1Env.rangeOld scenario1Env.rangeNew
      (some relayHeadController.subscriptionList)
      (some [subscriber 2, subscriber 3])).deleted = [subscriber 1] ∧
    (Compare scenario1Env.rangeOld scenario1Env.rangeNew
      (some relayHeadController.subscriptionList)
      (some [subscriber 2, subscriber 3])).added = [subscriber 3] ∧
    (nodeInfoMonitor scenario1Env ⟨relayHeadController, []⟩).1 =
      .panicked "relay node unreachable" ∧
    removedCredentials (issued scenario1Env ⟨relayHeadController, []⟩) = [] ∧
    addedCredentials (issued scenario1Env ⟨relayHeadController, []⟩) = [] ∧
    (nodeInfoMonitor scenario1Env ⟨relayHeadController, []⟩).2.c.subscriptionList =
      [subscriber 1, subscriber 2] :=
  ⟨rfl, rfl, fun _ _ => rfl, by decide, by decide, by decide, by decide, by decide, by decide⟩

/-- C7, amended. In a tick in which the node descriptor is unchanged
(not-modified, or fetched and equal to the retained one), the subscriber fetch
returns a new snapshot, no data-plane call fails, and in addition no spec
construction and no relay fetch fails and the retained descriptor's protocol
is one `AddNewSubscription` supports: the credential removals are exactly the
composite keys of `Compare`'s deleted records, the credential additions are
exactly the users built from `Compare`'s added records, every such record has
an id present in one snapshot only, the limiter is updated with the added and
with the modified records, and the retained snapshot becomes the new one. -/
theorem tick_applies_exactly_the_diff (env : Env) (s : Sys) (new : List SubscriptionInfo)
    (hnode : env.GetNodeInfo = .error env.NodeNotModified ∨ env.GetNodeInfo = .ok s.c.nodeInfo)
    (hsub : env.GetSubscriptionList = .ok new)
    (hdp : env.DataPlaneOK) (hb : env.BuildersOK) (hrel : env.RelayOK s.c.nodeInfo)
    (hproto : s.c.nodeInfo.NodeType ∈ ["vless", "vmess", "trojan", "shadowsocks"]) :
    removedCredentials (issued env s) =
      (FormatEmails (Compare env.rangeOld env.rangeNew (some s.c.subscriptionList)
        (some new)).deleted s.c.Tag).map (fun e => (s.c.Tag, e)) ∧
    (∃ users,
      buildUsers (Compare env.rangeOld env.rangeNew (some s.c.subscriptionList)
        (some new)).added s.c.nodeInfo s.c.Tag = some users ∧
      users.map (·.Email) = (Compare env.rangeOld env.rangeNew (some s.c.subscriptionList)
        (some new)).added.map (buildUserTag s.c.Tag) ∧
      addedCredentials (issued env s) = users.map (fun u => (s.c.Tag, u))) ∧
    (∀ r ∈ (Compare env.rangeOld env.rangeNew (some s.c.subscriptionList) (some new)).deleted,
      r.Id ∉ ids new) ∧
    (∀ r ∈ (Compare env.rangeOld env.rangeNew (some s.c.subscriptionList) (some new)).added,
      r.Id ∉ ids s.c.subscriptionList) ∧
    limiterUpdates (issued env s) =
      (if (Compare env.rangeOld env.rangeNew (some s.c.subscriptionList)
          (some new)).added.length > 0 then
        [(s.c.Tag, (Compare env.rangeOld env.rangeNew (some s.c.subscriptionList)
          (some new)).added)] else []) ++
      (if (Compare env.rangeOld env.rangeNew (some s.c.subscriptionList)
          (some new)).modified.length > 0 then
        [(s.c.Tag, (Compare env.rangeOld env.rangeNew (some s.c.subscriptionList)
          (some new)).modified)] else []) ∧
    (nodeInfoMonitor env s).2.c.subscriptionList = new ∧
    (nodeInfoMonitor env s).2.c.nodeInfo = s.c.nodeInfo ∧
    (nodeInfoMonitor env s).2.c.Tag = s.c.Tag ∧
    (nodeInfoMonitor env s).1 = .returned none := by
  obtain ⟨f, hf, hsc, hsame, hni, hns⟩ : ∃ f, fetchBoth env s.c = some f ∧
      f.subscriptionChanged = true ∧
      (f.nodeInfoChanged = false ∨ s.c.nodeInfo = f.newNodeInfo) ∧
      f.newNodeInfo = s.c.nodeInfo ∧ f.newSubscriptionInfo = new := by
    rcases hnode with hn | hn
    · exact ⟨⟨false, s.c.nodeInfo, true, new⟩, by simp [fetchBoth, hn, hsub], rfl, Or.inl rfl,
        rfl, rfl⟩
    · exact ⟨⟨true, s.c.nodeInfo, true, new⟩, by simp [fetchBoth, hn, hsub], rfl, Or.inr rfl,
        rfl, rfl⟩
  have htick := tick_delta hdp hb s f hf hsc hsame (hni ▸ hrel)
  rw [hni, hns] at htick
  have hiss : issued env s = relayCalls env s.c.nodeInfo new s.c ++
      diffCalls (Compare env.rangeOld env.rangeNew (some s.c.subscriptionList) (some new))
        s.c.nodeInfo s.c.Tag :=
    issued_eq (by rw [htick, List.append_assoc])
  obtain ⟨hr1, hr2, hr3⟩ := relayCalls_no_credentials env s.c.nodeInfo new s.c
  obtain ⟨hn, ht, _⟩ := relayController_nodeInfo env s.c.nodeInfo s.c
  obtain ⟨users, hu, hemail, _⟩ := buildUsers_supported
    (Compare env.rangeOld env.rangeNew (some s.c.subscriptionList) (some new)).added
    s.c.nodeInfo s.c.Tag hproto
  have hadd0 : (Compare env.rangeOld env.rangeNew (some s.c.subscriptionList)
      (some new)).added.length = 0 → users = [] := by
    intro h0
    rw [List.length_eq_zero] at h0
    rw [h0] at hemail
    simpa using hemail
  refine ⟨?_, ⟨users, hu, hemail, ?_⟩, ?_, ?_, ?_, ?_, ?_, ?_, ?_⟩
  · rw [hiss, removedCredentials_append, hr1, diffCalls, hu]
    simp only [removedCredentials_append, List.nil_append]
    by_cases h1 : (Compare env.rangeOld env.rangeNew (some s.c.subscriptionList)
        (some new)).deleted.length > 0 <;>
      by_cases h2 : (Compare env.rangeOld env.rangeNew (some s.c.subscriptionList)
        (some new)).added.length > 0 <;>
      by_cases h3 : (Compare env.rangeOld env.rangeNew (some s.c.subscriptionList)
        (some new)).modified.length > 0 <;>
      simp [h1, h2, h3, removedCredentials_removeUsersCalls, removedCredentials_addUsersCalls,
        removedCredentials_append] <;>
      simp_all [removedCredentials, FormatEmails]
  · rw [hiss, addedCredentials_append, hr2, diffCalls, hu]
    simp only [addedCredentials_append, List.nil_append]
    by_cases h1 : (Compare env.rangeOld env.rangeNew (some s.c.subscriptionList)
        (some new)).deleted.length > 0 <;>
      by_cases h2 : (Compare env.rangeOld env.rangeNew (some s.c.subscriptionList)
        (some new)).added.length > 0 <;>
      by_cases h3 : (Compare env.rangeOld env.rangeNew (some s.c.subscriptionList)
        (some new)).modified.length > 0 <;>
      simp [h1, h2, h3, addedCredentials_removeUsersCalls, addedCredentials_addUsersCalls,
        addedCredentials_append] <;>
      simp_all [addedCredentials]
  · intro r hr
    exact ((mem_deleted _ _ _ _ r).1 hr).2
  · intro r hr
    exact ((mem_added _ _ _ _ r).1 hr).2
  · rw [hiss, limiterUpdates_append, hr3, diffCalls, hu]
    simp only [limiterUpdates_append, List.nil_append]
    by_cases h1 : (Compare env.rangeOld env.rangeNew (some s.c.subscriptionList)
        (some new)).deleted.length > 0 <;>
      by_cases h2 : (Compare env.rangeOld env.rangeNew (some s.c.subscriptionList)
        (some new)).added.length > 0 <;>
      by_cases h3 : (Compare env.rangeOld env.rangeNew (some s.c.subscriptionList)
        (some new)).modified.length > 0 <;>
      simp [h1, h2, h3, addedCredentials_removeUsersCalls, removedCredentials_addUsersCalls,
        limiterUpdates_append] <;>
      simp_all [limiterUpdates]
  · rw [htick]
  · rw [htick]; exact hn
  · rw [htick]; exact ht
  · rw [htick]

/-- C7, amended, witness: scenario 1. The retained snapshot is `{1, 2}` and
the poll returns `{2, 3}`: the credential of 1 is removed, the credential of
3 is added, nothing is issued for 2, and `{2, 3}` is retained. -/
theorem tick_applies_exactly_the_diff_witness :
    removedCredentials (issued scenario1Env ⟨steadyController, []⟩) =
      [("vless_443_7", "vless_443_7|user|1")] ∧
    (nodeInfoMonitor scenario1Env ⟨steadyController, []⟩).2.c.subscriptionList =
      [subscriber 2, subscriber 3] ∧
    addedCredentials (issued scenario1Env ⟨steadyController, []⟩) =
      [("vless_443_7", ⟨"vless_443_7|user|3", .vless "secret" "xtls-rprx-vision"⟩)] ∧
    issued scenario1Env ⟨steadyController, []⟩ =
      [.GetHandler "vless_443_7", .RemoveUser "vless_443_7" "vless_443_7|user|1",
       .GetHandler "vless_443_7",
       .AddUser "vless_443_7" ⟨"vless_443_7|user|3", .vless "secret" "xtls-rprx-vision"⟩,
       .UpdateInboundLimiter "vless_443_7" [subscriber 3]] :=
  have h := tick_applies_exactly_the_diff scenario1Env ⟨steadyController, []⟩
    [subscriber 2, subscriber 3] (Or.inl rfl) rfl (fun _ _ => rfl)
    ⟨fun _ _ => rfl, fun _ _ => rfl, fun _ _ _ _ => rfl, fun _ => rfl, fun _ => rfl,
      fun _ => rfl⟩
    (fun hq => absurd hq (by decide)) (by decide)
  ⟨h.1, h.2.2.2.2.2.1, by decide, by decide⟩

/-- C9. A tick in which both fetches answer not-modified issues no data-plane
call, returns `nil`, and leaves the whole controller as it was: retained
snapshot, retained descriptor, `Tag`, `RelayTag` and relay flag. -/
theorem tick_not_modified_is_noop (env : Env) (s : Sys)
    (hnode : env.GetNodeInfo = .error env.NodeNotModified)
    (hsub : env.GetSubscriptionList = .error env.SubscriptionNotModified) :
    issued env s = [] ∧ (nodeInfoMonitor env s).2.trace = s.trace ∧
    (nodeInfoMonitor env s).2.c = s.c ∧ (nodeInfoMonitor env s).1 = .returned none := by
  have hf : fetchBoth env s.c = some ⟨false, s.c.nodeInfo, false, s.c.subscriptionList⟩ := by
    simp [fetchBoth, hnode, hsub]
  have h1 : relayTeardown env false s = (.next (), s) := by
    simp [relayTeardown, bind, pure, self]
  have h2 := relayBuild_skip env ⟨false, s.c.nodeInfo, false, s.c.subscriptionList⟩ false s
    (by simp)
  have h3 := replaceNode_same env ⟨false, s.c.nodeInfo, false, s.c.subscriptionList⟩ s
    (Or.inl rfl)
  have h4 := provision_clean env ⟨false, s.c.nodeInfo, false, s.c.subscriptionList⟩ s rfl
  have htick : nodeInfoMonitor env s = (.returned none, s) := by
    simp only [nodeInfoMonitor, bind, pure, self, assign, hf, Bool.or_self, h1, h2, h3, h4]
  refine ⟨?_, ?_, ?_, ?_⟩
  · simp [issued, htick]
  · rw [htick]
  · rw [htick]
  · rw [htick]

/-- C9, witness: the steady controller under an environment whose two
fetches answer not-modified. -/
theorem tick_not_modified_is_noop_witness :
    issued quietEnv ⟨steadyController, []⟩ = [] ∧
    (nodeInfoMonitor quietEnv ⟨steadyController, []⟩).2.trace = [] ∧
    (nodeInfoMonitor quietEnv ⟨steadyController, []⟩).2.c = steadyController ∧
    (nodeInfoMonitor quietEnv ⟨steadyController, []⟩).1 = .returned none :=
  tick_not_modified_is_noop quietEnv ⟨steadyController, []⟩ rfl rfl

/-- C10. A tick in which the node fetch or the subscriber fetch returns an
error other than its not-modified signal is skipped: no data-plane call is
issued, the whole controller stays as it was, and the tick returns `nil`. -/
theorem tick_fetch_error_is_skipped (env : Env) (s : Sys)
    (herr : (∃ e, env.GetNodeInfo = .error e ∧ e ≠ env.NodeNotModified) ∨
      (∃ e, env.GetSubscriptionList = .error e ∧ e ≠ env.SubscriptionNotModified)) :
    issued env s = [] ∧ (nodeInfoMonitor env s).2.trace = s.trace ∧
    (nodeInfoMonitor env s).2.c = s.c ∧ (nodeInfoMonitor env s).1 = .returned none := by
  have hf : fetchBoth env s.c = none := by
    rcases herr with ⟨e, he, hne⟩ | ⟨e, he, hne⟩
    · simp [fetchBoth, he, hne]
    · unfold fetchBoth
      cases hn : env.GetNodeInfo with
      | ok n => simp [he, hne]
      | error e' => by_cases h' : e' = env.NodeNotModified <;> simp [he, hne, h']
  have htick : nodeInfoMonitor env s = (.returned none, s) := by
    simp only [nodeInfoMonitor, bind, pure, self, hf]
  refine ⟨?_, ?_, ?_, ?_⟩
  · simp [issued, htick]
  · rw [htick]
  · rw [htick]
  · rw [htick]

/-- C10, witness: the subscriber fetch fails with a transport error while the
node answers not-modified. -/
theorem tick_fetch_error_is_skipped_witness :
    issued subscriberErrorEnv ⟨steadyController, []⟩ = [] ∧
    (nodeInfoMonitor subscriberErrorEnv ⟨steadyController, []⟩).2.trace = [] ∧
    (nodeInfoMonitor subscriberErrorEnv ⟨steadyController, []⟩).2.c = steadyController ∧
    (nodeInfoMonitor subscriberErrorEnv ⟨steadyController, []⟩).1 = .returned none :=
  tick_fetch_error_is_skipped subscriberErrorEnv ⟨steadyController, []⟩
    (Or.inr ⟨"connection refused", rfl, by decide⟩)

/-! ## Lemmas on usage reporting -/

theorem readCounter_fst (st : Counters) (name : String) :
    (readCounter st name).1 = counterValue st name := by
  unfold readCounter counterValue
  cases h : st name with
  | none => simp
  | some v => by_cases hv : v = 0 <;> simp [hv]

theorem readCounter_snd (st : Counters) (name : String) :
    (readCounter st name).2 = if counterValue st name ≠ 0 then some name else none := by
  unfold readCounter counterValue
  cases h : st name with
  | none => simp
  | some v => by_cases hv : v = 0 <;> simp [hv]

/-- The entry of the usage report for one subscriber, if it has one. -/
theorem collectOne_eq (st : Counters) (tag : String) (acc : Usage) (u : SubscriptionInfo) :
    collectOne st tag acc u =
      if counterValue st (upName (buildUserTag tag u)) ≠ 0 ∨
          counterValue st (downName (buildUserTag tag u)) ≠ 0 then
        { subscriptionTraffic := acc.subscriptionTraffic ++
            [⟨u.Id, counterValue st (upName (buildUserTag tag u)),
              counterValue st (downName (buildUserTag tag u))⟩]
          upCounterList := acc.upCounterList ++
            (if counterValue st (upName (buildUserTag tag u)) ≠ 0 then
              [upName (buildUserTag tag u)] else [])
          downCounterList := acc.downCounterList ++
            (if counterValue st (downName (buildUserTag tag u)) ≠ 0 then
              [downName (buildUserTag tag u)] else []) }
      else acc := by
  unfold collectOne getTraffic
  simp only [readCounter_fst, readCounter_snd, Nat.pos_iff_ne_zero]
  by_cases h1 : counterValue st (upName (buildUserTag tag u)) = 0 <;>
    by_cases h2 : counterValue st (downName (buildUserTag tag u)) = 0 <;>
    simp [h1, h2]

theorem foldl_collectOne_traffic (st : Counters) (tag : String) (subs : List SubscriptionInfo)
    (acc : Usage) :
    (subs.foldl (collectOne st tag) acc).subscriptionTraffic =
      acc.subscriptionTraffic ++ usageReport st tag subs := by
  induction subs generalizing acc with
  | nil => simp [usageReport]
  | cons u subs ih =>
    rw [List.foldl_cons, ih, collectOne_eq]
    simp only [usageReport, List.filterMap_cons, buildUserTag]
    split <;> simp

theorem collectTraffic_traffic (st : Counters) (tag : String) (subs : List SubscriptionInfo) :
    (collectTraffic st tag subs).subscriptionTraffic = usageReport st tag subs := by
  simp [collectTraffic, foldl_collectOne_traffic]

theorem foldl_collectOne_up (st : Counters) (tag : String) (subs : List SubscriptionInfo)
    (acc : Usage) (name : String) :
    name ∈ (subs.foldl (collectOne st tag) acc).upCounterList ↔
      name ∈ acc.upCounterList ∨
        ∃ u ∈ subs, name = upName (buildUserTag tag u) ∧ counterValue st name ≠ 0 := by
  induction subs generalizing acc with
  | nil => simp
  | cons u subs ih =>
    rw [List.foldl_cons, ih, collectOne_eq]
    by_cases h1 : counterValue st (upName (buildUserTag tag u)) = 0 <;>
      by_cases h2 : counterValue st (downName (buildUserTag tag u)) = 0
    · simp only [h1, h2, ne_eq, not_true_eq_false, or_self, if_false, List.mem_cons,
        exists_eq_or_imp]
      constructor
      · rintro (h | ⟨w, hw, e, hv⟩)
        · exact Or.inl h
        · exact Or.inr (Or.inr ⟨w, hw, e, hv⟩)
      · rintro (h | ⟨e, hv⟩ | ⟨w, hw, e, hv⟩)
        · exact Or.inl h
        · exact absurd (e ▸ h1) hv
        · exact Or.inr ⟨w, hw, e, hv⟩
    · simp only [h1, h2, ne_eq, not_true_eq_false, not_false_eq_true, or_true, if_true,
        if_false, List.append_nil, List.mem_cons, exists_eq_or_imp]
      constructor
      · rintro (h | ⟨w, hw, e, hv⟩)
        · exact Or.inl h
        · exact Or.inr (Or.inr ⟨w, hw, e, hv⟩)
      · rintro (h | ⟨e, hv⟩ | ⟨w, hw, e, hv⟩)
        · exact Or.inl h
        · exact absurd (e ▸ h1) hv
        · exact Or.inr ⟨w, hw, e, hv⟩
    · simp only [h1, h2, ne_eq, not_true_eq_false, not_false_eq_true, true_or, if_true,
        List.mem_append, List.mem_singleton, List.mem_cons, exists_eq_or_imp, List.not_mem_nil,
        or_false]
      constructor
      · rintro ((h | e) | ⟨w, hw, e, hv⟩)
        · exact Or.inl h
        · exact Or.inr (Or.inl ⟨e, e ▸ h1⟩)
        · exact Or.inr (Or.inr ⟨w, hw, e, hv⟩)
      · rintro (h | ⟨e, _⟩ | ⟨w, hw, e, hv⟩)
        · exact Or.inl (Or.inl h)
        · exact Or.inl (Or.inr e)
        · exact Or.inr ⟨w, hw, e, hv⟩
    · simp only [h1, h2, ne_eq, not_false_eq_true, true_or, if_true,
        List.mem_append, List.mem_singleton, List.mem_cons, exists_eq_or_imp, List.not_mem_nil,
        or_false]
      constructor
      · rintro ((h | e) | ⟨w, hw, e, hv⟩)
        · exact Or.inl h
        · exact Or.inr (Or.inl ⟨e, e ▸ h1⟩)
        · exact Or.inr (Or.inr ⟨w, hw, e, hv⟩)
      · rintro (h | ⟨e, _⟩ | ⟨w, hw, e, hv⟩)
        · exact Or.inl (Or.inl h)
        · exact Or.inl (Or.inr e)
        · exact Or.inr ⟨w, hw, e, hv⟩

theorem foldl_collectOne_down (st : Counters) (tag : String) (subs : List SubscriptionInfo)
    (acc : Usage) (name : String) :
    name ∈ (subs.foldl (collectOne st tag) acc).downCounterList ↔
      name ∈ acc.downCounterList ∨
        ∃ u ∈ subs, name = downName (buildUserTag tag u) ∧ counterValue st name ≠ 0 := by
  induction subs generalizing acc with
  | nil => simp
  | cons u subs ih =>
    rw [List.foldl_cons, ih, collectOne_eq]
    by_cases h1 : counterValue st (upName (buildUserTag tag u)) = 0 <;>
      by_cases h2 : counterValue st (downName (buildUserTag tag u)) = 0 <;>
      simp only [h1, h2, ne_eq, not_true_eq_false, not_false_eq_true, or_self, or_true, true_or,
        if_true, if_false, List.append_nil, List.mem_append, List.mem_singleton, List.mem_cons,
        exists_eq_or_imp, List.not_mem_nil, or_false] <;>
      constructor <;>
      first
        | (rintro (h | ⟨w, hw, e, hv⟩)
           · exact Or.inl h
           · exact Or.inr (Or.inr ⟨w, hw, e, hv⟩))
        | (rintro (h | ⟨e, hv⟩ | ⟨w, hw, e, hv⟩)
           · exact Or.inl h
           · exact absurd (e ▸ h2) hv
           · exact Or.inr ⟨w, hw, e, hv⟩)
        | (rintro ((h | e) | ⟨w, hw, e, hv⟩)
           · exact Or.inl h
           · exact Or.inr (Or.inl ⟨e, e ▸ h2⟩)
           · exact Or.inr (Or.inr ⟨w, hw, e, hv⟩))
        | (rintro (h | ⟨e, _⟩ | ⟨w, hw, e, hv⟩)
           · exact Or.inl (Or.inl h)
           · exact Or.inl (Or.inr e)
           · exact Or.inr ⟨w, hw, e, hv⟩)

theorem foldl_reset (names : List String) (st : Counters) (n : String) :
    (names.foldl Counters.reset st) n = if n ∈ names then some 0 else st n := by
  induction names generalizing st with
  | nil => simp
  | cons a names ih =>
    rw [List.foldl_cons, ih]
    by_cases h1 : n ∈ names
    · simp [h1]
    · by_cases h2 : n = a <;> simp [h1, h2, Counters.reset]

theorem resetTraffic_apply (ups downs : List String) (st : Counters) (n : String) :
    resetTraffic ups downs st n = if n ∈ ups ∨ n ∈ downs then some 0 else st n := by
  unfold resetTraffic
  rw [foldl_reset, foldl_reset]
  by_cases h1 : n ∈ downs <;> by_cases h2 : n ∈ ups <;> simp [h1, h2]

/-- What a successful report leaves in a counter: zero if it was collected,
its old content otherwise; only counters that were not zero are collected. -/
theorem counters_after_reset (st : Counters) (tag : String) (subs : List SubscriptionInfo)
    (n : String) :
    resetTraffic (collectTraffic st tag subs).upCounterList
        (collectTraffic st tag subs).downCounterList st n = st n ∨
    (resetTraffic (collectTraffic st tag subs).upCounterList
        (collectTraffic st tag subs).downCounterList st n = some 0 ∧
      counterValue st n ≠ 0) := by
  rw [resetTraffic_apply]
  by_cases h : n ∈ (collectTraffic st tag subs).upCounterList ∨
      n ∈ (collectTraffic st tag subs).downCounterList
  · refine Or.inr ⟨by simp [h], ?_⟩
    rcases h with h | h
    · rcases (foldl_collectOne_up st tag subs ⟨[], [], []⟩ n).1 h with h' | ⟨_, _, _, hv⟩
      · simp at h'
      · exact hv
    · rcases (foldl_collectOne_down st tag subs ⟨[], [], []⟩ n).1 h with h' | ⟨_, _, _, hv⟩
      · simp at h'
      · exact hv
  · exact Or.inl (by simp [h])

/-- After a successful report every counter of a subscriber reads zero. -/
theorem counters_zero_after_reset (st : Counters) (tag : String)
    (subs : List SubscriptionInfo) (u : SubscriptionInfo) (hu : u ∈ subs) :
    counterValue (resetTraffic (collectTraffic st tag subs).upCounterList
        (collectTraffic st tag subs).downCounterList st) (upName (buildUserTag tag u)) = 0 ∧
    counterValue (resetTraffic (collectTraffic st tag subs).upCounterList
        (collectTraffic st tag subs).downCounterList st) (downName (buildUserTag tag u)) = 0 := by
  constructor
  · by_cases hv : counterValue st (upName (buildUserTag tag u)) = 0
    · rcases counters_after_reset st tag subs (upName (buildUserTag tag u)) with h | ⟨h, _⟩
      · simpa [counterValue, h] using hv
      · simp [counterValue, h]
    · have hm : upName (buildUserTag tag u) ∈ (collectTraffic st tag subs).upCounterList :=
        (foldl_collectOne_up st tag subs ⟨[], [], []⟩ _).2 (Or.inr ⟨u, hu, rfl, hv⟩)
      simp [counterValue, resetTraffic_apply, hm]
  · by_cases hv : counterValue st (downName (buildUserTag tag u)) = 0
    · rcases counters_after_reset st tag subs (downName (buildUserTag tag u)) with h | ⟨h, _⟩
      · simpa [counterValue, h] using hv
      · simp [counterValue, h]
    · have hm : downName (buildUserTag tag u) ∈ (collectTraffic st tag subs).downCounterList :=
        (foldl_collectOne_down st tag subs ⟨[], [], []⟩ _).2 (Or.inr ⟨u, hu, rfl, hv⟩)
      simp [counterValue, resetTraffic_apply, hm]

theorem usageReport_mono (st st2 : Counters) (hacc : Accrued st st2) (tag : String)
    (subs : List SubscriptionInfo) (e : SubscriptionTraffic)
    (he : e ∈ usageReport st tag subs) :
    ∃ e' ∈ usageReport st2 tag subs, e'.Id = e.Id ∧ e.Upload ≤ e'.Upload ∧
      e.Download ≤ e'.Download := by
  simp only [usageReport, List.mem_filterMap] at he ⊢
  obtain ⟨u, hu, h⟩ := he
  split at h
  · rename_i hq
    cases h
    refine ⟨⟨u.Id, counterValue st2 (upName (tag ++ "|" ++ u.Email ++ "|" ++ fmtInt u.Id)),
      counterValue st2 (downName (tag ++ "|" ++ u.Email ++ "|" ++ fmtInt u.Id))⟩,
      ⟨u, hu, ?_⟩, rfl, hacc _, hacc _⟩
    have h1 := hacc (upName (tag ++ "|" ++ u.Email ++ "|" ++ fmtInt u.Id))
    have h2 := hacc (downName (tag ++ "|" ++ u.Email ++ "|" ++ fmtInt u.Id))
    have : counterValue st2 (upName (tag ++ "|" ++ u.Email ++ "|" ++ fmtInt u.Id)) ≠ 0 ∨
        counterValue st2 (downName (tag ++ "|" ++ u.Email ++ "|" ++ fmtInt u.Id)) ≠ 0 := by
      rcases hq with hq | hq
      · exact Or.inl (by omega)
      · exact Or.inr (by omega)
    simp [this]
  · cases h

theorem reportOnline_no_traffic (env : MonitorEnv) (tag : String)
    (r : List SubscriptionTraffic) : RemoteCall.ReportTraffic r ∉ reportOnline env tag := by
  unfold reportOnline
  split
  · simp
  · split <;> simp

/-! ## Claims C11 and C12: usage reporting -/

/-- C11. Counters are reset exactly when the report is acknowledged. If
`ReportTraffic` returns an error, every counter keeps its content, so after
any further accrual the next report holds, for every entry of the failed one,
an entry of the same id with at least its up and down values. If it succeeds,
every counter of every subscriber of the list reads zero afterwards, and a
counter is touched only if it was collected, that is, was not zero. -/
theorem SubscriptionMonitor_resets_iff_acknowledged (env : MonitorEnv)
    (subs : List SubscriptionInfo) (tag : String) (st : Counters) :
    (∀ e, env.ReportTraffic (collectTraffic st tag subs).subscriptionTraffic = some e →
      (SubscriptionMonitor env subs tag st).counters = st ∧
      ∀ st2, Accrued (SubscriptionMonitor env subs tag st).counters st2 →
        ∀ x ∈ (collectTraffic st tag subs).subscriptionTraffic,
          ∃ y ∈ (collectTraffic st2 tag subs).subscriptionTraffic,
            y.Id = x.Id ∧ x.Upload ≤ y.Upload ∧ x.Download ≤ y.Download) ∧
    (env.ReportTraffic (collectTraffic st tag subs).subscriptionTraffic = none →
      (∀ u ∈ subs,
        counterValue (SubscriptionMonitor env subs tag st).counters
          (upName (buildUserTag tag u)) = 0 ∧
        counterValue (SubscriptionMonitor env subs tag st).counters
          (downName (buildUserTag tag u)) = 0) ∧
      (∀ n, (SubscriptionMonitor env subs tag st).counters n = st n ∨
        ((SubscriptionMonitor env subs tag st).counters n = some 0 ∧
          counterValue st n ≠ 0))) := by
  constructor
  · intro e he
    have hc : (SubscriptionMonitor env subs tag st).counters = st := by
      simp only [SubscriptionMonitor, reportUsage, he]
      split <;> rfl
    refine ⟨hc, ?_⟩
    intro st2 hacc x hx
    rw [hc] at hacc
    rw [collectTraffic_traffic] at hx ⊢
    exact usageReport_mono st st2 hacc tag subs x hx
  · intro hok
    by_cases hl : (collectTraffic st tag subs).subscriptionTraffic.length > 0
    · have hc : (SubscriptionMonitor env subs tag st).counters =
          resetTraffic (collectTraffic st tag subs).upCounterList
            (collectTraffic st tag subs).downCounterList st := by
        simp only [SubscriptionMonitor, reportUsage, hok, hl, if_true]
      rw [hc]
      exact ⟨fun u hu => counters_zero_after_reset st tag subs u hu,
        fun n => counters_after_reset st tag subs n⟩
    · have hc : (SubscriptionMonitor env subs tag st).counters = st := by
        simp only [SubscriptionMonitor, reportUsage, hl, if_false]
      rw [hc]
      refine ⟨?_, fun n => Or.inl rfl⟩
      intro u hu
      have hnil : usageReport st tag subs = [] := by
        rw [← collectTraffic_traffic]
        exact List.length_eq_zero.1 (by omega)
      simp only [usageReport, List.filterMap_eq_nil_iff] at hnil
      have := hnil u hu
      simp only [ite_eq_right_iff, reduceCtorEq, imp_false, not_or, not_not] at this
      exact this

/-- C11, witness: scenario 4. Subscriber 7 has up 100 and down 200 and the
report fails in transport: the counters stay as they are, and whatever accrues
further, the next report holds an entry for 7 with at least 100 and 200. -/
theorem SubscriptionMonitor_resets_iff_acknowledged_witness :
    (SubscriptionMonitor failingPanel [subscriber 7] "vless_443_7" scenario4Counters).counters =
      scenario4Counters ∧
    ∀ st2, Accrued scenario4Counters st2 →
      ∃ y ∈ (collectTraffic st2 "vless_443_7" [subscriber 7]).subscriptionTraffic,
        y.Id = 7 ∧ 100 ≤ y.Upload ∧ 200 ≤ y.Download :=
  have h := (SubscriptionMonitor_resets_iff_acknowledged failingPanel [subscriber 7]
    "vless_443_7" scenario4Counters).1 "transport failed" rfl
  ⟨h.1, fun st2 hacc => h.2 st2 (h.1 ▸ hacc) ⟨7, 100, 200⟩ (by decide)⟩

/-- C12. The usage report that `SubscriptionMonitor` builds is, in snapshot
order, one entry `(id, up, down)` for each subscriber whose up or down counter
under the composite key reads non-zero, a counter that does not exist reading
zero; `ReportTraffic` is called once with this report if it is not empty and
not at all otherwise; the monitor returns no error. -/
theorem SubscriptionMonitor_reports_nonzero_counters (env : MonitorEnv)
    (subs : List SubscriptionInfo) (tag : String) (st : Counters) :
    (collectTraffic st tag subs).subscriptionTraffic = usageReport st tag subs ∧
    (SubscriptionMonitor env subs tag st).calls =
      (if usageReport st tag subs = [] then []
        else [.ReportTraffic (usageReport st tag subs)]) ++ reportOnline env tag ∧
    (∀ r, RemoteCall.ReportTraffic r ∉ reportOnline env tag) ∧
    (SubscriptionMonitor env subs tag st).err = none := by
  refine ⟨collectTraffic_traffic st tag subs, ?_, reportOnline_no_traffic env tag, rfl⟩
  simp only [SubscriptionMonitor, reportUsage, collectTraffic_traffic]
  by_cases hnil : usageReport st tag subs = []
  · simp [hnil]
  · have hl : (usageReport st tag subs).length > 0 := List.length_pos.2 hnil
    simp only [hl, if_true, hnil, if_false]
    cases env.ReportTraffic (usageReport st tag subs) <;> rfl

/-! ## Claims C15, C16, C19, C20: keys, tags and unsupported protocols -/

theorem checkShadowsocksPassword_128 (s c : String)
    (hc : ToLower c = "2022-blake3-aes-128-gcm") :
    checkShadowsocksPassword s c =
      if (utf8Bytes s).length < 16 then
        .error "shadowsocks2022 key's length must be greater than 16"
      else .ok (base64Encode ((utf8Bytes s).take 16)) := by
  simp [checkShadowsocksPassword, hc]

theorem checkShadowsocksPassword_256 (s c : String)
    (hc : ToLower c = "2022-blake3-aes-256-gcm" ∨ ToLower c = "2022-blake3-chacha20-poly1305") :
    checkShadowsocksPassword s c =
      if (utf8Bytes s).length < 16 then
        .error "shadowsocks2022 key's length must be greater than 16"
      else if (utf8Bytes s).length < 32 then
        .error "shadowsocks2022 key's length must be greater than 32"
      else .ok (base64Encode ((utf8Bytes s).take 32)) := by
  have hne : ToLower c ≠ "2022-blake3-aes-128-gcm" := by
    rcases hc with h | h <;> rw [h] <;> decide
  simp [checkShadowsocksPassword, hc, hne]

/-- C15. Relay key derivation for a relay descriptor `r` (cipher `r.Cipher`
lower-cased, server key `r.ServerKey`) and a subscriber `u` (secret
`u.Passwd`, of `len` bytes): for `2022-blake3-aes-128-gcm` and `len ≥ 16` the
key is the server key, `:` and the base64 text of the first 16 bytes; for
`2022-blake3-aes-256-gcm` and `2022-blake3-chacha20-poly1305` and `len ≥ 32`
the same with the first 32 bytes; for a shorter secret the derivation fails;
for a cipher outside the 2022 family the key is the secret verbatim. When
nothing fails, `AddRelayTag` builds the relay outbound of a subscriber with
this key, and builds none for a subscriber without key. -/
theorem relay_key_derivation (r : RelayNodeInfo) (u : SubscriptionInfo) :
    (ToLower r.Cipher = "2022-blake3-aes-128-gcm" → 16 ≤ (utf8Bytes u.Passwd).length →
      relayKey r u =
        some (r.ServerKey ++ ":" ++ base64Encode ((utf8Bytes u.Passwd).take 16))) ∧
    (ToLower r.Cipher = "2022-blake3-aes-256-gcm" ∨
        ToLower r.Cipher = "2022-blake3-chacha20-poly1305" →
      32 ≤ (utf8Bytes u.Passwd).length →
      relayKey r u =
        some (r.ServerKey ++ ":" ++ base64Encode ((utf8Bytes u.Passwd).take 32))) ∧
    (ToLower r.Cipher = "2022-blake3-aes-128-gcm" → (utf8Bytes u.Passwd).length < 16 →
      relayKey r u = none) ∧
    (ToLower r.Cipher = "2022-blake3-aes-256-gcm" ∨
        ToLower r.Cipher = "2022-blake3-chacha20-poly1305" →
      (utf8Bytes u.Passwd).length < 32 → relayKey r u = none) ∧
    (ToLower r.Cipher ∉ shadowaead2022List → relayKey r u = some u.Passwd) ∧
    (∀ (env : Env) (relayTag mainTag : String) (tr : List Call),
      env.DataPlaneOK → env.BuildersOK → r.NodeType ≠ "Shadowsocks-Plugin" →
      AddRelayTag env r relayTag mainTag [u] tr =
        (none, tr ++
          match relayKey r u with
          | none => []
          | some key =>
            [.AddOutbound (.relay relayTag r u key), .AddRule [relayRule mainTag relayTag u]])) := by
  refine ⟨?_, ?_, ?_, ?_, ?_, ?_⟩
  · intro hc hl
    have hm : ToLower r.Cipher ∈ shadowaead2022List := by rw [hc]; decide
    simp [relayKey, hm, checkShadowsocksPassword_128 _ _ hc, Nat.not_lt.2 hl]
  · intro hc hl
    have hm : ToLower r.Cipher ∈ shadowaead2022List := by
      rcases hc with h | h <;> rw [h] <;> decide
    have h16 : ¬ (utf8Bytes u.Passwd).length < 16 := by omega
    simp [relayKey, hm, checkShadowsocksPassword_256 _ _ hc, Nat.not_lt.2 hl, h16]
  · intro hc hl
    have hm : ToLower r.Cipher ∈ shadowaead2022List := by rw [hc]; decide
    simp [relayKey, hm, checkShadowsocksPassword_128 _ _ hc, hl]
  · intro hc hl
    have hm : ToLower r.Cipher ∈ shadowaead2022List := by
      rcases hc with h | h <;> rw [h] <;> decide
    by_cases h16 : (utf8Bytes u.Passwd).length < 16 <;>
      simp [relayKey, hm, checkShadowsocksPassword_256 _ _ hc, hl, h16]
  · intro hm
    simp [relayKey, hm]
  · intro env relayTag mainTag tr hdp hb hnp
    rw [AddRelayTag_ok hdp hb r hnp, relayBuildCalls_cons]
    simp [relayBuildCalls]

/-- C15, witness: the cipher `2022-BLAKE3-AES-128-GCM` and a secret of 20
bytes give the server key, `:` and the base64 text of the first 16 bytes. -/
theorem relay_key_derivation_witness :
    relayKey relay128 subscriber20 = some "serverKey:MDEyMzQ1Njc4OWFiY2RlZg==" :=
  (relay_key_derivation relay128 subscriber20).1 (by decide) (by decide)

theorem blockingRuleList_tags (n : NodeInfo) (tag : String) (rules : List Rule)
    (h : blockingRuleList n tag = .ok rules) (rule : Rule) (hr : rule ∈ rules) :
    rule.RuleTag = tag ++ "_blackhole" ∧ rule.OutboundTag = tag ++ "_blackhole" ∧
    rule.InboundTag = [tag] := by
  simp only [blockingRuleList] at h
  split at h
  · split at h
    · cases h
    · cases h
      simp only [List.mem_singleton] at hr
      subst hr
      exact ⟨rfl, rfl, rfl⟩
  · cases h
    simp at hr

/-- C16. The tag formats: node tag, relay tag, default rule tag, blackhole
rule and outbound tag, per-subscriber relay rule and outbound tag; and the
removals ask for the same strings that the rules carry. -/
theorem tag_formats :
    (∀ n : NodeInfo,
      buildNodeTag n = n.NodeType ++ "_" ++ n.ListeningPort ++ "_" ++ fmtInt n.NodeID) ∧
    (∀ r : RelayNodeInfo,
      buildRNodeTag r =
        "Relay_" ++ r.NodeType ++ "_" ++ fmtInt r.ListeningPort ++ "_" ++ fmtInt r.NodeID) ∧
    (∀ tag, (defaultRule tag).RuleTag = tag ++ "_default" ∧
      (defaultRule tag).InboundTag = [tag] ∧ (defaultRule tag).OutboundTag = tag) ∧
    (∀ (n : NodeInfo) (tag : String) (rules : List Rule), blockingRuleList n tag = .ok rules →
      ∀ rule ∈ rules, rule.RuleTag = tag ++ "_blackhole" ∧
        rule.OutboundTag = tag ++ "_blackhole") ∧
    (∀ (tag relayTag : String) (u : SubscriptionInfo),
      (relayRule tag relayTag u).RuleTag = relayTag ++ "_" ++ fmtInt u.Id ∧
      (relayRule tag relayTag u).OutboundTag = relayTag ++ "_" ++ fmtInt u.Id) ∧
    (∀ (env : Env) (tag : String) (subs : List SubscriptionInfo) (tr : List Call),
      env.DataPlaneOK →
      (RemoveTag env tag tr).2 =
        tr ++ [.RemoveInbound tag, .RemoveOutbound tag, .RemoveRule (tag ++ "_default")] ∧
      (RemoveBlockingRules env tag tr).2 =
        tr ++ [.RemoveRule (tag ++ "_blackhole"), .RemoveOutbound (tag ++ "_blackhole")] ∧
      (RemoveRelayRules env tag subs tr).2 =
        tr ++ subs.map (fun u => Call.RemoveRule (tag ++ "_" ++ fmtInt u.Id)) ∧
      (RemoveRelayTag env tag subs tr).2 =
        tr ++ subs.map (fun u => Call.RemoveOutbound (tag ++ "_" ++ fmtInt u.Id))) := by
  refine ⟨fun _ => rfl, fun _ => rfl, fun _ => ⟨rfl, rfl, rfl⟩, ?_, fun _ _ _ => ⟨rfl, rfl⟩, ?_⟩
  · intro n tag rules h rule hr
    exact ⟨(blockingRuleList_tags n tag rules h rule hr).1,
      (blockingRuleList_tags n tag rules h rule hr).2.1⟩
  · intro env tag subs tr hdp
    rw [RemoveTag_ok hdp, RemoveBlockingRules_ok hdp, RemoveRelayRules_ok hdp,
      RemoveRelayTag_ok hdp]
    exact ⟨rfl, rfl, rfl, rfl⟩

/-- C16, witness: the tags of a vless node on port 443 with id 7 and of a
relay on port 8443 with id 3, and the removals for the node tag. -/
theorem tag_formats_witness :
    buildNodeTag (plainNode "vless") = "vless_443_7" ∧
    buildRNodeTag relay128 = "Relay_shadowsocks_8443_3" ∧
    (RemoveTag quietEnv "vless_443_7" []).2 =
      [.RemoveInbound "vless_443_7", .RemoveOutbound "vless_443_7",
       .RemoveRule "vless_443_7_default"] ∧
    (RemoveRelayRules quietEnv "Relay_shadowsocks_8443_3" [subscriber 5] []).2 =
      [.RemoveRule "Relay_shadowsocks_8443_3_5"] :=
  have h := tag_formats.2.2.2.2.2 quietEnv "vless_443_7" [] [] (fun _ _ => rfl)
  have h' := tag_formats.2.2.2.2.2 quietEnv "Relay_shadowsocks_8443_3" [subscriber 5] []
    (fun _ _ => rfl)
  ⟨by decide, by decide, h.1, h'.2.2.1⟩

/-- C19. `FormatEmails` keeps length and order; its i-th element is the tag,
`|`, the identifier, `|` and the decimal id of the i-th record; it is empty
for an empty list; and this composite key is the one `buildUserTag` makes for
the traffic counters and the one `RelayRouterBuilder` puts into the relay rule
as user matcher. -/
theorem FormatEmails_composite_key (tag : String) (subs : List SubscriptionInfo) :
    (FormatEmails subs tag).length = subs.length ∧
    (∀ i : Nat, (FormatEmails subs tag)[i]? =
      subs[i]?.map fun (u : SubscriptionInfo) => tag ++ "|" ++ u.Email ++ "|" ++ fmtInt u.Id) ∧
    FormatEmails [] tag = [] ∧
    FormatEmails subs tag = subs.map (buildUserTag tag) ∧
    (∀ u : SubscriptionInfo, buildUserTag tag u = tag ++ "|" ++ u.Email ++ "|" ++ fmtInt u.Id) ∧
    (∀ (relayTag : String) (u : SubscriptionInfo),
      (relayRule tag relayTag u).User = some [buildUserTag tag u] ∧
      (relayRule tag relayTag u).User = some (FormatEmails [u] tag)) := by
  exact ⟨by simp [FormatEmails], fun i => by simp [FormatEmails], rfl, rfl, fun _ => rfl,
    fun _ _ => ⟨rfl, rfl⟩⟩

/-- C20, counterexample: an empty record list and the unsupported node type
`socks`. `AddNewSubscription` returns `nil`, not an error. -/
theorem AddNewSubscription_empty_list_no_error :
    (plainNode "socks").NodeType ∉ ["vless", "vmess", "trojan", "shadowsocks"] ∧
    AddNewSubscription quietEnv [] (plainNode "socks") "socks_443_7" [] = (none, []) := by
  decide

/-- C20, amended. For a node type that is not one of vless, vmess, trojan,
shadowsocks and a record list that is not empty, `AddNewSubscription` returns
an error and issues no call at all, so it installs no credential; for an
empty list it returns `nil` before it looks at the node type, again without
any call. -/
theorem AddNewSubscription_unsupported_aborts (env : Env) (subs : List SubscriptionInfo)
    (nodeInfo : NodeInfo) (tag : String) (tr : List Call)
    (hun : nodeInfo.NodeType ∉ ["vless", "vmess", "trojan", "shadowsocks"]) :
    (subs ≠ [] →
      AddNewSubscription env subs nodeInfo tag tr =
        (some ("unsupported node type " ++ nodeInfo.NodeType ++ ". Abort building user"), tr)) ∧
    AddNewSubscription env [] nodeInfo tag tr = (none, tr) := by
  simp only [List.mem_cons, List.mem_singleton, List.not_mem_nil, or_false, not_or] at hun
  have hb : buildUsers subs nodeInfo tag = none := by
    simp [buildUsers, hun.1, hun.2.1, hun.2.2.1, hun.2.2.2]
  constructor
  · intro hne
    have hl : subs.length ≠ 0 := fun h => hne (List.length_eq_zero.1 h)
    simp [AddNewSubscription, hl, hb, bind, pure]
  · simp [AddNewSubscription, bind, pure]

/-- C20, amended, witness: two records for the unsupported node type `socks`. -/
theorem AddNewSubscription_unsupported_aborts_witness :
    AddNewSubscription quietEnv [subscriber 1, subscriber 2] (plainNode "socks") "socks_443_7" [] =
      (some "unsupported node type socks. Abort building user", []) :=
  (AddNewSubscription_unsupported_aborts quietEnv [subscriber 1, subscriber 2]
    (plainNode "socks") "socks_443_7" [] (by decide)).1 (by decide)

/-! ## Lemmas on decimal text -/

theorem digitChar_decimal (k : Nat) (hk : k < 10) :
    isDecimalDigit (Nat.digitChar k) ∧ (Nat.digitChar k).toNat - '0'.toNat = k := by
  interval_cases k <;> exact ⟨by decide, by decide⟩

theorem toDigitsCore_decimal (fuel n : Nat) (ds : List Char) (c : Char)
    (hc : c ∈ Nat.toDigitsCore 10 fuel n ds) : isDecimalDigit c ∨ c ∈ ds := by
  induction fuel generalizing n ds with
  | zero => exact Or.inr (by simpa [Nat.toDigitsCore] using hc)
  | succ fuel ih =>
    simp only [Nat.toDigitsCore] at hc
    split at hc
    · rcases List.mem_cons.1 hc with rfl | h
      · exact Or.inl (digitChar_decimal _ (Nat.mod_lt _ (by norm_num))).1
      · exact Or.inr h
    · rcases ih _ _ hc with h | h
      · exact Or.inl h
      · rcases List.mem_cons.1 h with rfl | h
        · exact Or.inl (digitChar_decimal _ (Nat.mod_lt _ (by norm_num))).1
        · exact Or.inr h

theorem toDigits_decimal (n : Nat) (c : Char) (hc : c ∈ Nat.toDigits 10 n) :
    isDecimalDigit c := by
  rcases toDigitsCore_decimal _ _ _ _ hc with h | h
  · exact h
  · simp at h

theorem toDigitsCore_value (fuel n : Nat) (ds : List Char) (hf : n < fuel) :
    (Nat.toDigitsCore 10 fuel n ds).foldl (fun acc c => acc * 10 + (c.toNat - '0'.toNat)) 0 =
      ds.foldl (fun acc c => acc * 10 + (c.toNat - '0'.toNat)) n := by
  induction fuel generalizing n ds with
  | zero => omega
  | succ fuel ih =>
    simp only [Nat.toDigitsCore]
    have hd := (digitChar_decimal (n % 10) (Nat.mod_lt _ (by norm_num))).2
    split
    · rename_i h0
      simp only [List.foldl_cons, hd, Nat.zero_mul, Nat.zero_add]
      congr 1
      omega
    · rename_i h0
      rw [ih (n / 10) _ (by omega)]
      simp only [List.foldl_cons, hd]
      congr 1
      omega

theorem decimalValue_toDigits (n : Nat) : decimalValue (Nat.toDigits 10 n) = n := by
  unfold decimalValue Nat.toDigits
  rw [toDigitsCore_value _ _ _ (Nat.lt_succ_self n)]
  rfl

theorem toDigits_ne_nil (n : Nat) : Nat.toDigits 10 n ≠ [] := by
  intro h
  have hv := decimalValue_toDigits n
  rw [h] at hv
  have h0 : n = 0 := by simpa [decimalValue] using hv.symm
  subst h0
  revert h
  decide

theorem toString_nat (n : Nat) : (toString n).data = Nat.toDigits 10 n := rfl

theorem fmtInt_ofNat (n : Nat) : (fmtInt (Int.ofNat n)).data = Nat.toDigits 10 n := rfl

theorem fmtInt_negSucc (n : Nat) :
    (fmtInt (Int.negSucc n)).data = '-' :: Nat.toDigits 10 (n + 1) := rfl

theorem fmtInt_chars (a : Int) (c : Char) (hc : c ∈ (fmtInt a).data) :
    isDecimalDigit c ∨ c = '-' := by
  cases a with
  | ofNat n =>
    rw [fmtInt_ofNat] at hc
    exact Or.inl (toDigits_decimal n c hc)
  | negSucc n =>
    rw [fmtInt_negSucc] at hc
    rcases List.mem_cons.1 hc with h | h
    · exact Or.inr h
    · exact Or.inl (toDigits_decimal _ c h)

theorem fmtInt_no_underscore (a : Int) : '_' ∉ (fmtInt a).data := by
  intro h
  rcases fmtInt_chars a _ h with h | h
  · revert h; decide
  · revert h; decide

theorem fmtInt_injective (a b : Int) (h : fmtInt a = fmtInt b) : a = b := by
  have hd : (fmtInt a).data = (fmtInt b).data := by rw [h]
  have hminus : ∀ n : Nat, '-' ∉ Nat.toDigits 10 n := by
    intro n hm
    have := toDigits_decimal n _ hm
    revert this
    decide
  cases a with
  | ofNat n =>
    cases b with
    | ofNat m =>
      rw [fmtInt_ofNat, fmtInt_ofNat] at hd
      have := congrArg decimalValue hd
      rw [decimalValue_toDigits, decimalValue_toDigits] at this
      rw [this]
    | negSucc m =>
      rw [fmtInt_ofNat, fmtInt_negSucc] at hd
      exact absurd (hd ▸ List.mem_cons_self _ _) (hminus n)
  | negSucc n =>
    cases b with
    | ofNat m =>
      rw [fmtInt_ofNat, fmtInt_negSucc] at hd
      exact absurd (hd ▸ List.mem_cons_self _ _) (hminus m)
    | negSucc m =>
      rw [fmtInt_negSucc, fmtInt_negSucc] at hd
      have := congrArg decimalValue (List.cons.inj hd).2
      rw [decimalValue_toDigits, decimalValue_toDigits] at this
      have : n = m := by omega
      rw [this]

/-! ## Lemmas on texts joined by a separator -/

theorem append_sep_inj_right {c : Char} {x y x' y' : List Char} (hy : c ∉ y) (hy' : c ∉ y')
    (h : x ++ c :: y = x' ++ c :: y') : x = x' ∧ y = y' := by
  induction x generalizing x' with
  | nil =>
    cases x' with
    | nil => exact ⟨rfl, by simpa using h⟩
    | cons a x2 =>
      simp only [List.nil_append, List.cons_append, List.cons.injEq] at h
      exact absurd (h.2 ▸ List.mem_append_right _ (List.mem_cons_self _ _)) hy
  | cons a xs ih =>
    cases x' with
    | nil =>
      simp only [List.nil_append, List.cons_append, List.cons.injEq] at h
      exact absurd (h.2 ▸ List.mem_append_right _ (List.mem_cons_self _ _)) hy'
    | cons a' x2 =>
      simp only [List.cons_append, List.cons.injEq] at h
      obtain ⟨e1, e2⟩ := ih h.2
      exact ⟨by rw [h.1, e1], e2⟩

theorem append_sep_inj_left {c : Char} {x y x' y' : List Char} (hx : c ∉ x) (hx' : c ∉ x')
    (h : x ++ c :: y = x' ++ c :: y') : x = x' ∧ y = y' := by
  induction x generalizing x' with
  | nil =>
    cases x' with
    | nil => exact ⟨rfl, by simpa using h⟩
    | cons a x2 =>
      simp only [List.nil_append, List.cons_append, List.cons.injEq] at h
      exact absurd (h.1 ▸ List.mem_cons_self _ _) hx'
  | cons a xs ih =>
    cases x' with
    | nil =>
      simp only [List.nil_append, List.cons_append, List.cons.injEq] at h
      exact absurd (h.1 ▸ List.mem_cons_self _ _) hx
    | cons a' x2 =>
      simp only [List.cons_append, List.cons.injEq] at h
      obtain ⟨e1, e2⟩ := ih (fun hm => hx (List.mem_cons_of_mem _ hm))
        (fun hm => hx' (List.mem_cons_of_mem _ hm)) h.2
      exact ⟨by rw [h.1, e1], e2⟩

theorem buildNodeTag_data (n : NodeInfo) :
    (buildNodeTag n).data =
      n.NodeType.data ++ '_' :: (n.ListeningPort.data ++ '_' :: (fmtInt n.NodeID).data) := by
  simp [buildNodeTag, String.data_append]

theorem buildRNodeTag_data (r : RelayNodeInfo) :
    (buildRNodeTag r).data =
      "Relay_".data ++ (r.NodeType.data ++ '_' :: ((fmtInt r.ListeningPort).data ++
        '_' :: (fmtInt r.NodeID).data)) := by
  simp [buildRNodeTag, String.data_append]

theorem string_eq_of_data {a b : String} (h : a.data = b.data) : a = b := String.ext h

/-! ## Claims C17 and C18: tags as functions of the identity -/

theorem node_tag_fields_of_port_clean (n m : NodeInfo)
    (hn : '_' ∉ n.ListeningPort.data) (hm : '_' ∉ m.ListeningPort.data)
    (h : buildNodeTag n = buildNodeTag m) :
    n.NodeType = m.NodeType ∧ n.ListeningPort = m.ListeningPort ∧ n.NodeID = m.NodeID := by
  have hd : (buildNodeTag n).data = (buildNodeTag m).data := by rw [h]
  rw [buildNodeTag_data, buildNodeTag_data] at hd
  have hd' : (n.NodeType.data ++ '_' :: n.ListeningPort.data) ++ '_' :: (fmtInt n.NodeID).data =
      (m.NodeType.data ++ '_' :: m.ListeningPort.data) ++ '_' :: (fmtInt m.NodeID).data := by
    simpa using hd
  obtain ⟨h1, h2⟩ := append_sep_inj_right (fmtInt_no_underscore _) (fmtInt_no_underscore _) hd'
  obtain ⟨h3, h4⟩ := append_sep_inj_right hn hm h1
  exact ⟨String.ext h3, String.ext h4, fmtInt_injective _ _ (String.ext h2)⟩

theorem node_tag_fields_of_type_clean (n m : NodeInfo)
    (hn : '_' ∉ n.NodeType.data) (hm : '_' ∉ m.NodeType.data)
    (h : buildNodeTag n = buildNodeTag m) :
    n.NodeType = m.NodeType ∧ n.ListeningPort = m.ListeningPort ∧ n.NodeID = m.NodeID := by
  have hd : (buildNodeTag n).data = (buildNodeTag m).data := by rw [h]
  rw [buildNodeTag_data, buildNodeTag_data] at hd
  obtain ⟨h1, h2⟩ := append_sep_inj_left hn hm hd
  obtain ⟨h3, h4⟩ := append_sep_inj_right (fmtInt_no_underscore _) (fmtInt_no_underscore _) h2
  exact ⟨String.ext h1, String.ext h3, fmtInt_injective _ _ (String.ext h4)⟩

theorem relay_user_tag_fields (r r' : RelayNodeInfo) (u u' : SubscriptionInfo)
    (h : relayUserTag (buildRNodeTag r) u = relayUserTag (buildRNodeTag r') u') :
    r.NodeType = r'.NodeType ∧ r.ListeningPort = r'.ListeningPort ∧ r.NodeID = r'.NodeID ∧
    u.Id = u'.Id := by
  have hd : (relayUserTag (buildRNodeTag r) u).data =
      (relayUserTag (buildRNodeTag r') u').data := by rw [h]
  simp only [relayUserTag, String.data_append, buildRNodeTag_data] at hd
  have hd' : ("Relay_".data ++ (r.NodeType.data ++ '_' :: ((fmtInt r.ListeningPort).data ++
        '_' :: (fmtInt r.NodeID).data))) ++ '_' :: (fmtInt u.Id).data =
      ("Relay_".data ++ (r'.NodeType.data ++ '_' :: ((fmtInt r'.ListeningPort).data ++
        '_' :: (fmtInt r'.NodeID).data))) ++ '_' :: (fmtInt u'.Id).data := by
    simpa using hd
  obtain ⟨h1, h2⟩ := append_sep_inj_right (fmtInt_no_underscore _) (fmtInt_no_underscore _) hd'
  have h1' := List.append_cancel_left h1
  have h1b : (r.NodeType.data ++ '_' :: (fmtInt r.ListeningPort).data) ++
        '_' :: (fmtInt r.NodeID).data =
      (r'.NodeType.data ++ '_' :: (fmtInt r'.ListeningPort).data) ++
        '_' :: (fmtInt r'.NodeID).data := by
    simpa using h1'
  obtain ⟨h3, h4⟩ := append_sep_inj_right (fmtInt_no_underscore _) (fmtInt_no_underscore _) h1b
  obtain ⟨h5, h6⟩ := append_sep_inj_right (fmtInt_no_underscore _) (fmtInt_no_underscore _) h3
  exact ⟨String.ext h5, fmtInt_injective _ _ (String.ext h6),
    fmtInt_injective _ _ (String.ext h4), fmtInt_injective _ _ (String.ext h2)⟩

theorem protocolKinds_no_underscore (k : String) (hk : k ∈ protocolKinds) : '_' ∉ k.data := by
  simp only [protocolKinds, List.mem_cons, List.mem_singleton, List.not_mem_nil, or_false] at hk
  rcases hk with rfl | rfl | rfl | rfl | rfl <;> decide

/-- C17. Tag derivation is injective. Two node descriptors whose protocols
are protocol kinds and whose tuples (protocol, port, id) differ in at least one
component have different node tags; and two tuples (relay protocol, relay
port, relay id, subscriber id) that differ have different per-subscriber relay
tags, whatever the relay protocols. -/
theorem tag_derivation_injective :
    (∀ n m : NodeInfo, n.NodeType ∈ protocolKinds → m.NodeType ∈ protocolKinds →
      (n.NodeType, n.ListeningPort, n.NodeID) ≠ (m.NodeType, m.ListeningPort, m.NodeID) →
      buildNodeTag n ≠ buildNodeTag m) ∧
    (∀ (r r' : RelayNodeInfo) (u u' : SubscriptionInfo),
      (r.NodeType, r.ListeningPort, r.NodeID, u.Id) ≠
        (r'.NodeType, r'.ListeningPort, r'.NodeID, u'.Id) →
      relayUserTag (buildRNodeTag r) u ≠ relayUserTag (buildRNodeTag r') u') := by
  refine ⟨?_, ?_⟩
  · intro n m hn hm hne h
    obtain ⟨h1, h2, h3⟩ := node_tag_fields_of_type_clean n m
      (protocolKinds_no_underscore _ hn) (protocolKinds_no_underscore _ hm) h
    exact hne (by rw [h1, h2, h3])
  · intro r r' u u' hne h
    obtain ⟨h1, h2, h3, h4⟩ := relay_user_tag_fields r r' u u' h
    exact hne (by rw [h1, h2, h3, h4])

/-- C17, witness: a vless node and a trojan node on the same port with the
same id have different tags. -/
theorem tag_derivation_injective_witness :
    buildNodeTag (plainNode "vless") ≠ buildNodeTag (plainNode "trojan") :=
  tag_derivation_injective.1 (plainNode "vless") (plainNode "trojan") (by decide) (by decide)
    (by decide)

/-- C18. The node tag is a function of `NodeType`, `ListeningPort` and
`NodeID` only, and changing exactly one of the three changes the tag; likewise
the relay tag and the relay's type, port and id. -/
theorem tag_determined_by_and_sensitive_to_fields :
    (∀ n m : NodeInfo, n.NodeType = m.NodeType → n.ListeningPort = m.ListeningPort →
      n.NodeID = m.NodeID → buildNodeTag n = buildNodeTag m) ∧
    (∀ n m : NodeInfo, n.NodeType ≠ m.NodeType → n.ListeningPort = m.ListeningPort →
      n.NodeID = m.NodeID → buildNodeTag n ≠ buildNodeTag m) ∧
    (∀ n m : NodeInfo, n.NodeType = m.NodeType → n.ListeningPort ≠ m.ListeningPort →
      n.NodeID = m.NodeID → buildNodeTag n ≠ buildNodeTag m) ∧
    (∀ n m : NodeInfo, n.NodeType = m.NodeType → n.ListeningPort = m.ListeningPort →
      n.NodeID ≠ m.NodeID → buildNodeTag n ≠ buildNodeTag m) ∧
    (∀ r r' : RelayNodeInfo, r.NodeType = r'.NodeType → r.ListeningPort = r'.ListeningPort →
      r.NodeID = r'.NodeID → buildRNodeTag r = buildRNodeTag r') ∧
    (∀ r r' : RelayNodeInfo, r.NodeType ≠ r'.NodeType → r.ListeningPort = r'.ListeningPort →
      r.NodeID = r'.NodeID → buildRNodeTag r ≠ buildRNodeTag r') ∧
    (∀ r r' : RelayNodeInfo, r.NodeType = r'.NodeType → r.ListeningPort ≠ r'.ListeningPort →
      r.NodeID = r'.NodeID → buildRNodeTag r ≠ buildRNodeTag r') ∧
    (∀ r r' : RelayNodeInfo, r.NodeType = r'.NodeType → r.ListeningPort = r'.ListeningPort →
      r.NodeID ≠ r'.NodeID → buildRNodeTag r ≠ buildRNodeTag r') := by
  refine ⟨?_, ?_, ?_, ?_, ?_, ?_, ?_, ?_⟩
  · intro n m h1 h2 h3
    simp only [buildNodeTag, h1, h2, h3]
  · intro n m h1 h2 h3 h
    have hd : (buildNodeTag n).data = (buildNodeTag m).data := by rw [h]
    rw [buildNodeTag_data, buildNodeTag_data, h2, h3] at hd
    exact h1 (String.ext (List.append_cancel_right hd))
  · intro n m h1 h2 h3 h
    have hd : (buildNodeTag n).data = (buildNodeTag m).data := by rw [h]
    rw [buildNodeTag_data, buildNodeTag_data, h1, h3] at hd
    have := List.cons.inj (List.append_cancel_left hd)
    exact h2 (String.ext (List.append_cancel_right this.2))
  · intro n m h1 h2 h3 h
    have hd : (buildNodeTag n).data = (buildNodeTag m).data := by rw [h]
    rw [buildNodeTag_data, buildNodeTag_data, h1, h2] at hd
    have := List.cons.inj (List.append_cancel_left hd)
    have := List.cons.inj (List.append_cancel_left this.2)
    exact h3 (fmtInt_injective _ _ (String.ext this.2))
  · intro r r' h1 h2 h3
    simp only [buildRNodeTag, h1, h2, h3]
  · intro r r' h1 h2 h3 h
    have hd : (buildRNodeTag r).data = (buildRNodeTag r').data := by rw [h]
    rw [buildRNodeTag_data, buildRNodeTag_data, h2, h3] at hd
    exact h1 (String.ext (List.append_cancel_right (List.append_cancel_left hd)))
  · intro r r' h1 h2 h3 h
    have hd : (buildRNodeTag r).data = (buildRNodeTag r').data := by rw [h]
    rw [buildRNodeTag_data, buildRNodeTag_data, h1, h3] at hd
    have := List.cons.inj (List.append_cancel_left (List.append_cancel_left hd))
    exact h2 (fmtInt_injective _ _ (String.ext (List.append_cancel_right this.2)))
  · intro r r' h1 h2 h3 h
    have hd : (buildRNodeTag r).data = (buildRNodeTag r').data := by rw [h]
    rw [buildRNodeTag_data, buildRNodeTag_data, h1, h2] at hd
    have := List.cons.inj (List.append_cancel_left (List.append_cancel_left hd))
    have := List.cons.inj (List.append_cancel_left this.2)
    exact h3 (fmtInt_injective _ _ (String.ext this.2))

/-- C18, witness: moving the node from port 443 to port 8443, with type and
id unchanged, changes the tag. -/
theorem tag_determined_by_and_sensitive_to_fields_witness :
    buildNodeTag (plainNode "vless") ≠ buildNodeTag movedNode :=
  tag_determined_by_and_sensitive_to_fields.2.2.1 (plainNode "vless") movedNode rfl
    (by decide) rfl

/-! ## Lemmas on port strings -/

theorem splitComma_ne_nil (cs : List Char) : splitComma cs ≠ [] := by
  induction cs with
  | nil => simp [splitComma]
  | cons c cs ih =>
    unfold splitComma
    split
    · simp
    · split <;> simp

theorem splitComma_comma (cs : List Char) : splitComma (',' :: cs) = [] :: splitComma cs := by
  cases h : splitComma cs with
  | nil => exact absurd h (splitComma_ne_nil cs)
  | cons tok toks => simp [splitComma, h]

theorem splitComma_cons (c : Char) (cs : List Char) :
    splitComma (c :: cs) =
      match splitComma cs with
      | [] => [[c]]
      | tok :: toks => if c = ',' then [] :: tok :: toks else (c :: tok) :: toks := by
  rw [splitComma]

theorem splitComma_append (t rest : List Char) (ht : ',' ∉ t) :
    splitComma (t ++ ',' :: rest) = t :: splitComma rest := by
  induction t with
  | nil => simpa using splitComma_comma rest
  | cons c t ih =>
    have hc : c ≠ ',' := fun e => ht (e ▸ List.mem_cons_self _ _)
    have ih' := ih (fun hm => ht (List.mem_cons_of_mem _ hm))
    simp only [List.cons_append]
    rw [splitComma_cons, ih']
    simp [hc]

theorem splitComma_single (t : List Char) (ht : ',' ∉ t) : splitComma t = [t] := by
  induction t with
  | nil => simp [splitComma]
  | cons c t ih =>
    have hc : c ≠ ',' := fun e => ht (e ▸ List.mem_cons_self _ _)
    rw [splitComma_cons, ih (fun hm => ht (List.mem_cons_of_mem _ hm))]
    simp [hc]

theorem splitComma_joinComma (ts : List (List Char)) (hne : ts ≠ [])
    (hc : ∀ t ∈ ts, ',' ∉ t) : splitComma (joinComma ts) = ts := by
  induction ts with
  | nil => exact absurd rfl hne
  | cons t ts ih =>
    cases ts with
    | nil => simpa [joinComma] using splitComma_single t (hc t (List.mem_cons_self _ _))
    | cons t' ts' =>
      simp only [joinComma]
      rw [splitComma_append t _ (hc t (List.mem_cons_self _ _)),
        ih (by simp) (fun x hx => hc x (List.mem_cons_of_mem _ hx))]

theorem dropWhile_eq_self_of_head {p : Char → Bool} (c : Char) (cs : List Char)
    (h : p c = false) : (c :: cs).dropWhile p = c :: cs := by
  simp [List.dropWhile, h]

theorem TrimSpace_eq_self (cs : List Char) (h : ∀ c ∈ cs, isSpace c = false) :
    TrimSpace cs = cs := by
  have h1 : ∀ l : List Char, (∀ c ∈ l, isSpace c = false) → l.dropWhile isSpace = l := by
    intro l hl
    cases l with
    | nil => rfl
    | cons c l => exact dropWhile_eq_self_of_head c l (hl c (List.mem_cons_self _ _))
  unfold TrimSpace
  rw [h1 cs h, h1 cs.reverse (fun c hc => h c (List.mem_reverse.1 hc)), List.reverse_reverse]

theorem isSpace_of_decimal_or_dash (c : Char) (h : isDecimalDigit c ∨ c = '-') :
    isSpace c = false := by
  rcases h with ⟨h1, h2⟩ | rfl
  · have h1' : 48 ≤ c.toNat := h1
    have h2' : c.toNat ≤ 57 := h2
    simp only [isSpace, Bool.or_eq_false_iff, decide_eq_false_iff_not, Bool.and_eq_false_imp,
      decide_eq_true_eq]
    omega
  · decide

theorem ParseUint32_eq_some (cs : List Char) (v : Nat) :
    ParseUint32 cs = some v ↔ isUInt32Text cs ∧ v = decimalValue cs := by
  have hall : (cs.all fun c => decide ('0' ≤ c ∧ c ≤ '9')) = true ↔
      ∀ c ∈ cs, isDecimalDigit c := by
    simp [List.all_eq_true, isDecimalDigit]
  unfold ParseUint32 isUInt32Text
  by_cases h0 : cs = []
  · simp [h0]
  · rw [if_neg h0]
    by_cases hd : ∀ c ∈ cs, isDecimalDigit c
    · rw [if_pos (hall.2 hd)]
      show (if decimalValue cs < 2 ^ 32 then some (decimalValue cs) else none) = some v ↔ _
      by_cases hv : decimalValue cs < 2 ^ 32
      · rw [if_pos hv]
        constructor
        · intro e; exact ⟨⟨h0, hd, hv⟩, (Option.some.inj e).symm⟩
        · intro e; rw [e.2]
      · rw [if_neg hv]
        constructor
        · intro e; cases e
        · intro e; exact absurd e.1.2.2 hv
    · rw [if_neg (fun h => hd (hall.1 h))]
      constructor
      · intro e; cases e
      · intro e; exact absurd e.1.2.1 hd

theorem splitDash_append (a b : List Char) (ha : '-' ∉ a) :
    splitDash (a ++ '-' :: b) = (a, b) := by
  unfold splitDash
  induction a with
  | nil => simp [List.takeWhile, List.dropWhile]
  | cons c a ih =>
    have hc : c ≠ '-' := fun e => ha (e ▸ List.mem_cons_self _ _)
    have ih' := ih (fun hm => ha (List.mem_cons_of_mem _ hm))
    simp only [Prod.mk.injEq] at ih' ⊢
    simp only [List.cons_append, List.takeWhile, List.dropWhile, ne_eq, hc, not_false_eq_true,
      decide_True, List.cons.injEq, true_and]
    exact ih'

theorem splitDash_spec (p : List Char) (hp : '-' ∈ p) :
    p = (splitDash p).1 ++ '-' :: (splitDash p).2 ∧ '-' ∉ (splitDash p).1 := by
  unfold splitDash
  induction p with
  | nil => simp at hp
  | cons c p ih =>
    by_cases hc : c = '-'
    · subst hc
      simp [List.takeWhile, List.dropWhile]
    · have hp' : '-' ∈ p := by
        rcases List.mem_cons.1 hp with h | h
        · exact absurd h.symm hc
        · exact h
      obtain ⟨h1, h2⟩ := ih hp'
      simp only [List.takeWhile, List.dropWhile, ne_eq, hc, not_false_eq_true, decide_True,
        List.cons_append, List.cons.injEq, true_and, List.mem_cons, not_or]
      exact ⟨h1, fun e => hc e.symm, h2⟩

theorem toDigits_isUInt32Text (n : Nat) (hn : n < 2 ^ 32) : isUInt32Text (Nat.toDigits 10 n) :=
  ⟨toDigits_ne_nil n, fun c hc => toDigits_decimal n c hc, by rw [decimalValue_toDigits]; exact hn⟩

theorem ParseUint32_toDigits (n : Nat) (hn : n < 2 ^ 32) :
    ParseUint32 (Nat.toDigits 10 n) = some n :=
  (ParseUint32_eq_some _ _).2 ⟨toDigits_isUInt32Text n hn, (decimalValue_toDigits n).symm⟩

theorem toDigits_no_dash (n : Nat) : '-' ∉ Nat.toDigits 10 n := by
  intro h
  have := toDigits_decimal n _ h
  revert this
  decide

theorem toDigits_no_comma (n : Nat) : ',' ∉ Nat.toDigits 10 n := by
  intro h
  have := toDigits_decimal n _ h
  revert this
  decide

theorem TrimSpace_toDigits (n : Nat) : TrimSpace (Nat.toDigits 10 n) = Nat.toDigits 10 n :=
  TrimSpace_eq_self _ fun c hc => isSpace_of_decimal_or_dash c (Or.inl (toDigits_decimal n c hc))

theorem parsePortTokens_cons (tok : List Char) (toks : List (List Char))
    (ranges : List PortRange) :
    parsePortTokens (tok :: toks) ranges =
      if TrimSpace tok = [] then parsePortTokens toks ranges
      else if '-' ∈ TrimSpace tok then
        match ParseUint32 (TrimSpace (splitDash (TrimSpace tok)).1) with
        | none => .error ("invalid port number in range: " ++
            String.mk (splitDash (TrimSpace tok)).1)
        | some fromPort =>
          match ParseUint32 (TrimSpace (splitDash (TrimSpace tok)).2) with
          | none => .error ("invalid port number in range: " ++
              String.mk (splitDash (TrimSpace tok)).2)
          | some toPort => parsePortTokens toks (ranges ++ [⟨fromPort, toPort⟩])
      else
        match ParseUint32 (TrimSpace tok) with
        | none => .error ("invalid port number: " ++ String.mk (TrimSpace tok))
        | some port => parsePortTokens toks (ranges ++ [⟨port, port⟩]) := by
  rw [parsePortTokens]
  by_cases h1 : TrimSpace tok = []
  · simp [h1]
  · by_cases h2 : '-' ∈ TrimSpace tok <;> simp [h1, h2]

theorem PortToken.text_trim (t : PortToken) : TrimSpace t.text = t.text := by
  apply TrimSpace_eq_self
  intro c hc
  apply isSpace_of_decimal_or_dash
  cases t with
  | single n => exact Or.inl (toDigits_decimal n c hc)
  | range a b =>
    simp only [PortToken.text, List.mem_append, List.mem_cons] at hc
    rcases hc with h | h | h
    · exact Or.inl (toDigits_decimal a c h)
    · exact Or.inr h
    · exact Or.inl (toDigits_decimal b c h)

theorem PortToken.text_ne_nil (t : PortToken) : t.text ≠ [] := by
  cases t with
  | single n => exact toDigits_ne_nil n
  | range a b => simp [PortToken.text]

theorem PortToken.text_no_comma (t : PortToken) : ',' ∉ t.text := by
  cases t with
  | single n => exact toDigits_no_comma n
  | range a b =>
    simp only [PortToken.text, List.mem_append, List.mem_cons, not_or]
    exact ⟨toDigits_no_comma a, by decide, toDigits_no_comma b⟩

theorem parsePortTokens_token (t : PortToken) (ht : t.InRange) (toks : List (List Char))
    (ranges : List PortRange) :
    parsePortTokens (t.text :: toks) ranges = parsePortTokens toks (ranges ++ [t.toRange]) := by
  rw [parsePortTokens_cons, PortToken.text_trim, if_neg (PortToken.text_ne_nil t)]
  cases t with
  | single n =>
    simp only [PortToken.text, PortToken.toRange]
    rw [if_neg (toDigits_no_dash n), ParseUint32_toDigits n ht]
  | range a b =>
    simp only [PortToken.text, PortToken.toRange]
    rw [if_pos (List.mem_append_right _ (List.mem_cons_self _ _)),
      splitDash_append _ _ (toDigits_no_dash a)]
    simp only [TrimSpace_toDigits, ParseUint32_toDigits a ht.1, ParseUint32_toDigits b ht.2]

theorem parsePortTokens_tokens (ts : List PortToken) (h : ∀ t ∈ ts, t.InRange)
    (ranges : List PortRange) :
    parsePortTokens (ts.map PortToken.text) ranges = .ok (ranges ++ ts.map PortToken.toRange) := by
  induction ts generalizing ranges with
  | nil => simp [parsePortTokens]
  | cons t ts ih =>
    rw [List.map_cons, parsePortTokens_token t (h t (List.mem_cons_self _ _)),
      ih (fun x hx => h x (List.mem_cons_of_mem _ hx))]
    simp

theorem joinComma_ne_nil (ts : List (List Char)) (hne : ts ≠ []) (h : ∀ t ∈ ts, t ≠ []) :
    joinComma ts ≠ [] := by
  cases ts with
  | nil => exact absurd rfl hne
  | cons t ts =>
    cases ts with
    | nil => simpa [joinComma] using h t (List.mem_cons_self _ _)
    | cons t' ts' => simp [joinComma]

theorem parsePortString_mk (cs : List Char) (h : cs ≠ []) :
    parsePortString (String.mk cs) = parsePortTokens (splitComma cs) [] := by
  have : String.mk cs ≠ "" := by
    intro e
    exact h (congrArg String.data e)
  simp [parsePortString, this]

/-! ## Claims C13 and C14: port strings -/

/-- C13. For a non-empty list of well-formed tokens with values below 2^32,
`parsePortString` on their decimal texts joined by commas succeeds and returns
one range per token in the same order, `[n, n]` for an integer and `[a, b]`
for a range. -/
theorem parsePortString_well_formed (ts : List PortToken) (hne : ts ≠ [])
    (hr : ∀ t ∈ ts, t.InRange) :
    parsePortString (String.mk (joinComma (ts.map PortToken.text))) =
      .ok (ts.map PortToken.toRange) := by
  have hne' : ts.map PortToken.text ≠ [] := by simpa using hne
  rw [parsePortString_mk _ (joinComma_ne_nil _ hne' (by
      intro t ht
      obtain ⟨x, _, rfl⟩ := List.mem_map.1 ht
      exact PortToken.text_ne_nil x)),
    splitComma_joinComma _ hne' (by
      intro t ht
      obtain ⟨x, _, rfl⟩ := List.mem_map.1 ht
      exact PortToken.text_no_comma x),
    parsePortTokens_tokens ts hr]
  simp

/-- C13, witness: `53,443,1000-2000` yields `[53,53]`, `[443,443]`, `[1000,2000]`. -/
theorem parsePortString_well_formed_witness :
    parsePortString "53,443,1000-2000" = .ok [⟨53, 53⟩, ⟨443, 443⟩, ⟨1000, 2000⟩] :=
  parsePortString_well_formed [.single 53, .single 443, .range 1000 2000] (by decide)
    (by decide)

theorem wellFormedPortToken_shape (p : List Char) (h : wellFormedPortToken p) :
    (p ≠ [] ∧ ∀ c ∈ p, isDecimalDigit c) ∨ '-' ∈ p := by
  rcases h with h | ⟨a, b, rfl, _, _⟩
  · exact Or.inl ⟨h.1, h.2.1⟩
  · exact Or.inr (List.mem_append_right _ (List.mem_cons_self _ _))

/-- A token that the loop of `parsePortString` gets past is well formed. -/
theorem parsePortTokens_bad (toks : List (List Char)) (ranges : List PortRange)
    (h : ∃ tok ∈ toks, TrimSpace tok ≠ [] ∧ ¬ wellFormedPortToken (TrimSpace tok)) :
    ∃ e, parsePortTokens toks ranges = .error e := by
  induction toks generalizing ranges with
  | nil =>
    obtain ⟨tok, ht, _⟩ := h
    simp at ht
  | cons t toks ih =>
    have hrest : ∀ ranges', wellFormedPortToken (TrimSpace t) ∨ TrimSpace t = [] →
        ∃ e, parsePortTokens toks ranges' = .error e := by
      intro ranges' hw
      apply ih
      obtain ⟨tok, ht, hne, hbad⟩ := h
      rcases List.mem_cons.1 ht with rfl | ht'
      · rcases hw with hw | hw
        · exact absurd hw hbad
        · exact absurd hw hne
      · exact ⟨tok, ht', hne, hbad⟩
    rw [parsePortTokens_cons]
    by_cases h1 : TrimSpace t = []
    · rw [if_pos h1]
      exact hrest _ (Or.inr h1)
    · rw [if_neg h1]
      by_cases h2 : '-' ∈ TrimSpace t
      · rw [if_pos h2]
        cases ha : ParseUint32 (TrimSpace (splitDash (TrimSpace t)).1) with
        | none => exact ⟨_, rfl⟩
        | some fromPort =>
          cases hb : ParseUint32 (TrimSpace (splitDash (TrimSpace t)).2) with
          | none => exact ⟨_, rfl⟩
          | some toPort =>
            simp only
            apply hrest
            exact Or.inl (Or.inr ⟨_, _, (splitDash_spec _ h2).1,
              ((ParseUint32_eq_some _ _).1 ha).1, ((ParseUint32_eq_some _ _).1 hb).1⟩)
      · rw [if_neg h2]
        cases hp : ParseUint32 (TrimSpace t) with
        | none => exact ⟨_, rfl⟩
        | some port =>
          simp only
          apply hrest
          exact Or.inl (Or.inl ((ParseUint32_eq_some _ _).1 hp).1)

/-- C14, counterexample: the port string `53,,443`. Its second token is
empty, so it is neither an integer nor a range, but `parsePortString` skips it
and succeeds, and so does `RouterBuilder`'s rule list. -/
theorem parsePortString_skips_empty_token :
    splitComma "53,,443".toList = ["53".toList, [], "443".toList] ∧
    ¬ wellFormedPortToken [] ∧
    parsePortString "53,,443" = .ok [⟨53, 53⟩, ⟨443, 443⟩] ∧
    blockingRuleList
        { plainNode "vless" with BlockingRules := ⟨"53,,443", none, none, none⟩ } "vless_443_7" =
      .ok [{ RuleType := "field", RuleTag := "vless_443_7_blackhole"
             InboundTag := ["vless_443_7"], OutboundTag := "vless_443_7_blackhole"
             User := none, Domain := none, IP := none
             Port := some [⟨53, 53⟩, ⟨443, 443⟩], Protocols := none }] :=
  ⟨by decide,
   fun h => by
    rcases wellFormedPortToken_shape [] h with h | h
    · exact h.1 rfl
    · simp at h,
   rfl, rfl⟩

/-- C14, amended. If some comma-separated token of a port string is, after
trimming white space, not empty and neither an unsigned decimal integer below
2^32 nor two such integers (each trimmed) with `-` between them, then
`parsePortString` returns an error, and so does the rule list of
`RouterBuilder` for every descriptor with that port string. Empty and blank
tokens are skipped. -/
theorem parsePortString_malformed_is_error (s : String) (tok : List Char)
    (htok : tok ∈ splitComma s.toList) (hne : TrimSpace tok ≠ [])
    (hbad : ¬ wellFormedPortToken (TrimSpace tok)) :
    (∃ e, parsePortString s = .error e) ∧
    (∀ (n : NodeInfo) (tag : String), n.BlockingRules.Port = s →
      ∃ e, blockingRuleList n tag = .error e) ∧
    (∀ (toks : List (List Char)) (ranges : List PortRange) (blank : List Char),
      TrimSpace blank = [] →
      parsePortTokens (blank :: toks) ranges = parsePortTokens toks ranges) := by
  have hs : s ≠ "" := by
    intro e
    subst e
    have : tok = [] := by simpa [splitComma] using htok
    subst this
    exact hne rfl
  have hs0 : s ≠ "0" := by
    intro e
    subst e
    have : tok = ['0'] := by
      have h' : tok ∈ [['0']] := htok
      simpa using h'
    subst this
    exact hbad (Or.inl (by decide))
  have hparse : ∃ e, parsePortString s = .error e := by
    unfold parsePortString
    rw [if_neg hs]
    exact parsePortTokens_bad _ _ ⟨tok, htok, hne, hbad⟩
  refine ⟨hparse, ?_, ?_⟩
  · intro n tag hp
    obtain ⟨e, he⟩ := hparse
    have hb : hasBlockingRules n.BlockingRules = true := by
      simp [hasBlockingRules, hp, hs, hs0]
    refine ⟨"failed to parse port string: " ++ e, ?_⟩
    simp [blockingRuleList, hb, hp, hs, hs0, he]
  · intro toks ranges blank hb
    rw [parsePortTokens_cons, if_pos hb]

/-- C14, amended, witness: `abc` is rejected. -/
theorem parsePortString_malformed_is_error_witness :
    ∃ e, parsePortString "abc" = .error e :=
  (parsePortString_malformed_is_error "abc" "abc".toList (by decide) (by decide)
    (fun h => by
      rcases wellFormedPortToken_shape _ h with h | h
      · exact absurd h.2 (by decide)
      · exact absurd h (by decide))).1

/-! ## Claims C26 and C27: the default route and the blocking rule -/

/-- C27. The descriptor `blankPortNode` declares no blocking port (its port
string is one blank, which `parsePortString` reads as no port range) and no
blocking domain, ip or protocol. `RouterBuilder` sets `hasBlockingRules` all
the same, because the port string is neither `""` nor `"0"`, and marshals a
rule that names no port, domain, ip or protocol: its only condition is the
inbound tag, its outbound the blackhole. `AddRuleTag` hands that rule to the
router. The same for the port string `","`. For the empty port string
`RouterBuilder` marshals no rule. -/
theorem RouterBuilder_blank_ports_rule_without_condition :
    parsePortString " " = .ok [] ∧
    hasBlockingRules blankPortNode.BlockingRules = true ∧
    blockingRuleList blankPortNode "vless_443_7" =
      .ok [{ RuleType := "field", RuleTag := "vless_443_7_blackhole"
             InboundTag := ["vless_443_7"], OutboundTag := "vless_443_7_blackhole"
             User := none, Domain := none, IP := none, Port := none, Protocols := none }] ∧
    AddRuleTag quietEnv blankPortNode "vless_443_7" [] =
      (none, [.AddOutbound (.blackhole "vless_443_7"),
        .AddRule [{ RuleType := "field", RuleTag := "vless_443_7_blackhole"
                    InboundTag := ["vless_443_7"], OutboundTag := "vless_443_7_blackhole"
                    User := none, Domain := none, IP := none, Port := none
                    Protocols := none }]]) ∧
    parsePortString "," = .ok [] ∧
    blockingRuleList commaPortNode "vless_443_7" =
      blockingRuleList blankPortNode "vless_443_7" ∧
    blockingRuleList (plainNode "vless") "vless_443_7" = .ok [] := by
  refine ⟨rfl, by decide, rfl, by decide, rfl, rfl, rfl⟩

/-- C26. The descriptor with relay type 2 and relay node 5 is not
relay-requesting for the controller (its test is `RelayType == 1` and
`RelayNodeID > 0`), and `AddTag` installs no default rule for it (its test is
`RelayType == 0` or `RelayNodeID == 0`): after a `Start` in which nothing
fails the node has its inbound and outbound, no default route and no relay
topology. The two tests do agree on every descriptor whose relay type is 0 or
1 and whose relay node id is not negative. -/
theorem AddTag_relay_type_two_no_default_route :
    requestsRelay relayType2Node = false ∧
    (AddTag quietEnv relayType2Node "vless_443_7" []) =
      (none, [.AddInbound "vless_443_7" relayType2Node,
        .AddOutbound (.main "vless_443_7" relayType2Node)]) ∧
    (Start (startEnv relayType2Node [subscriber 1]) "panel" (fun _ => none) newSys).1.ret =
      .returned none ∧
    (Start (startEnv relayType2Node [subscriber 1]) "panel" (fun _ => none) newSys).2.c.Relay =
      false ∧
    (Start (startEnv relayType2Node [subscriber 1]) "panel" (fun _ => none) newSys).2.trace =
      [.AddOutbound (.blackhole "vless_443_7"), .AddRule [],
        .AddInbound "vless_443_7" relayType2Node,
        .AddOutbound (.main "vless_443_7" relayType2Node),
        .GetHandler "vless_443_7",
        .AddUser "vless_443_7" ⟨"vless_443_7|user|1", .vless "secret" "xtls-rprx-vision"⟩,
        .AddInboundLimiter "vless_443_7" 5000 [subscriber 1]] ∧
    (∀ nodeInfo : NodeInfo, (nodeInfo.RelayType = 0 ∨ nodeInfo.RelayType = 1) →
      0 ≤ nodeInfo.RelayNodeID →
      ((nodeInfo.RelayType = 0 ∨ nodeInfo.RelayNodeID = 0) ↔ requestsRelay nodeInfo = false)) := by
  refine ⟨by decide, by decide, by decide, by decide, by decide, ?_⟩
  intro nodeInfo hty hid
  simp only [requestsRelay, Bool.and_eq_false_iff, decide_eq_false_iff_not, not_lt]
  omega

/-! ## Claims C25 and C30: building and tearing down the relay topology -/

theorem AddRelayTagLoop_issues (env : Env) (relay : RelayNodeInfo) (relayTag mainTag : String)
    (subs : List SubscriptionInfo) (tr : List Call) :
    ∃ calls, (AddRelayTagLoop env relay relayTag mainTag subs tr).2 = tr ++ calls ∧
      ∀ c ∈ calls, IsRelayAdd relay relayTag mainTag subs c := by
  induction subs generalizing tr with
  | nil => exact ⟨[], by simp [AddRelayTagLoop, pure], by simp⟩
  | cons u subs ih =>
    have hmono : ∀ c, IsRelayAdd relay relayTag mainTag subs c →
        IsRelayAdd relay relayTag mainTag (u :: subs) c := by
      rintro c ⟨v, hv, h⟩
      exact ⟨v, List.mem_cons_of_mem _ hv, h⟩
    have hout : ∀ key, IsRelayAdd relay relayTag mainTag (u :: subs)
        (.AddOutbound (.relay relayTag relay u key)) :=
      fun key => ⟨u, List.mem_cons_self _ _, Or.inl ⟨key, rfl⟩⟩
    have hrule : IsRelayAdd relay relayTag mainTag (u :: subs)
        (.AddRule [relayRule mainTag relayTag u]) :=
      ⟨u, List.mem_cons_self _ _, Or.inr rfl⟩
    have step : ∀ key, ∃ calls,
        ((match env.OutboundRelayBuilder relay relayTag u key with
          | some e => fun s =>
            (some ("failed to build relay outbound for Id " ++ fmtInt u.Id ++ ": " ++ e), s)
          | _ => fun s =>
            (match env.dataPlane s (Call.AddOutbound (.relay relayTag relay u key)) with
              | some e => fun s =>
                (some ("failed to add relay outbound for UID " ++ fmtInt u.Id ++ ": " ++ e), s)
              | _ => fun s =>
                (match env.routerBuild [relayRule mainTag relayTag u] with
                  | some e => fun s =>
                    (some ("failed to build router for UID " ++ fmtInt u.Id ++ ": " ++ e), s)
                  | _ => fun s =>
                    (match env.dataPlane s (Call.AddRule [relayRule mainTag relayTag u]) with
                      | some e => fun s =>
                        (some ("failed to add router rule for UID " ++ fmtInt u.Id ++ ": " ++ e), s)
                      | _ => fun s => AddRelayTagLoop env relay relayTag mainTag subs s)
                      (s ++ [Call.AddRule [relayRule mainTag relayTag u]]))
                  s)
              (s ++ [Call.AddOutbound (.relay relayTag relay u key)]))
          tr : Err × List Call).2 = tr ++ calls ∧
        ∀ c ∈ calls, IsRelayAdd relay relayTag mainTag (u :: subs) c := by
      intro key
      cases h1 : env.OutboundRelayBuilder relay relayTag u key with
      | some e => exact ⟨[], by simp, by simp⟩
      | none =>
        cases h2 : env.dataPlane tr (Call.AddOutbound (.relay relayTag relay u key)) with
        | some e => exact ⟨[Call.AddOutbound (.relay relayTag relay u key)], by simp only [h2],
            by simpa using hout key⟩
        | none =>
          cases h3 : env.routerBuild [relayRule mainTag relayTag u] with
          | some e => exact ⟨[Call.AddOutbound (.relay relayTag relay u key)], by simp only [h2, h3],
              by simpa using hout key⟩
          | none =>
            cases h4 : env.dataPlane (tr ++ [Call.AddOutbound (.relay relayTag relay u key)])
                (Call.AddRule [relayRule mainTag relayTag u]) with
            | some e =>
              refine ⟨[Call.AddOutbound (.relay relayTag relay u key),
                Call.AddRule [relayRule mainTag relayTag u]],
                by simp only [h2, h3, h4, List.append_assoc]; rfl, ?_⟩
              intro c hcm
              simp only [List.mem_cons, List.mem_singleton, List.not_mem_nil, or_false] at hcm
              rcases hcm with rfl | rfl
              · exact hout key
              · exact hrule
            | none =>
              obtain ⟨calls, g1, g2⟩ := ih (tr ++ [Call.AddOutbound (.relay relayTag relay u key)] ++
                [Call.AddRule [relayRule mainTag relayTag u]])
              refine ⟨Call.AddOutbound (.relay relayTag relay u key) ::
                Call.AddRule [relayRule mainTag relayTag u] :: calls,
                by simp only [h2, h3, h4]; rw [g1]; simp, ?_⟩
              intro c hcm
              simp only [List.mem_cons] at hcm
              rcases hcm with rfl | rfl | hcm
              · exact hout key
              · exact hrule
              · exact hmono c (g2 c hcm)
    unfold AddRelayTagLoop
    by_cases hc : ToLower relay.Cipher ∈ shadowaead2022List
    · cases hk : checkShadowsocksPassword u.Passwd relay.Cipher with
      | error e =>
        obtain ⟨calls, h1, h2⟩ := ih tr
        refine ⟨calls, ?_, fun c hcm => hmono c (h2 c hcm)⟩
        simpa [hc, hk, bind, pure] using h1
      | ok k =>
        simpa [hc, hk, bind, pure, addOutbound, addRouterRule, call] using
          step (relay.ServerKey ++ ":" ++ k)
    · simpa [hc, bind, pure, addOutbound, addRouterRule, call] using step u.Passwd

theorem AddRelayTag_issues (env : Env) (relay : RelayNodeInfo) (relayTag mainTag : String)
    (subs : List SubscriptionInfo) (tr : List Call) :
    ∃ calls, (AddRelayTag env relay relayTag mainTag subs tr).2 = tr ++ calls ∧
      ∀ c ∈ calls, IsRelayAdd relay relayTag mainTag subs c := by
  unfold AddRelayTag
  by_cases hp : relay.NodeType = "Shadowsocks-Plugin"
  · exact ⟨[], by simp [hp, bind, pure], by simp⟩
  · simpa [hp, bind, pure] using AddRelayTagLoop_issues env relay relayTag mainTag subs tr

theorem issuedBy_eq {α : Type} (x : DP α) (tr calls : List Call) (h : (x tr).2 = tr ++ calls) :
    issuedBy x tr = calls := by
  simp [issuedBy, h]

theorem requiredSecretLength_of_2022 (cipher : String)
    (hc : ToLower cipher ∈ shadowaead2022List) :
    (ToLower cipher = "2022-blake3-aes-128-gcm" ∧ requiredSecretLength cipher = 16) ∨
    ((ToLower cipher = "2022-blake3-aes-256-gcm" ∨
        ToLower cipher = "2022-blake3-chacha20-poly1305") ∧ requiredSecretLength cipher = 32) := by
  simp only [shadowaead2022List, List.mem_cons, List.mem_singleton, List.not_mem_nil,
    or_false] at hc
  rcases hc with h | h | h
  · exact Or.inl ⟨h, by simp [requiredSecretLength, h]⟩
  · exact Or.inr ⟨Or.inl h, by rw [requiredSecretLength, h]; decide⟩
  · exact Or.inr ⟨Or.inr h, by rw [requiredSecretLength, h]; decide⟩

theorem relayKey_2022 (relay : RelayNodeInfo) (u : SubscriptionInfo)
    (hc : ToLower relay.Cipher ∈ shadowaead2022List) :
    relayKey relay u =
      if requiredSecretLength relay.Cipher ≤ (utf8Bytes u.Passwd).length then
        some (derivedKey relay u)
      else none := by
  rcases requiredSecretLength_of_2022 relay.Cipher hc with ⟨h, hl⟩ | ⟨h, hl⟩
  · by_cases h16 : (utf8Bytes u.Passwd).length < 16
    · have hn : ¬ 16 ≤ (utf8Bytes u.Passwd).length := by omega
      simp [relayKey, hc, checkShadowsocksPassword_128 _ _ h, hl, h16, hn]
    · simp [relayKey, hc, checkShadowsocksPassword_128 _ _ h, hl, h16, derivedKey,
        Nat.not_lt.1 h16]
  · by_cases h32 : (utf8Bytes u.Passwd).length < 32
    · have hn : ¬ 32 ≤ (utf8Bytes u.Passwd).length := by omega
      by_cases h16 : (utf8Bytes u.Passwd).length < 16 <;>
        simp [relayKey, hc, checkShadowsocksPassword_256 _ _ h, hl, h16, h32, hn]
    · have h16 : ¬ (utf8Bytes u.Passwd).length < 16 := by omega
      simp [relayKey, hc, checkShadowsocksPassword_256 _ _ h, hl, h16, h32, derivedKey,
        Nat.not_lt.1 h32]

theorem relayBuildCalls_2022 (relay : RelayNodeInfo) (relayTag mainTag : String)
    (hc : ToLower relay.Cipher ∈ shadowaead2022List) (subs : List SubscriptionInfo) :
    relayBuildCalls relay relayTag mainTag subs =
      (eligibleSubscribers relay subs).flatMap fun u =>
        [Call.AddOutbound (.relay relayTag relay u (derivedKey relay u)),
          Call.AddRule [relayRule mainTag relayTag u]] := by
  induction subs with
  | nil => simp [relayBuildCalls, eligibleSubscribers]
  | cons u subs ih =>
    rw [relayBuildCalls_cons, ih, relayKey_2022 relay u hc]
    by_cases hl : requiredSecretLength relay.Cipher ≤ (utf8Bytes u.Passwd).length
    · simp [eligibleSubscribers, hl]
    · simp [eligibleSubscribers, hl]

/-- C25, counterexample. A relay descriptor of the plugin-only kind with a
2022-family cipher: every live apply succeeds, yet `AddRelayTag` returns an
error and adds nothing, also for a subscriber whose secret is long enough. And
when the builder of relay outbounds fails, `AddRelayTag` returns its error. -/
theorem AddRelayTag_plugin_relay_is_error :
    ToLower pluginRelay.Cipher ∈ shadowaead2022List ∧
    AddRelayTag quietEnv pluginRelay "Relay_x_1_3" "vless_443_7" [subscriber20] [] =
      (some "Rely outbound server with type Shadowsocks-Plugin is not supportted", []) ∧
    AddRelayTag relayBuilderErrorEnv relay128 "Relay_x_1_3" "vless_443_7" [subscriber20] [] =
      (some "failed to build relay outbound for Id 5: unknown relay protocol", []) := by
  refine ⟨by decide, by decide, by decide⟩

/-- C25, amended. For every relay descriptor with a 2022-family cipher that
is not of the plugin-only kind, and every subscriber list, assuming the live
applies and the spec builders succeed, `AddRelayTag` returns success and adds
a relay outbound and a relay rule, both named `relayTag_id`, for exactly those
subscribers whose secret meets the length requirement of the cipher, in list
order, with the derived key; a subscriber whose secret is too short is
skipped and the later ones are still applied. -/
theorem AddRelayTag_2022_applies_eligible {env : Env} (hdp : env.DataPlaneOK)
    (hb : env.BuildersOK) (relay : RelayNodeInfo)
    (hc : ToLower relay.Cipher ∈ shadowaead2022List)
    (hnp : relay.NodeType ≠ "Shadowsocks-Plugin") (relayTag mainTag : String)
    (subs : List SubscriptionInfo) (tr : List Call) :
    AddRelayTag env relay relayTag mainTag subs tr =
      (none, tr ++ (eligibleSubscribers relay subs).flatMap fun u =>
        [Call.AddOutbound (.relay relayTag relay u (derivedKey relay u)),
          Call.AddRule [relayRule mainTag relayTag u]]) ∧
    (∀ u key, (OutboundSpec.relay relayTag relay u key).tag = relayTag ++ "_" ++ fmtInt u.Id) ∧
    (∀ u, (relayRule mainTag relayTag u).RuleTag = relayTag ++ "_" ++ fmtInt u.Id ∧
      (relayRule mainTag relayTag u).OutboundTag = relayTag ++ "_" ++ fmtInt u.Id) := by
  refine ⟨?_, fun _ _ => rfl, fun _ => ⟨rfl, rfl⟩⟩
  rw [AddRelayTag_ok hdp hb relay hnp, relayBuildCalls_2022 relay relayTag mainTag hc]

/-- C25, witness: of a subscriber with a secret of 6 bytes followed by one
with a secret of 20 bytes, the first is skipped and the second is applied. -/
theorem AddRelayTag_2022_applies_eligible_witness :
    AddRelayTag quietEnv relay128 "Relay_x_1_3" "vless_443_7" [subscriber6, subscriber20] [] =
      (none, [Call.AddOutbound (.relay "Relay_x_1_3" relay128 subscriber20
          "serverKey:MDEyMzQ1Njc4OWFiY2RlZg=="),
        Call.AddRule [relayRule "vless_443_7" "Relay_x_1_3" subscriber20]]) :=
  (AddRelayTag_2022_applies_eligible (fun _ _ => rfl)
    ⟨fun _ _ => rfl, fun _ _ => rfl, fun _ _ _ _ => rfl, fun _ => rfl, fun _ => rfl,
      fun _ => rfl⟩ relay128 (by decide) (by decide) "Relay_x_1_3" "vless_443_7"
    [subscriber6, subscriber20] []).1

/-! ### C30 -/

theorem RemoveRelayRules_removals {env : Env} (h : env.RemovalsOK) (tag : String)
    (subs : List SubscriptionInfo) (tr : List Call) :
    RemoveRelayRules env tag subs tr =
      (none, tr ++ subs.map fun u => Call.RemoveRule (tag ++ "_" ++ fmtInt u.Id)) := by
  induction subs generalizing tr with
  | nil => simp [RemoveRelayRules, pure]
  | cons u subs ih =>
    simp [RemoveRelayRules, removeRouterRule, bind, pure, call, (h _ _).2, ih]

theorem RemoveRelayTag_removals {env : Env} (h : env.RemovalsOK) (tag : String)
    (subs : List SubscriptionInfo) (tr : List Call) :
    RemoveRelayTag env tag subs tr =
      (none, tr ++ subs.map fun u => Call.RemoveOutbound (tag ++ "_" ++ fmtInt u.Id)) := by
  induction subs generalizing tr with
  | nil => simp [RemoveRelayTag, pure]
  | cons u subs ih =>
    simp [RemoveRelayTag, removeOutbound, bind, pure, call, (h _ _).1, ih]

theorem outboundTagsAdded_relay (relay : RelayNodeInfo) (relayTag mainTag : String)
    (subs : List SubscriptionInfo) (calls : List Call)
    (h : ∀ c ∈ calls, IsRelayAdd relay relayTag mainTag subs c) (t : String)
    (ht : t ∈ outboundTagsAdded calls) : ∃ u ∈ subs, t = relayTag ++ "_" ++ fmtInt u.Id := by
  simp only [outboundTagsAdded, List.mem_filterMap] at ht
  obtain ⟨c, hc, hct⟩ := ht
  obtain ⟨u, hu, ⟨key, rfl⟩ | rfl⟩ := h c hc
  · simp only [Option.some.injEq] at hct
    exact ⟨u, hu, hct.symm⟩
  · simp at hct

theorem ruleTagsAdded_relay (relay : RelayNodeInfo) (relayTag mainTag : String)
    (subs : List SubscriptionInfo) (calls : List Call)
    (h : ∀ c ∈ calls, IsRelayAdd relay relayTag mainTag subs c) (t : String)
    (ht : t ∈ ruleTagsAdded calls) : ∃ u ∈ subs, t = relayTag ++ "_" ++ fmtInt u.Id := by
  simp only [ruleTagsAdded, List.mem_flatMap] at ht
  obtain ⟨c, hc, hct⟩ := ht
  obtain ⟨u, hu, ⟨key, rfl⟩ | rfl⟩ := h c hc
  · simp at hct
  · simp only [List.map_cons, List.map_nil, List.mem_singleton] at hct
    exact ⟨u, hu, hct⟩

theorem Plane.after_append (p : Plane) (l1 l2 : List Call) :
    p.after (l1 ++ l2) = (p.after l1).after l2 := by
  simp [Plane.after, List.foldl_append]

theorem Plane.after_removeRules (p : Plane) (tags : List String) (t : String) :
    (t ∈ (p.after (tags.map Call.RemoveRule)).rules ↔ t ∈ p.rules ∧ t ∉ tags) ∧
    (p.after (tags.map Call.RemoveRule)).outbounds = p.outbounds := by
  induction tags generalizing p with
  | nil => simp [Plane.after]
  | cons t' tags ih =>
    have h := ih (p.apply (.RemoveRule t'))
    simp only [Plane.after, List.map_cons, List.foldl_cons] at h ⊢
    rw [h.1, h.2]
    simp only [Plane.apply, List.mem_filter, List.mem_cons, not_or, decide_eq_true_eq, ne_eq]
    tauto

theorem Plane.after_removeOutbounds (p : Plane) (tags : List String) (t : String) :
    (t ∈ (p.after (tags.map Call.RemoveOutbound)).outbounds ↔ t ∈ p.outbounds ∧ t ∉ tags) ∧
    (p.after (tags.map Call.RemoveOutbound)).rules = p.rules := by
  induction tags generalizing p with
  | nil => simp [Plane.after]
  | cons t' tags ih =>
    have h := ih (p.apply (.RemoveOutbound t'))
    simp only [Plane.after, List.map_cons, List.foldl_cons] at h ⊢
    rw [h.1, h.2]
    simp only [Plane.apply, List.mem_filter, List.mem_cons, not_or, decide_eq_true_eq, ne_eq]
    tauto

theorem outboundTagsRemoved_map (f : SubscriptionInfo → String) (subs : List SubscriptionInfo) :
    outboundTagsRemoved (subs.map fun u => Call.RemoveOutbound (f u)) = subs.map f := by
  induction subs with
  | nil => rfl
  | cons u subs ih =>
    simp only [outboundTagsRemoved, List.map_cons, List.filterMap_cons] at ih ⊢
    rw [ih]

theorem ruleTagsRemoved_map (f : SubscriptionInfo → String) (subs : List SubscriptionInfo) :
    ruleTagsRemoved (subs.map fun u => Call.RemoveRule (f u)) = subs.map f := by
  induction subs with
  | nil => rfl
  | cons u subs ih =>
    simp only [ruleTagsRemoved, List.map_cons, List.filterMap_cons] at ih ⊢
    rw [ih]

/-- C30. For every relay descriptor, relay tag, main tag and subscriber list,
whatever fails while building: every outbound tag that `AddRelayTag` adds is
among the outbound tags `RemoveRelayTag` asks to remove for the same relay tag
and list, and every rule tag it adds is among the rule tags `RemoveRelayRules`
asks to remove, provided no removal call fails; and after building and then
tearing down with the same tag and list, none of the added outbound tags and
rule tags is registered any more, whatever was registered before. -/
theorem relay_teardown_covers_build {env : Env} (hrm : env.RemovalsOK) (relay : RelayNodeInfo)
    (relayTag mainTag : String) (subs : List SubscriptionInfo) (tr tr2 tr3 : List Call) :
    (∀ t ∈ outboundTagsAdded (issuedBy (AddRelayTag env relay relayTag mainTag subs) tr),
      t ∈ outboundTagsRemoved (issuedBy (RemoveRelayTag env relayTag subs) tr2)) ∧
    (∀ t ∈ ruleTagsAdded (issuedBy (AddRelayTag env relay relayTag mainTag subs) tr),
      t ∈ ruleTagsRemoved (issuedBy (RemoveRelayRules env relayTag subs) tr3)) ∧
    (∀ p : Plane,
      (∀ t ∈ outboundTagsAdded (issuedBy (AddRelayTag env relay relayTag mainTag subs) tr),
        t ∉ (p.after (issuedBy (do
          let _ ← AddRelayTag env relay relayTag mainTag subs
          let _ ← RemoveRelayRules env relayTag subs
          RemoveRelayTag env relayTag subs) tr)).outbounds) ∧
      (∀ t ∈ ruleTagsAdded (issuedBy (AddRelayTag env relay relayTag mainTag subs) tr),
        t ∉ (p.after (issuedBy (do
          let _ ← AddRelayTag env relay relayTag mainTag subs
          let _ ← RemoveRelayRules env relayTag subs
          RemoveRelayTag env relayTag subs) tr)).rules)) := by
  obtain ⟨b, hb1, hb2⟩ := AddRelayTag_issues env relay relayTag mainTag subs tr
  have hbuild := issuedBy_eq _ tr b hb1
  have hro : issuedBy (RemoveRelayTag env relayTag subs) tr2 =
      subs.map fun u => Call.RemoveOutbound (relayTag ++ "_" ++ fmtInt u.Id) :=
    issuedBy_eq _ tr2 _ (by rw [RemoveRelayTag_removals hrm])
  have hrr : issuedBy (RemoveRelayRules env relayTag subs) tr3 =
      subs.map fun u => Call.RemoveRule (relayTag ++ "_" ++ fmtInt u.Id) :=
    issuedBy_eq _ tr3 _ (by rw [RemoveRelayRules_removals hrm])
  have hall : issuedBy (do
      let _ ← AddRelayTag env relay relayTag mainTag subs
      let _ ← RemoveRelayRules env relayTag subs
      RemoveRelayTag env relayTag subs) tr =
      b ++ (subs.map fun u => relayTag ++ "_" ++ fmtInt u.Id).map Call.RemoveRule ++
        (subs.map fun u => relayTag ++ "_" ++ fmtInt u.Id).map Call.RemoveOutbound := by
    apply issuedBy_eq
    simp only [bind, hb1, RemoveRelayRules_removals hrm, RemoveRelayTag_removals hrm,
      List.map_map, List.append_assoc]
    rfl
  rw [hbuild, hro, hrr, hall, outboundTagsRemoved_map, ruleTagsRemoved_map]
  have hout := outboundTagsAdded_relay relay relayTag mainTag subs b hb2
  have hrule := ruleTagsAdded_relay relay relayTag mainTag subs b hb2
  refine ⟨?_, ?_, ?_⟩
  · intro t ht
    obtain ⟨u, hu, rfl⟩ := hout t ht
    exact List.mem_map.2 ⟨u, hu, rfl⟩
  · intro t ht
    obtain ⟨u, hu, rfl⟩ := hrule t ht
    exact List.mem_map.2 ⟨u, hu, rfl⟩
  · intro p
    refine ⟨?_, ?_⟩
    · intro t ht hmem
      obtain ⟨u, hu, rfl⟩ := hout t ht
      rw [Plane.after_append, (Plane.after_removeOutbounds _ _ _).1] at hmem
      exact hmem.2 (List.mem_map.2 ⟨u, hu, rfl⟩)
    · intro t ht hmem
      obtain ⟨u, hu, rfl⟩ := hrule t ht
      rw [Plane.after_append, (Plane.after_removeOutbounds _ _ "").2, Plane.after_append,
        (Plane.after_removeRules _ _ _).1] at hmem
      exact hmem.2 (List.mem_map.2 ⟨u, hu, rfl⟩)

/-- C30, witness: the relay `relay128` built and torn down for one subscriber. -/
theorem relay_teardown_covers_build_witness :
    (∀ t ∈ outboundTagsAdded
        (issuedBy (AddRelayTag quietEnv relay128 "Relay_x_1_3" "vless_443_7" [subscriber20]) []),
      t ∈ outboundTagsRemoved
        (issuedBy (RemoveRelayTag quietEnv "Relay_x_1_3" [subscriber20]) [])) ∧
    (∀ t ∈ ruleTagsAdded
        (issuedBy (AddRelayTag quietEnv relay128 "Relay_x_1_3" "vless_443_7" [subscriber20]) []),
      t ∈ ruleTagsRemoved
        (issuedBy (RemoveRelayRules quietEnv "Relay_x_1_3" [subscriber20]) [])) :=
  ⟨(relay_teardown_covers_build (fun _ _ => ⟨rfl, rfl⟩) relay128 "Relay_x_1_3" "vless_443_7"
      [subscriber20] [] [] []).1,
    (relay_teardown_covers_build (fun _ _ => ⟨rfl, rfl⟩) relay128 "Relay_x_1_3" "vless_443_7"
      [subscriber20] [] [] []).2.1⟩

/-! ## Claim C28: every branch of a tick in which nothing fails -/

theorem provision_replaced_any {env : Env} (h : env.DataPlaneOK) (hb : env.BuildersOK)
    (f : Fetched) (s : Sys) (ht : s.c.Tag = buildNodeTag f.newNodeInfo)
    (hu : f.newSubscriptionInfo = [] ∨
      ∃ users, buildUsers f.newSubscriptionInfo f.newNodeInfo (buildNodeTag f.newNodeInfo) =
        some users) :
    provision env f true s =
      (.next (), ⟨s.c, s.trace ++ provisionCalls f.newSubscriptionInfo f.newNodeInfo⟩) := by
  rcases hu with hu | ⟨users, hu⟩
  · have hcalls : provisionCalls f.newSubscriptionInfo f.newNodeInfo =
        [.AddInboundLimiter (buildNodeTag f.newNodeInfo) f.newNodeInfo.SpeedLimit
          f.newSubscriptionInfo] := by
      unfold provisionCalls
      cases hbu : buildUsers f.newSubscriptionInfo f.newNodeInfo (buildNodeTag f.newNodeInfo) with
      | none => simp
      | some users =>
        have : users = [] := by
          rw [hu] at hbu
          unfold buildUsers at hbu
          split_ifs at hbu <;> simp at hbu <;> exact hbu
        simp [this, addUsersCalls]
    rw [hcalls]
    simp [provision, bind, pure, self, live, AddNewSubscription, hu, AddInboundLimiter,
      call_ok h, ht]
  · rw [← ht] at hu
    rw [provision_replaced h hb f s users hu]
    simp [provisionCalls, ← ht, hu]

theorem tick_quiet (env : Env) (s : Sys) (f : Fetched) (hf : fetchBoth env s.c = some f)
    (hsc : f.subscriptionChanged = false) (hc : f.nodeInfoChanged = false) :
    nodeInfoMonitor env s =
      (.returned none, ⟨{ s.c with subscriptionList := f.newSubscriptionInfo }, s.trace⟩) := by
  have h1 : relayTeardown env false s = (.next (), s) := by
    simp [relayTeardown, bind, pure, self]
  have h2 := relayBuild_skip env f false s (by simp)
  have h3 := replaceNode_same env f s (Or.inl hc)
  have h4 := provision_clean env f s hsc
  simp only [nodeInfoMonitor, bind, pure, self, assign, hf, hsc, hc, Bool.or_self, h1, h2, h3,
    h4]

theorem tick_relay_only {env : Env} (h : env.DataPlaneOK) (hb : env.BuildersOK) (s : Sys)
    (f : Fetched) (hf : fetchBoth env s.c = some f) (hsc : f.subscriptionChanged = false)
    (hc : f.nodeInfoChanged = true) (hsame : s.c.nodeInfo = f.newNodeInfo)
    (hrel : env.RelayOK f.newNodeInfo) :
    nodeInfoMonitor env s =
      (.returned none,
        ⟨{ relayController env f.newNodeInfo s.c with subscriptionList := f.newSubscriptionInfo },
          s.trace ++ relayCalls env f.newNodeInfo f.newSubscriptionInfo s.c⟩) := by
  obtain ⟨hn, ht, hl⟩ := relayController_nodeInfo env f.newNodeInfo s.c
  have h1 : (relayTeardown env true s).1 = .next () := by rw [relayTeardown_ok h]
  have h2 := relay_blocks_ok h hb f s hrel
  have h3 := replaceNode_same env f
    ⟨relayController env f.newNodeInfo s.c,
      s.trace ++ relayCalls env f.newNodeInfo f.newSubscriptionInfo s.c⟩
    (Or.inr (by simpa [hn] using hsame))
  have h4 := provision_clean env f
    ⟨relayController env f.newNodeInfo s.c,
      s.trace ++ relayCalls env f.newNodeInfo f.newSubscriptionInfo s.c⟩ hsc
  simp only [nodeInfoMonitor, bind, pure, self, assign, hf, hc, Bool.or_true, h1, h2, h3, h4]

theorem tick_replace_any {env : Env} (h : env.DataPlaneOK) (hb : env.BuildersOK) (s : Sys)
    (f : Fetched) (hf : fetchBoth env s.c = some f) (hc : f.nodeInfoChanged = true)
    (hne : s.c.nodeInfo ≠ f.newNodeInfo) (hrel : env.RelayOK f.newNodeInfo)
    (hnp : f.newNodeInfo.NodeType ≠ "Shadowsocks-Plugin") (rules : List Rule)
    (hr : blockingRuleList f.newNodeInfo (buildNodeTag f.newNodeInfo) = .ok rules)
    (hu : f.newSubscriptionInfo = [] ∨
      ∃ users, buildUsers f.newSubscriptionInfo f.newNodeInfo (buildNodeTag f.newNodeInfo) =
        some users) :
    nodeInfoMonitor env s =
      (.returned none,
        ⟨{ relayController env f.newNodeInfo s.c with
            nodeInfo := f.newNodeInfo
            Tag := buildNodeTag f.newNodeInfo
            subscriptionList := f.newSubscriptionInfo },
          s.trace ++ relayCalls env f.newNodeInfo f.newSubscriptionInfo s.c ++
            replaceCalls s.c.Tag s.c.nodeInfo.NodeType f.newNodeInfo rules ++
            provisionCalls f.newSubscriptionInfo f.newNodeInfo⟩) := by
  obtain ⟨hn, ht, hl⟩ := relayController_nodeInfo env f.newNodeInfo s.c
  have h1 : (relayTeardown env true s).1 = .next () := by rw [relayTeardown_ok h]
  have h2 := relay_blocks_ok h hb f s hrel
  have h3 := replaceNode_ok h hb f
    ⟨relayController env f.newNodeInfo s.c,
      s.trace ++ relayCalls env f.newNodeInfo f.newSubscriptionInfo s.c⟩ hc
    (by simpa [hn] using hne) hnp rules hr
  simp only [hn, ht] at h3
  have h4 := provision_replaced_any h hb f
    ⟨{ relayController env f.newNodeInfo s.c with
        nodeInfo := f.newNodeInfo, Tag := buildNodeTag f.newNodeInfo },
      s.trace ++ relayCalls env f.newNodeInfo f.newSubscriptionInfo s.c ++
        replaceCalls s.c.Tag s.c.nodeInfo.NodeType f.newNodeInfo rules⟩ rfl hu
  simp only [nodeInfoMonitor, bind, pure, self, assign, hf, hc, Bool.or_true, h1, h2, h3, h4]

/-- The state after any tick in which nothing fails: the result, the retained
snapshot and the calls issued, by branch. -/
theorem tick_nothing_fails {env : Env} (s : Sys) (f : Fetched)
    (hf : fetchBoth env s.c = some f) (hok : env.NothingFails s.c f) :
    (nodeInfoMonitor env s).1 = .returned none ∧
    (nodeInfoMonitor env s).2.c.subscriptionList = f.newSubscriptionInfo ∧
    ((f.subscriptionChanged || f.nodeInfoChanged) = false →
      (nodeInfoMonitor env s).2.trace = s.trace ∧
      (nodeInfoMonitor env s).2.c.Relay = s.c.Relay) ∧
    ((f.subscriptionChanged || f.nodeInfoChanged) = true →
      (nodeInfoMonitor env s).2.c.Relay = requestsRelay f.newNodeInfo ∧
      ∃ rest, (nodeInfoMonitor env s).2.trace =
        s.trace ++ relayCalls env f.newNodeInfo f.newSubscriptionInfo s.c ++ rest ∧
        (rest = [] ∨
          rest = diffCalls (Compare env.rangeOld env.rangeNew (some s.c.subscriptionList)
            (some f.newSubscriptionInfo)) s.c.nodeInfo s.c.Tag ∨
          ∃ rules, blockingRuleList f.newNodeInfo (buildNodeTag f.newNodeInfo) = .ok rules ∧
            rest = replaceCalls s.c.Tag s.c.nodeInfo.NodeType f.newNodeInfo rules ++
              provisionCalls f.newSubscriptionInfo f.newNodeInfo)) := by
  obtain ⟨hdp, hb, hrel, hnew⟩ := hok
  have hflag : env.RelayOK f.newNodeInfo →
      (relayController env f.newNodeInfo s.c).Relay = requestsRelay f.newNodeInfo := by
    intro hr
    unfold relayController
    by_cases hq : requestsRelay f.newNodeInfo = true
    · obtain ⟨r, hr1, _⟩ := hr hq
      simp [hq, hr1]
    · simp [hq]
  by_cases hc : f.nodeInfoChanged = true
  · have hrel1 := hrel (by simp [hc])
    by_cases hne : s.c.nodeInfo = f.newNodeInfo
    · by_cases hsc : f.subscriptionChanged = true
      · rw [tick_delta hdp hb s f hf hsc (Or.inr hne) hrel1]
        refine ⟨rfl, rfl, by simp [hc], fun _ => ⟨hflag hrel1, _, rfl, Or.inr (Or.inl rfl)⟩⟩
      · rw [tick_relay_only hdp hb s f hf (by simpa using hsc) hc hne hrel1]
        refine ⟨rfl, rfl, by simp [hc], fun _ => ⟨hflag hrel1, [], by simp, Or.inl rfl⟩⟩
    · obtain ⟨hnp, ⟨rules, hr⟩, hu⟩ := hnew hc hne
      rw [tick_replace_any hdp hb s f hf hc hne hrel1 hnp rules hr hu]
      refine ⟨rfl, rfl, by simp [hc], fun _ => ⟨hflag hrel1, _, ?_, Or.inr (Or.inr ⟨rules, hr, rfl⟩)⟩⟩
      simp only [List.append_assoc]
  · have hc' : f.nodeInfoChanged = false := by simpa using hc
    by_cases hsc : f.subscriptionChanged = true
    · have hrel1 := hrel (by simp [hsc])
      rw [tick_delta hdp hb s f hf hsc (Or.inl hc') hrel1]
      refine ⟨rfl, rfl, by simp [hsc], fun _ => ⟨hflag hrel1, _, rfl, Or.inr (Or.inl rfl)⟩⟩
    · have hsc' : f.subscriptionChanged = false := by simpa using hsc
      rw [tick_quiet env s f hf hsc' hc']
      refine ⟨rfl, rfl, fun _ => ⟨rfl, rfl⟩, by simp [hsc', hc']⟩

theorem fetchBoth_snapshot {env : Env} {c : Controller} {f : Fetched}
    (hf : fetchBoth env c = some f) :
    (∀ subs, env.GetSubscriptionList = .ok subs → f.newSubscriptionInfo = subs) ∧
    (∀ e, env.GetSubscriptionList = .error e →
      e = env.SubscriptionNotModified ∧ f.newSubscriptionInfo = c.subscriptionList) := by
  unfold fetchBoth at hf
  cases hn : env.GetNodeInfo with
  | error en =>
    cases hs : env.GetSubscriptionList with
    | error es =>
      simp only [hn, hs] at hf
      split_ifs at hf with h1 h2
      simp only [Option.some.injEq] at hf
      subst hf
      exact ⟨fun subs h => (by cases h), fun e h => (by cases h; exact ⟨h2, rfl⟩)⟩
    | ok subs0 =>
      simp only [hn, hs] at hf
      split_ifs at hf with h1
      simp only [Option.some.injEq] at hf
      subst hf
      exact ⟨fun subs h => by cases h; rfl, fun e h => by cases h⟩
  | ok n =>
    cases hs : env.GetSubscriptionList with
    | error es =>
      simp only [hn, hs] at hf
      split_ifs at hf with h2
      simp only [Option.some.injEq] at hf
      subst hf
      exact ⟨fun subs h => (by cases h), fun e h => (by cases h; exact ⟨h2, rfl⟩)⟩
    | ok subs0 =>
      simp only [hn, hs, Option.some.injEq] at hf
      subst hf
      exact ⟨fun subs h => by cases h; rfl, fun e h => by cases h⟩

/-- C28. For every tick in which both fetches return without error (changed
or not-modified) and no sub-step fails, the tick returns without error and the
snapshot retained after it is the snapshot the tick used: the newly fetched one
when the subscriber fetch returned one, the previous one when it answered
not-modified; whichever branch was taken. -/
theorem tick_retains_snapshot_used (env : Env) (s : Sys) (f : Fetched)
    (hf : fetchBoth env s.c = some f) (hok : env.NothingFails s.c f) :
    (nodeInfoMonitor env s).1 = .returned none ∧
    (nodeInfoMonitor env s).2.c.subscriptionList = f.newSubscriptionInfo ∧
    (∀ subs, env.GetSubscriptionList = .ok subs →
      (nodeInfoMonitor env s).2.c.subscriptionList = subs) ∧
    (env.GetSubscriptionList = .error env.SubscriptionNotModified →
      (nodeInfoMonitor env s).2.c.subscriptionList = s.c.subscriptionList) := by
  obtain ⟨h1, h2, _, _⟩ := tick_nothing_fails s f hf hok
  obtain ⟨g1, g2⟩ := fetchBoth_snapshot hf
  exact ⟨h1, h2, fun subs hs => by rw [h2, g1 subs hs], fun hs => by rw [h2, (g2 _ hs).2]⟩

/-- C28, witness: the subscribers-only tick `{1, 2} → {2, 3}` retains `{2, 3}`. -/
theorem tick_retains_snapshot_used_witness :
    (nodeInfoMonitor scenario1Env ⟨steadyController, []⟩).2.c.subscriptionList =
      [subscriber 2, subscriber 3] :=
  (tick_retains_snapshot_used scenario1Env ⟨steadyController, []⟩
    ⟨false, plainNode "vless", true, [subscriber 2, subscriber 3]⟩ rfl
    ⟨fun _ _ => rfl,
      ⟨fun _ _ => rfl, fun _ _ => rfl, fun _ _ _ _ => rfl, fun _ => rfl, fun _ => rfl,
        fun _ => rfl⟩,
      fun _ h => absurd h (by decide), fun h => absurd h (by decide)⟩).2.1

/-! ## Claims C22 and C29: what a tick leaves behind -/

/-- C29. The relay-active controller `relayHeadController` (tag
`vless_443_7`) meets a descriptor that moved to port 8443 and still requests
relay. Nothing fails, the tick returns without error and leaves the controller
relay-active with the tag `vless_8443_7`, yet both relay rules it installed
have the inbound tag `vless_443_7` and a user key with the prefix
`vless_443_7`: `AddRelayTag` is called with `c.Tag` before the replacement of
the node assigns the new tag. -/
theorem tick_relay_rules_join_on_old_tag :
    (nodeInfoMonitor movedRelayEnv ⟨relayHeadController, []⟩).1 = .returned none ∧
    (nodeInfoMonitor movedRelayEnv ⟨relayHeadController, []⟩).2.c.Relay = true ∧
    (nodeInfoMonitor movedRelayEnv ⟨relayHeadController, []⟩).2.c.Tag = "vless_8443_7" ∧
    (relayRulesAdded (issued movedRelayEnv ⟨relayHeadController, []⟩)).map
        (fun rule => (rule.RuleTag, rule.InboundTag, rule.User)) =
      [("Relay_vless_8443_3_1", ["vless_443_7"], some ["vless_443_7|user|1"]),
        ("Relay_vless_8443_3_2", ["vless_443_7"], some ["vless_443_7|user|2"])] ∧
    Call.AddInbound "vless_8443_7" movedRelayHead ∈
      issued movedRelayEnv ⟨relayHeadController, []⟩ ∧
    Call.RemoveInbound "vless_443_7" ∈ issued movedRelayEnv ⟨relayHeadController, []⟩ := by
  refine ⟨by decide, by decide, by decide, by decide, by decide, by decide⟩

/-- C22. From the system left by a `Start` for `plainNode "vless"`, whose
topology under `vless_443_7` is complete, a tick fetches a descriptor of the
plugin-only kind. `AddTag` rejects it after the old tag was removed and the
new blackhole outbound was added: the tick returns nil, the controller already
holds the new descriptor and the new tag, and the data plane holds neither the
old topology nor the new one, only the new blackhole outbound. The next tick
with the same descriptor issues no call, so nothing repairs it. -/
theorem tick_plugin_leaves_half_applied_topology :
    (Plane.empty.after runningSys.trace).Holds "vless_443_7" ∧
    (nodeInfoMonitor pluginEnv runningSys).1 = .returned none ∧
    (nodeInfoMonitor pluginEnv runningSys).2.c.nodeInfo = plainNode "Shadowsocks-Plugin" ∧
    (nodeInfoMonitor pluginEnv runningSys).2.c.Tag = "Shadowsocks-Plugin_443_7" ∧
    ¬ (Plane.empty.after (nodeInfoMonitor pluginEnv runningSys).2.trace).Holds "vless_443_7" ∧
    ¬ (Plane.empty.after (nodeInfoMonitor pluginEnv runningSys).2.trace).Holds
      "Shadowsocks-Plugin_443_7" ∧
    (Plane.empty.after (nodeInfoMonitor pluginEnv runningSys).2.trace).inbounds = [] ∧
    (Plane.empty.after (nodeInfoMonitor pluginEnv runningSys).2.trace).outbounds =
      ["Shadowsocks-Plugin_443_7_blackhole"] ∧
    issued pluginEnv (nodeInfoMonitor pluginEnv runningSys).2 = [] := by
  refine ⟨by decide, by decide, by decide, by decide, by decide, by decide, by decide,
    by decide, by decide⟩

/-! ## Claim C21: `Start` -/

theorem startRelay_not_requested (env : Env) (s : Sys)
    (h : requestsRelay s.c.nodeInfo = false) :
    startRelay env s = (.next (), ⟨{ s.c with Relay := false }, s.trace⟩) := by
  unfold requestsRelay at h
  unfold startRelay
  simp only [bind, pure, assign, self, live]
  simp [h]

theorem startRelay_fetch_error (env : Env) (s : Sys) (e : String)
    (h : requestsRelay s.c.nodeInfo = true) (ht : env.GetTransitNode = .error e) :
    (startRelay env s).1 = .stop (.panicked e) := by
  unfold requestsRelay at h
  unfold startRelay
  simp only [bind, pure, assign, self, live]
  simp [h, ht]

theorem startRelay_add_error (env : Env) (s : Sys) (relay : RelayNodeInfo) (e : String)
    (h : requestsRelay s.c.nodeInfo = true) (ht : env.GetTransitNode = .ok relay)
    (ha : (AddRelayTag env relay (buildRNodeTag relay) s.c.Tag s.c.subscriptionList
      s.trace).1 = some e) :
    (startRelay env s).1 = .stop (.panicked e) := by
  unfold requestsRelay at h
  unfold startRelay
  simp only [bind, pure, assign, self, live]
  simp [h, ht, ha]

theorem startRelay_done (env : Env) (s : Sys) (relay : RelayNodeInfo) (tr1 : List Call)
    (h : requestsRelay s.c.nodeInfo = true) (ht : env.GetTransitNode = .ok relay)
    (ha : AddRelayTag env relay (buildRNodeTag relay) s.c.Tag s.c.subscriptionList s.trace =
      (none, tr1)) :
    startRelay env s =
      (.next (), ⟨{ s.c with
        relaynodeInfo := some relay, RelayTag := buildRNodeTag relay, Relay := true }, tr1⟩) := by
  unfold requestsRelay at h
  unfold startRelay
  simp only [bind, pure, assign, self, live]
  simp [h, ht, ha]

theorem startTopology_steps (env : Env) (APIHost : String) (StartAll : List Task → Err)
    (n : NodeInfo) (subs : List SubscriptionInfo) (s : Sys) :
    (∀ e, (AddRuleTag env s.c.nodeInfo s.c.Tag s.trace).1 = some e →
      (startTopology env APIHost StartAll n subs s).1 = ⟨.panicked e, [], false⟩) ∧
    ((AddRuleTag env s.c.nodeInfo s.c.Tag s.trace).1 = none →
      (∀ e, (AddTag env s.c.nodeInfo s.c.Tag
          (AddRuleTag env s.c.nodeInfo s.c.Tag s.trace).2).1 = some e →
        (startTopology env APIHost StartAll n subs s).1 = ⟨.panicked e, [], false⟩) ∧
      ((AddTag env s.c.nodeInfo s.c.Tag
          (AddRuleTag env s.c.nodeInfo s.c.Tag s.trace).2).1 = none →
        (∀ e, (AddNewSubscription env subs n s.c.Tag
            (AddTag env s.c.nodeInfo s.c.Tag
              (AddRuleTag env s.c.nodeInfo s.c.Tag s.trace).2).2).1 = some e →
          (startTopology env APIHost StartAll n subs s).1 = ⟨.returned (some e), [], false⟩) ∧
        ((AddNewSubscription env subs n s.c.Tag
            (AddTag env s.c.nodeInfo s.c.Tag
              (AddRuleTag env s.c.nodeInfo s.c.Tag s.trace).2).2).1 = none →
          (startTopology env APIHost StartAll n subs s).1 =
            ⟨.returned (StartAll (startTasks s.c.nodeInfo)), startTasks s.c.nodeInfo, true⟩))) := by
  unfold startTopology
  simp only [bind, pure, live, self, assign]
  refine ⟨fun e h1 => by simp only [h1], fun h1 => ⟨fun e h2 => by simp only [h1, h2],
    fun h2 => ⟨fun e h3 => by simp only [h1, h2, h3], fun h3 => by simp only [h1, h2, h3]⟩⟩⟩

theorem Start_fetched (env : Env) (APIHost : String) (StartAll : List Task → Err) (s : Sys)
    (n : NodeInfo) (subs : List SubscriptionInfo)
    (hn : env.GetNodeInfo = .ok n) (hs : env.GetSubscriptionList = .ok subs) :
    (Start env APIHost StartAll s).1 =
      match (startRelay env (startFetched s n subs)).1 with
      | .stop r => ⟨r, [], false⟩
      | .next _ =>
        (startTopology env APIHost StartAll n subs (startRelay env (startFetched s n subs)).2).1 := by
  unfold Start startFetched
  simp only [hn, hs, bind, pure, assign]
  cases h : (startRelay env
      ⟨{ nodeInfo := n, relaynodeInfo := s.c.relaynodeInfo, Tag := buildNodeTag n,
          LogPrefix := s.c.LogPrefix, RelayTag := s.c.RelayTag, Relay := s.c.Relay,
          subscriptionList := subs }, s.trace⟩).1 with
  | stop r => rfl
  | next a => rfl

theorem startTasks_ne_nil (n : NodeInfo) : startTasks n ≠ [] := by
  simp [startTasks]

/-- C21, counterexample. Every step of `Start` succeeds but the installation
of the limiter, which returns the error `limiter already exists`: the error is
only printed, the two poll tasks are added to the task manager, `StartAll` is
called and `Start` returns nil. -/
theorem Start_limiter_failure_still_schedules :
    (∀ tr tag limit subs,
      (AddInboundLimiter limiterErrorEnv tag limit subs tr).1 = some "limiter already exists") ∧
    Call.AddInboundLimiter "vless_443_7" 5000 [subscriber 1] ∈
      (Start limiterErrorEnv "panel" (fun _ => none) newSys).2.trace ∧
    (Start limiterErrorEnv "panel" (fun _ => none) newSys).1 =
      ⟨.returned none, [⟨"server", 60000000000⟩, ⟨"subscriptions", 60000000000⟩], true⟩ := by
  refine ⟨fun _ _ _ _ => rfl, by decide, by decide⟩

/-- C21, amended. For every run of `Start`, an error at any setup step other
than the installation of the limiter ends `Start` at once, with no periodic
task added to the task manager and `StartAll` not called:
a failed node fetch or subscriber fetch makes `Start` return that error;
for a relay-requesting descriptor, a failed relay fetch or an error of
`AddRelayTag` makes it panic; once the relay block is through, an error of
`AddRuleTag` or of `AddTag` makes it panic, and an error of
`AddNewSubscription` makes it return that error. When none of these steps
fails, then whatever the installation of the limiter returns, the poll tasks
of the descriptor are added, `StartAll` is called and `Start` returns its
answer. -/
theorem Start_fails_fast (env : Env) (APIHost : String) (StartAll : List Task → Err) (s : Sys) :
    (∀ e, env.GetNodeInfo = .error e →
      (Start env APIHost StartAll s).1 = ⟨.returned (some e), [], false⟩) ∧
    (∀ n e, env.GetNodeInfo = .ok n → env.GetSubscriptionList = .error e →
      (Start env APIHost StartAll s).1 = ⟨.returned (some e), [], false⟩) ∧
    (∀ n subs, env.GetNodeInfo = .ok n → env.GetSubscriptionList = .ok subs →
      (∀ e, requestsRelay n = true → env.GetTransitNode = .error e →
        (Start env APIHost StartAll s).1 = ⟨.panicked e, [], false⟩) ∧
      (∀ relay e, requestsRelay n = true → env.GetTransitNode = .ok relay →
        (AddRelayTag env relay (buildRNodeTag relay) (buildNodeTag n) subs s.trace).1 = some e →
        (Start env APIHost StartAll s).1 = ⟨.panicked e, [], false⟩) ∧
      (∀ tr1, StartRelayDone env n subs s.trace tr1 →
        (∀ e, (AddRuleTag env n (buildNodeTag n) tr1).1 = some e →
          (Start env APIHost StartAll s).1 = ⟨.panicked e, [], false⟩) ∧
        ((AddRuleTag env n (buildNodeTag n) tr1).1 = none →
          (∀ e, (AddTag env n (buildNodeTag n)
              (AddRuleTag env n (buildNodeTag n) tr1).2).1 = some e →
            (Start env APIHost StartAll s).1 = ⟨.panicked e, [], false⟩) ∧
          ((AddTag env n (buildNodeTag n) (AddRuleTag env n (buildNodeTag n) tr1).2).1 = none →
            (∀ e, (AddNewSubscription env subs n (buildNodeTag n)
                (AddTag env n (buildNodeTag n)
                  (AddRuleTag env n (buildNodeTag n) tr1).2).2).1 = some e →
              (Start env APIHost StartAll s).1 = ⟨.returned (some e), [], false⟩) ∧
            ((AddNewSubscription env subs n (buildNodeTag n)
                (AddTag env n (buildNodeTag n)
                  (AddRuleTag env n (buildNodeTag n) tr1).2).2).1 = none →
              (Start env APIHost StartAll s).1 =
                ⟨.returned (StartAll (startTasks n)), startTasks n, true⟩ ∧
              startTasks n ≠ []))))) := by
  refine ⟨?_, ?_, ?_⟩
  · intro e hn
    simp [Start, hn, pure]
  · intro n e hn hs
    simp [Start, hn, hs, bind, pure, assign]
  · intro n subs hn hs
    have hS := Start_fetched env APIHost StartAll s n subs hn hs
    refine ⟨?_, ?_, ?_⟩
    · intro e hq ht
      rw [hS, startRelay_fetch_error env (startFetched s n subs) e hq ht]
    · intro relay e hq ht ha
      rw [hS, startRelay_add_error env (startFetched s n subs) relay e hq ht ha]
    · intro tr1 hdone
      have hT : ∃ c, startRelay env (startFetched s n subs) = (.next (), ⟨c, tr1⟩) ∧
          c.nodeInfo = n ∧ c.Tag = buildNodeTag n := by
        rcases hdone with ⟨hq, rfl⟩ | ⟨hq, relay, ht, ha⟩
        · exact ⟨_, startRelay_not_requested env (startFetched s n subs) hq, rfl, rfl⟩
        · exact ⟨_, startRelay_done env (startFetched s n subs) relay tr1 hq ht ha, rfl, rfl⟩
      obtain ⟨c, hc, hcn, hct⟩ := hT
      have hS2 : (Start env APIHost StartAll s).1 =
          (startTopology env APIHost StartAll n subs ⟨c, tr1⟩).1 := by
        rw [hS, hc]
      have hsteps := startTopology_steps env APIHost StartAll n subs ⟨c, tr1⟩
      simp only [hcn, hct] at hsteps
      rw [hS2]
      obtain ⟨h1, h2⟩ := hsteps
      refine ⟨h1, fun g1 => ?_⟩
      obtain ⟨h3, h4⟩ := h2 g1
      refine ⟨h3, fun g2 => ?_⟩
      obtain ⟨h5, h6⟩ := h4 g2
      exact ⟨h5, fun g3 => ⟨h6 g3, startTasks_ne_nil n⟩⟩

/-- C21, witness: a descriptor that does not request relay, with every
data-plane call failing, stops `Start` at the blocking rules with a panic and
no task. -/
theorem Start_fails_fast_witness :
    (Start { startEnv (plainNode "vless") [subscriber 1] with
        dataPlane := fun _ _ => some "data plane down" } "panel" (fun _ => none) newSys).1 =
      ⟨.panicked "failed to add outbound: data plane down", [], false⟩ :=
  ((Start_fails_fast { startEnv (plainNode "vless") [subscriber 1] with
        dataPlane := fun _ _ => some "data plane down" } "panel" (fun _ => none) newSys).2.2
      (plainNode "vless") [subscriber 1] rfl rfl).2.2 [] (Or.inl ⟨by decide, rfl⟩) |>.1
    "failed to add outbound: data plane down" (by decide)


/-! ## Claim C23: the order of the calls of a structural change -/

theorem RemoveTag_issues (env : Env) (tag : String) (tr : List Call) :
    ∃ calls, (RemoveTag env tag tr).2 = tr ++ calls ∧ ∀ c ∈ calls, c ∈ removeTagCalls tag := by
  unfold RemoveTag
  simp only [bind, pure, removeInbound, removeOutbound, removeRouterRule, call]
  cases h1 : env.dataPlane tr (.RemoveInbound tag) with
  | some e => exact ⟨[.RemoveInbound tag], rfl, by simp [removeTagCalls]⟩
  | none =>
    simp only
    cases h2 : env.dataPlane (tr ++ [.RemoveInbound tag]) (.RemoveOutbound tag) with
    | some e =>
      exact ⟨[.RemoveInbound tag, .RemoveOutbound tag], by simp, by simp [removeTagCalls]⟩
    | none =>
      simp only
      refine ⟨removeTagCalls tag, ?_, fun c hc => hc⟩
      cases h3 : env.dataPlane (tr ++ [.RemoveInbound tag] ++ [.RemoveOutbound tag])
          (.RemoveRule (tag ++ "_default")) <;> simp [removeTagCalls]

theorem RemoveBlockingRules_issues (env : Env) (tag : String) (tr : List Call) :
    ∃ calls, (RemoveBlockingRules env tag tr).2 = tr ++ calls ∧
      ∀ c ∈ calls, c ∈ removeBlockingCalls tag := by
  unfold RemoveBlockingRules
  simp only [bind, pure, removeOutbound, removeRouterRule, call]
  cases h1 : env.dataPlane tr (.RemoveRule (tag ++ "_blackhole")) with
  | some e => exact ⟨[.RemoveRule (tag ++ "_blackhole")], rfl, by simp [removeBlockingCalls]⟩
  | none =>
    simp only
    refine ⟨removeBlockingCalls tag, ?_, fun c hc => hc⟩
    cases h2 : env.dataPlane (tr ++ [.RemoveRule (tag ++ "_blackhole")])
        (.RemoveOutbound (tag ++ "_blackhole")) <;> simp [removeBlockingCalls]

theorem AddRuleTag_issues (env : Env) (n : NodeInfo) (tag : String) (tr : List Call) :
    ∃ calls, (AddRuleTag env n tag tr).2 = tr ++ calls ∧
      ∀ c ∈ calls, c = .AddOutbound (.blackhole tag) ∨
        ∃ rules, blockingRuleList n tag = .ok rules ∧ c = .AddRule rules := by
  unfold AddRuleTag
  simp only [bind, pure, addOutbound, addRouterRule, call]
  cases h1 : env.BlackholeOutboundBuilder tag with
  | some e => exact ⟨[], by simp, by simp⟩
  | none =>
    simp only
    cases h2 : env.dataPlane tr (.AddOutbound (.blackhole tag)) with
    | some e => exact ⟨[.AddOutbound (.blackhole tag)], rfl, by simp⟩
    | none =>
      simp only
      cases h3 : blockingRuleList n tag with
      | error e => exact ⟨[.AddOutbound (.blackhole tag)], rfl, by simp⟩
      | ok rules =>
        simp only
        cases h4 : env.routerBuild rules with
        | some e => exact ⟨[.AddOutbound (.blackhole tag)], rfl, by simp⟩
        | none =>
          simp only
          refine ⟨[.AddOutbound (.blackhole tag), .AddRule rules], ?_, ?_⟩
          · cases h5 : env.dataPlane (tr ++ [.AddOutbound (.blackhole tag)]) (.AddRule rules) <;>
              simp
          · intro c hc
            simp only [List.mem_cons, List.mem_singleton, List.not_mem_nil, or_false] at hc
            rcases hc with rfl | rfl
            · exact Or.inl rfl
            · exact Or.inr ⟨rules, rfl, rfl⟩

theorem AddTag_issues (env : Env) (n : NodeInfo) (tag : String) (tr : List Call) :
    ∃ calls, (AddTag env n tag tr).2 = tr ++ calls ∧
      ∀ c ∈ calls, c ∈ [Call.AddInbound tag n, .AddOutbound (.main tag n),
        .AddRule [defaultRule tag]] := by
  unfold AddTag
  simp only [bind, pure, addInbound, addOutbound, addRouterRule, call]
  by_cases hp : n.NodeType = "Shadowsocks-Plugin"
  · exact ⟨[], by simp [hp], by simp⟩
  · simp only [hp, if_false]
    cases h1 : env.InboundBuilder n tag with
    | some e => exact ⟨[], by simp, by simp⟩
    | none =>
      simp only
      cases h2 : env.dataPlane tr (.AddInbound tag n) with
      | some e => exact ⟨[.AddInbound tag n], rfl, by simp⟩
      | none =>
        simp only
        cases h3 : env.OutboundBuilder n tag with
        | some e => exact ⟨[.AddInbound tag n], rfl, by simp⟩
        | none =>
          simp only
          cases h4 : env.dataPlane (tr ++ [.AddInbound tag n]) (.AddOutbound (.main tag n)) with
          | some e => exact ⟨[.AddInbound tag n, .AddOutbound (.main tag n)], by simp, by simp⟩
          | none =>
            simp only
            by_cases hd : n.RelayType = 0 ∨ n.RelayNodeID = 0
            · simp only [hd, if_true]
              cases h5 : env.routerBuild [defaultRule tag] with
              | some e =>
                exact ⟨[.AddInbound tag n, .AddOutbound (.main tag n)], by simp, by simp⟩
              | none =>
                simp only
                refine ⟨[.AddInbound tag n, .AddOutbound (.main tag n),
                  .AddRule [defaultRule tag]], ?_, fun c hc => hc⟩
                cases h6 : env.dataPlane (tr ++ [.AddInbound tag n] ++
                  [.AddOutbound (.main tag n)]) (.AddRule [defaultRule tag]) <;> simp
            · simp only [hd, if_false]
              exact ⟨[.AddInbound tag n, .AddOutbound (.main tag n)], by simp, by simp⟩

theorem addUsersLoop_issues (env : Env) (tag : String) (users : List User) (tr : List Call) :
    ∃ calls, (addUsersLoop env tag users tr).2 = tr ++ calls ∧
      ∀ c ∈ calls, ∃ user, c = .AddUser tag user := by
  induction users generalizing tr with
  | nil => exact ⟨[], by simp [addUsersLoop, pure], by simp⟩
  | cons u users ih =>
    unfold addUsersLoop
    simp only [bind, pure, call]
    cases h1 : env.ToMemoryUser u with
    | some e => exact ⟨[], by simp, by simp⟩
    | none =>
      simp only
      cases h2 : env.dataPlane tr (.AddUser tag u) with
      | some e => exact ⟨[.AddUser tag u], rfl, by simp⟩
      | none =>
        simp only
        obtain ⟨calls, g1, g2⟩ := ih (tr ++ [.AddUser tag u])
        refine ⟨.AddUser tag u :: calls, by rw [g1]; simp, ?_⟩
        intro c hc
        rcases List.mem_cons.1 hc with rfl | hc
        · exact ⟨u, rfl⟩
        · exact g2 c hc

theorem AddNewSubscription_issues (env : Env) (subs : List SubscriptionInfo) (n : NodeInfo)
    (tag : String) (tr : List Call) :
    ∃ calls, (AddNewSubscription env subs n tag tr).2 = tr ++ calls ∧
      ∀ c ∈ calls, c = .GetHandler tag ∨ ∃ user, c = .AddUser tag user := by
  unfold AddNewSubscription
  simp only [bind, pure]
  by_cases hl : subs.length = 0
  · exact ⟨[], by simp [hl], by simp⟩
  · simp only [hl, if_false]
    cases hu : buildUsers subs n tag with
    | none => exact ⟨[], by simp, by simp⟩
    | some users =>
      simp only [Add, bind, pure, addInboundSubscriptions, call]
      by_cases hl2 : users.length = 0
      · exact ⟨[], by simp [hl2], by simp⟩
      · simp only [hl2, if_false]
        cases h1 : env.dataPlane tr (.GetHandler tag) with
        | some e => exact ⟨[.GetHandler tag], rfl, by simp⟩
        | none =>
          simp only
          obtain ⟨calls, g1, g2⟩ := addUsersLoop_issues env tag users (tr ++ [.GetHandler tag])
          refine ⟨.GetHandler tag :: calls, ?_, ?_⟩
          · cases h2 : (addUsersLoop env tag users (tr ++ [.GetHandler tag])).1 <;>
              simp [g1]
          · intro c hc
            rcases List.mem_cons.1 hc with rfl | hc
            · exact Or.inl rfl
            · exact Or.inr (g2 c hc)

theorem provision_issues (env : Env) (f : Fetched) (s : Sys) :
    ∃ calls, (provision env f true s).2.trace = s.trace ++ calls ∧
      ∀ c ∈ calls, c = .GetHandler s.c.Tag ∨ (∃ user, c = .AddUser s.c.Tag user) ∨
        c = .AddInboundLimiter s.c.Tag f.newNodeInfo.SpeedLimit f.newSubscriptionInfo := by
  unfold provision
  simp only [bind, pure, self, live, if_true, AddInboundLimiter, call]
  obtain ⟨c1, h1, k1⟩ := AddNewSubscription_issues env f.newSubscriptionInfo f.newNodeInfo
    s.c.Tag s.trace
  cases h2 : (AddNewSubscription env f.newSubscriptionInfo f.newNodeInfo s.c.Tag s.trace).1 with
  | some e =>
    refine ⟨c1, by simp [h1], fun c hc => ?_⟩
    rcases k1 c hc with h | h
    · exact Or.inl h
    · exact Or.inr (Or.inl h)
  | none =>
    simp only
    refine ⟨c1 ++ [.AddInboundLimiter s.c.Tag f.newNodeInfo.SpeedLimit f.newSubscriptionInfo],
      ?_, fun c hc => ?_⟩
    · cases h3 : env.dataPlane
        (AddNewSubscription env f.newSubscriptionInfo f.newNodeInfo s.c.Tag s.trace).2
        (.AddInboundLimiter s.c.Tag f.newNodeInfo.SpeedLimit f.newSubscriptionInfo) <;>
        simp [h1]
    · rcases List.mem_append.1 hc with hc | hc
      · rcases k1 c hc with h | h
        · exact Or.inl h
        · exact Or.inr (Or.inl h)
      · exact Or.inr (Or.inr (List.mem_singleton.1 hc))

theorem replaceNode_issues (env : Env) (f : Fetched) (s : Sys)
    (hc : f.nodeInfoChanged = true) (hne : s.c.nodeInfo ≠ f.newNodeInfo) :
    ∃ removals adds limiter,
      (replaceNode env f s).2.trace = s.trace ++ removals ++ adds ++ limiter ∧
      (∀ c ∈ removals, IsOldRemoval s.c.Tag c) ∧
      (∀ c ∈ adds, IsNewTopologyAdd f.newNodeInfo c) ∧
      (∀ c ∈ limiter, c = .DeleteInboundLimiter s.c.Tag) ∧
      (∀ b, (replaceNode env f s).1 = .next b →
        b = true ∧ (replaceNode env f s).2.c.Tag = buildNodeTag f.newNodeInfo) := by
  unfold replaceNode
  simp only [bind, pure, self, live, assign, hc, if_true, hne, ne_eq, not_false_eq_true,
    DeleteInboundLimiter, call]
  obtain ⟨r1, e1, k1⟩ := RemoveTag_issues env s.c.Tag s.trace
  rw [e1]
  cases h1 : (RemoveTag env s.c.Tag s.trace).1 with
  | some e =>
    simp only
    exact ⟨r1, [], [], by simp, fun c hc => Or.inl (k1 c hc), by simp, by simp,
      by intro b hb; cases hb⟩
  | none =>
    simp only
    obtain ⟨r2, e2, k2⟩ := RemoveBlockingRules_issues env s.c.Tag (s.trace ++ r1)
    rw [e2]
    have hR12 : ∀ c ∈ r1 ++ r2, IsOldRemoval s.c.Tag c := by
      intro c hcm
      rcases List.mem_append.1 hcm with h | h
      · exact Or.inl (k1 c h)
      · exact Or.inr (Or.inl (k2 c h))
    by_cases hp : s.c.nodeInfo.NodeType = "Shadowsocks-Plugin"
    · simp only [hp, if_true]
      obtain ⟨r3, e3, k3⟩ := RemoveTag_issues env ("dokodemo-door_" ++ s.c.Tag ++ "+1")
        (s.trace ++ r1 ++ r2)
      rw [e3]
      have hR123 : ∀ c ∈ r1 ++ r2 ++ r3, IsOldRemoval s.c.Tag c := by
        intro c hcm
        rcases List.mem_append.1 hcm with h | h
        · exact hR12 c h
        · exact Or.inr (Or.inr (k3 c h))
      by_cases hb : (RemoveTag env ("dokodemo-door_" ++ s.c.Tag ++ "+1")
          (s.trace ++ r1 ++ r2)).1 = none
      · simp only [hb, not_true_eq_false, if_false]
        obtain ⟨a1, ea1, ka1⟩ := AddRuleTag_issues env f.newNodeInfo (buildNodeTag f.newNodeInfo)
          (s.trace ++ r1 ++ r2 ++ r3)
        rw [ea1]
        have hA1 : ∀ c ∈ a1, IsNewTopologyAdd f.newNodeInfo c := by
          intro c hcm
          rcases ka1 c hcm with h | h
          · exact Or.inl h
          · exact Or.inr (Or.inl h)
        cases g1 : (AddRuleTag env f.newNodeInfo (buildNodeTag f.newNodeInfo) (s.trace ++ r1 ++ r2 ++ r3)).1 with
        | some e =>
          simp only
          exact ⟨r1 ++ r2 ++ r3, a1, [], by simp, hR123, hA1, by simp, by intro b hb; cases hb⟩
        | none =>
          simp only
          obtain ⟨a2, ea2, ka2⟩ := AddTag_issues env f.newNodeInfo (buildNodeTag f.newNodeInfo)
            (s.trace ++ r1 ++ r2 ++ r3 ++ a1)
          rw [ea2]
          have hA12 : ∀ c ∈ a1 ++ a2, IsNewTopologyAdd f.newNodeInfo c := by
            intro c hcm
            rcases List.mem_append.1 hcm with h | h
            · exact hA1 c h
            · exact Or.inr (Or.inr (ka2 c h))
          cases g2 : (AddTag env f.newNodeInfo (buildNodeTag f.newNodeInfo) (s.trace ++ r1 ++ r2 ++ r3 ++ a1)).1 with
          | some e =>
            simp only
            exact ⟨r1 ++ r2 ++ r3, a1 ++ a2, [], by simp, hR123, hA12, by simp, by intro b hb; cases hb⟩
          | none =>
            simp only
            cases g3 : env.dataPlane (s.trace ++ r1 ++ r2 ++ r3 ++ a1 ++ a2) (.DeleteInboundLimiter s.c.Tag) with
            | some e =>
              simp only
              exact ⟨r1 ++ r2 ++ r3, a1 ++ a2, [.DeleteInboundLimiter s.c.Tag], by simp, hR123, hA12,
                by simp, by intro b hb; cases hb⟩
            | none =>
              simp only
              exact ⟨r1 ++ r2 ++ r3, a1 ++ a2, [.DeleteInboundLimiter s.c.Tag], by simp, hR123, hA12,
                by simp, by intro b hb; cases hb; simp⟩
      · simp only [hb, not_false_eq_true, if_true]
        exact ⟨r1 ++ r2 ++ r3, [], [], by simp, hR123, by simp, by simp,
          by intro b hb; cases hb⟩
    · simp only [hp, if_false]
      by_cases hb : (RemoveBlockingRules env s.c.Tag (s.trace ++ r1)).1 = none
      · simp only [hb, not_true_eq_false, if_false]
        obtain ⟨a1, ea1, ka1⟩ := AddRuleTag_issues env f.newNodeInfo (buildNodeTag f.newNodeInfo)
          (s.trace ++ r1 ++ r2)
        rw [ea1]
        have hA1 : ∀ c ∈ a1, IsNewTopologyAdd f.newNodeInfo c := by
          intro c hcm
          rcases ka1 c hcm with h | h
          · exact Or.inl h
          · exact Or.inr (Or.inl h)
        cases g1 : (AddRuleTag env f.newNodeInfo (buildNodeTag f.newNodeInfo) (s.trace ++ r1 ++ r2)).1 with
        | some e =>
          simp only
          exact ⟨r1 ++ r2, a1, [], by simp, hR12, hA1, by simp, by intro b hb; cases hb⟩
        | none =>
          simp only
          obtain ⟨a2, ea2, ka2⟩ := AddTag_issues env f.newNodeInfo (buildNodeTag f.newNodeInfo)
            (s.trace ++ r1 ++ r2 ++ a1)
          rw [ea2]
          have hA12 : ∀ c ∈ a1 ++ a2, IsNewTopologyAdd f.newNodeInfo c := by
            intro c hcm
            rcases List.mem_append.1 hcm with h | h
            · exact hA1 c h
            · exact Or.inr (Or.inr (ka2 c h))
          cases g2 : (AddTag env f.newNodeInfo (buildNodeTag f.newNodeInfo) (s.trace ++ r1 ++ r2 ++ a1)).1 with
          | some e =>
            simp only
            exact ⟨r1 ++ r2, a1 ++ a2, [], by simp, hR12, hA12, by simp, by intro b hb; cases hb⟩
          | none =>
            simp only
            cases g3 : env.dataPlane (s.trace ++ r1 ++ r2 ++ a1 ++ a2) (.DeleteInboundLimiter s.c.Tag) with
            | some e =>
              simp only
              exact ⟨r1 ++ r2, a1 ++ a2, [.DeleteInboundLimiter s.c.Tag], by simp, hR12, hA12,
                by simp, by intro b hb; cases hb⟩
            | none =>
              simp only
              exact ⟨r1 ++ r2, a1 ++ a2, [.DeleteInboundLimiter s.c.Tag], by simp, hR12, hA12,
                by simp, by intro b hb; cases hb; simp⟩
      · simp only [hb, not_false_eq_true, if_true]
        exact ⟨r1 ++ r2, [], [], by simp, hR12, by simp, by simp, by intro b hb; cases hb⟩

theorem NoRelayAddSince.refl (tr : List Call) : NoRelayAddSince tr tr :=
  ⟨[], by simp, by simp⟩

theorem NoRelayAddSince.trans {tr1 tr2 tr3 : List Call} (h1 : NoRelayAddSince tr1 tr2)
    (h2 : NoRelayAddSince tr2 tr3) : NoRelayAddSince tr1 tr3 := by
  obtain ⟨c1, e1, k1⟩ := h1
  obtain ⟨c2, e2, k2⟩ := h2
  refine ⟨c1 ++ c2, by rw [e2, e1, List.append_assoc], ?_⟩
  intro c hc
  rcases List.mem_append.1 hc with h | h
  · exact k1 c h
  · exact k2 c h

theorem NoRelayAddSince.of_issues {tr tr2 : List Call} {K : Call → Prop}
    (h : ∃ calls, tr2 = tr ++ calls ∧ ∀ c ∈ calls, K c) (hK : ∀ c, K c → addsRelay c = false) :
    NoRelayAddSince tr tr2 := by
  obtain ⟨calls, e, k⟩ := h
  exact ⟨calls, e, fun c hc => hK c (k c hc)⟩

theorem NoRelayAddSince.snoc {tr T : List Call} {c : Call} (hc : addsRelay c = false)
    (h : NoRelayAddSince tr T) : NoRelayAddSince tr (T ++ [c]) :=
  h.trans ⟨[c], rfl, by simpa using hc⟩

theorem removeUsersLoop_issues (env : Env) (tag : String) (emails : List String)
    (tr : List Call) :
    ∃ calls, (removeUsersLoop env tag emails tr).2 = tr ++ calls ∧
      ∀ c ∈ calls, ∃ email, c = .RemoveUser tag email := by
  induction emails generalizing tr with
  | nil => exact ⟨[], by simp [removeUsersLoop, pure], by simp⟩
  | cons u emails ih =>
    unfold removeUsersLoop
    simp only [bind, pure, call]
    cases h2 : env.dataPlane tr (.RemoveUser tag u) with
    | some e => exact ⟨[.RemoveUser tag u], rfl, by simp⟩
    | none =>
      simp only
      obtain ⟨calls, g1, g2⟩ := ih (tr ++ [.RemoveUser tag u])
      refine ⟨.RemoveUser tag u :: calls, by rw [g1]; simp, ?_⟩
      intro c hc
      rcases List.mem_cons.1 hc with rfl | hc
      · exact ⟨u, rfl⟩
      · exact g2 c hc

theorem Remove_norelay (env : Env) (emails : List String) (tag : String) {tr T : List Call}
    (h : NoRelayAddSince tr T) : NoRelayAddSince tr (Remove env emails tag T).2 := by
  refine h.trans ?_
  unfold Remove
  simp only [bind, pure, removeInboundSubscriptions, call]
  by_cases hl : emails.length = 0
  · simp only [hl, if_true]
    exact NoRelayAddSince.refl T
  · simp only [hl, if_false]
    cases h1 : env.dataPlane T (.GetHandler tag) with
    | some e => exact ⟨[.GetHandler tag], rfl, by simp [addsRelay]⟩
    | none =>
      simp only
      obtain ⟨calls, g1, g2⟩ := removeUsersLoop_issues env tag emails (T ++ [.GetHandler tag])
      refine ⟨.GetHandler tag :: calls, ?_, ?_⟩
      · cases h2 : (removeUsersLoop env tag emails (T ++ [.GetHandler tag])).1 <;> simp [g1]
      · intro c hc
        rcases List.mem_cons.1 hc with rfl | hc
        · rfl
        · obtain ⟨email, rfl⟩ := g2 c hc
          rfl

theorem AddNewSubscription_norelay (env : Env) (subs : List SubscriptionInfo) (n : NodeInfo)
    (tag : String) {tr T : List Call} (h : NoRelayAddSince tr T) :
    NoRelayAddSince tr (AddNewSubscription env subs n tag T).2 := by
  refine h.trans (NoRelayAddSince.of_issues (AddNewSubscription_issues env subs n tag T) ?_)
  rintro c (rfl | ⟨user, rfl⟩) <;> rfl

theorem applyDiff_norelay (env : Env) (d : Diff) (s : Sys) :
    NoRelayAddSince s.trace (applyDiff env d s).2.trace := by
  unfold applyDiff
  simp only [bind, pure, self, live, UpdateInboundLimiter, call]
  by_cases h1 : d.deleted.length > 0 <;> by_cases h2 : d.added.length > 0 <;>
    by_cases h3 : d.modified.length > 0 <;>
    simp only [h1, h2, h3, if_true, if_false] <;>
    (try split_ifs) <;>
    (try dsimp only) <;>
    repeat (first
      | exact NoRelayAddSince.refl _
      | refine NoRelayAddSince.snoc (by rfl) ?_
      | apply AddNewSubscription_norelay
      | apply Remove_norelay)

theorem provision_norelay (env : Env) (f : Fetched) (b : Bool) (s : Sys) :
    NoRelayAddSince s.trace (provision env f b s).2.trace := by
  cases b with
  | true =>
    refine NoRelayAddSince.of_issues (provision_issues env f s) ?_
    rintro c (rfl | ⟨user, rfl⟩ | rfl) <;> rfl
  | false =>
    unfold provision
    simp only [bind, pure, self]
    by_cases hsc : f.subscriptionChanged = true
    · simpa [hsc] using applyDiff_norelay env _ s
    · simpa [hsc] using NoRelayAddSince.refl s.trace

theorem relayTeardown_removals {env : Env} (h : env.RemovalsOK) (upd : Bool) (s : Sys) :
    relayTeardown env upd s =
      (.next (),
        if s.c.Relay && upd then
          ⟨{ s.c with Relay := false },
            s.trace ++ relayTeardownCalls s.c.RelayTag s.c.subscriptionList⟩
        else s) := by
  by_cases hc : (s.c.Relay && upd) = true
  · simp [relayTeardown, bind, pure, self, live, assign, hc, RemoveRelayRules_removals h,
      RemoveRelayTag_removals h, relayTeardownCalls]
  · simp [relayTeardown, bind, pure, self, live, assign, hc]

theorem relayBuild_trace (env : Env) (f : Fetched) (s : Sys) (r : RelayNodeInfo)
    (hq : requestsRelay f.newNodeInfo = true) (hr : env.GetTransitNode = .ok r) :
    (relayBuild env f true s).2.trace =
      s.trace ++ issuedBy (AddRelayTag env r (buildRNodeTag r) s.c.Tag f.newSubscriptionInfo)
        s.trace := by
  obtain ⟨calls, h1, _⟩ := AddRelayTag_issues env r (buildRNodeTag r) s.c.Tag
    f.newSubscriptionInfo s.trace
  rw [issuedBy_eq _ _ _ h1]
  simp only [requestsRelay] at hq
  unfold relayBuild
  simp only [bind, pure, self, live, assign, hq, Bool.and_true, if_true, hr]
  cases h3 : (AddRelayTag env r (buildRNodeTag r) s.c.Tag f.newSubscriptionInfo s.trace).1 <;>
    simp [h1]

theorem replaceNode_norelay (env : Env) (f : Fetched) (s : Sys) :
    NoRelayAddSince s.trace (replaceNode env f s).2.trace := by
  by_cases hc : f.nodeInfoChanged = true
  · by_cases hne : s.c.nodeInfo = f.newNodeInfo
    · rw [replaceNode_same env f s (Or.inr hne)]
      exact NoRelayAddSince.refl _
    · obtain ⟨r, a, l, t, kr, ka, kl, _⟩ := replaceNode_issues env f s hc hne
      refine ⟨r ++ a ++ l, by rw [t]; simp, ?_⟩
      intro c hcm
      rcases List.mem_append.1 hcm with hcm | hcm
      · rcases List.mem_append.1 hcm with hcm | hcm
        · rcases kr c hcm with h | h | h
          · simp only [removeTagCalls, List.mem_cons, List.mem_singleton, List.not_mem_nil,
              or_false] at h
            rcases h with rfl | rfl | rfl <;> rfl
          · simp only [removeBlockingCalls, List.mem_cons, List.mem_singleton,
              List.not_mem_nil, or_false] at h
            rcases h with rfl | rfl <;> rfl
          · simp only [removeTagCalls, List.mem_cons, List.mem_singleton, List.not_mem_nil,
              or_false] at h
            rcases h with rfl | rfl | rfl <;> rfl
        · rcases ka c hcm with rfl | ⟨rules, hr, rfl⟩ | h
          · rfl
          · simp only [blockingRuleList] at hr
            split at hr
            · split at hr
              · cases hr
              · cases hr
                rfl
            · cases hr
              rfl
          · simp only [List.mem_cons, List.mem_singleton, List.not_mem_nil, or_false] at h
            rcases h with rfl | rfl | rfl <;> rfl
      · rw [kl c hcm]
        rfl
  · rw [replaceNode_same env f s (Or.inl (by simpa using hc))]
    exact NoRelayAddSince.refl _

/-- After the relay blocks a tick adds no piece of relay topology any more,
whatever fails. -/
theorem tick_after_relay_norelay (env : Env) (s : Sys) (f : Fetched)
    (hf : fetchBoth env s.c = some f) (u1 : Unit)
    (h1 : (relayTeardown env (f.subscriptionChanged || f.nodeInfoChanged) s).1 = .next u1) :
    NoRelayAddSince
      (relayBuild env f (f.subscriptionChanged || f.nodeInfoChanged)
        (relayTeardown env (f.subscriptionChanged || f.nodeInfoChanged) s).2).2.trace
      (nodeInfoMonitor env s).2.trace := by
  simp only [nodeInfoMonitor, bind, pure, self, assign, hf, h1]
  cases h2 : (relayBuild env f (f.subscriptionChanged || f.nodeInfoChanged)
    (relayTeardown env (f.subscriptionChanged || f.nodeInfoChanged) s).2).1 with
  | stop ret => exact NoRelayAddSince.refl _
  | next u2 =>
    simp only
    have h3 := replaceNode_norelay env f
      (relayBuild env f (f.subscriptionChanged || f.nodeInfoChanged)
        (relayTeardown env (f.subscriptionChanged || f.nodeInfoChanged) s).2).2
    cases h4 : (replaceNode env f
      (relayBuild env f (f.subscriptionChanged || f.nodeInfoChanged)
        (relayTeardown env (f.subscriptionChanged || f.nodeInfoChanged) s).2).2).1 with
    | stop ret => exact h3
    | next b =>
      simp only
      have h5 := provision_norelay env f b (replaceNode env f
        (relayBuild env f (f.subscriptionChanged || f.nodeInfoChanged)
          (relayTeardown env (f.subscriptionChanged || f.nodeInfoChanged) s).2).2).2
      cases h6 : (provision env f b (replaceNode env f
        (relayBuild env f (f.subscriptionChanged || f.nodeInfoChanged)
          (relayTeardown env (f.subscriptionChanged || f.nodeInfoChanged) s).2).2).2).1 with
      | stop ret => exact h3.trans h5
      | next u => exact h3.trans h5

/-- The relay blocks of a dirty tick in which no removal fails and the relay
descriptor is fetched: the teardown for the retained snapshot, then the calls
of one `AddRelayTag`. -/
theorem relay_blocks_trace {env : Env} (hrm : env.RemovalsOK) (s : Sys) (f : Fetched)
    (hfetch : requestsRelay f.newNodeInfo = true → ∃ r, env.GetTransitNode = .ok r) :
    (relayBuild env f true (relayTeardown env true s).2).2.trace =
      s.trace ++
      (if s.c.Relay then relayTeardownCalls s.c.RelayTag s.c.subscriptionList else []) ++
      (if requestsRelay f.newNodeInfo then
        match env.GetTransitNode with
        | .ok r =>
          issuedBy (AddRelayTag env r (buildRNodeTag r) s.c.Tag f.newSubscriptionInfo)
            (s.trace ++
              if s.c.Relay then relayTeardownCalls s.c.RelayTag s.c.subscriptionList else [])
        | .error _ => []
      else []) := by
  rw [relayTeardown_removals hrm]
  by_cases hq : requestsRelay f.newNodeInfo = true
  · obtain ⟨r, hr⟩ := hfetch hq
    rw [relayBuild_trace env f _ r hq hr]
    by_cases hR : s.c.Relay = true <;> simp [hR, hq, hr]
  · rw [relayBuild_skip env f true _ (by simpa using hq)]
    by_cases hR : s.c.Relay = true <;> simp [hR, hq]

/-- C24, counterexample. A relay-active controller whose descriptor requests
relay retains `{1, 2}`; the node fetch answers not-modified and the subscriber
fetch returns `{2, 3}`, so the tick is dirty. The relay descriptor cannot be
fetched: the tick panics after the teardown, `AddRelayTag` is not called, no
relay outbound and no relay rule is added, and the controller is left
relay-inactive. -/
theorem tick_relay_fetch_failure_adds_no_relay :
    relayHeadController.Relay = true ∧
    fetchBoth scenario1Env relayHeadController =
      some ⟨false, relayHeadController.nodeInfo, true, [subscriber 2, subscriber 3]⟩ ∧
    requestsRelay relayHeadController.nodeInfo = true ∧
    scenario1Env.GetTransitNode = .error "relay node unreachable" ∧
    (nodeInfoMonitor scenario1Env ⟨relayHeadController, []⟩).1 =
      .panicked "relay node unreachable" ∧
    issued scenario1Env ⟨relayHeadController, []⟩ =
      [.RemoveRule "Relay_vless_8443_3_1", .RemoveRule "Relay_vless_8443_3_2",
        .RemoveOutbound "Relay_vless_8443_3_1", .RemoveOutbound "Relay_vless_8443_3_2"] ∧
    (nodeInfoMonitor scenario1Env ⟨relayHeadController, []⟩).2.c.Relay = false := by
  refine ⟨by decide, by decide, by decide, rfl, by decide, by decide, by decide⟩

/-- C24, amended. For every tick in which both fetches return without error,
no removal call fails, and the relay descriptor is fetched when the tick is
dirty and the descriptor requests relay. If the tick is dirty, its calls are,
in this order: when the controller is relay-active, the removal of the relay
rule of every subscriber of the retained snapshot and then of the relay
outbound of every such subscriber, under the prior relay tag; when the
descriptor requests relay, the calls of one `AddRelayTag` with the newly
fetched relay descriptor, its relay tag and the snapshot of the tick; then
calls that add no relay outbound and no relay rule. If the tick is not dirty
it issues no call at all and the relay flag is unchanged. -/
theorem tick_rebuilds_relay_wholesale (env : Env) (s : Sys) (f : Fetched)
    (hf : fetchBoth env s.c = some f) (hrm : env.RemovalsOK)
    (hfetch : (f.subscriptionChanged || f.nodeInfoChanged) = true →
      requestsRelay f.newNodeInfo = true → ∃ r, env.GetTransitNode = .ok r) :
    ((f.subscriptionChanged || f.nodeInfoChanged) = true →
      ∃ mainTag rest, issued env s =
        (if s.c.Relay then relayTeardownCalls s.c.RelayTag s.c.subscriptionList else []) ++
        (if requestsRelay f.newNodeInfo then
          match env.GetTransitNode with
          | .ok r =>
            issuedBy (AddRelayTag env r (buildRNodeTag r) mainTag f.newSubscriptionInfo)
              (s.trace ++
                if s.c.Relay then relayTeardownCalls s.c.RelayTag s.c.subscriptionList else [])
          | .error _ => []
        else []) ++ rest ∧
        ∀ c ∈ rest, addsRelay c = false) ∧
    ((f.subscriptionChanged || f.nodeInfoChanged) = false →
      issued env s = [] ∧ (nodeInfoMonitor env s).2.c.Relay = s.c.Relay) := by
  refine ⟨?_, ?_⟩
  · intro hd
    have h1 : (relayTeardown env (f.subscriptionChanged || f.nodeInfoChanged) s).1 =
        .next () := by
      rw [relayTeardown_removals hrm]
    obtain ⟨rest, hrest, hk⟩ := tick_after_relay_norelay env s f hf () h1
    rw [hd, relay_blocks_trace hrm s f (hfetch hd)] at hrest
    exact ⟨s.c.Tag, rest, issued_eq (by rw [hrest]; simp only [List.append_assoc]), hk⟩
  · intro hd
    have hsc : f.subscriptionChanged = false := by
      cases h : f.subscriptionChanged <;> simp [h] at hd ⊢
    have hc : f.nodeInfoChanged = false := by
      cases h : f.nodeInfoChanged <;> simp [h] at hd ⊢
    rw [issued, tick_quiet env s f hf hsc hc]
    simp

/-- C24, witness: the relay-active controller retaining `{1, 2}` meets the
snapshot `{2, 3}`, the relay descriptor is fetched and nothing fails. -/
theorem tick_rebuilds_relay_wholesale_witness :
    ∃ mainTag rest, issued relayDeltaEnv ⟨relayHeadController, []⟩ =
      (if relayHeadController.Relay then
        relayTeardownCalls relayHeadController.RelayTag relayHeadController.subscriptionList
      else []) ++
      (if requestsRelay relayHeadController.nodeInfo then
        match relayDeltaEnv.GetTransitNode with
        | .ok r =>
          issuedBy (AddRelayTag relayDeltaEnv r (buildRNodeTag r) mainTag
              [subscriber 2, subscriber 3])
            ([] ++
              if relayHeadController.Relay then
                relayTeardownCalls relayHeadController.RelayTag
                  relayHeadController.subscriptionList
              else [])
        | .error _ => []
      else []) ++ rest ∧
      ∀ c ∈ rest, addsRelay c = false :=
  (tick_rebuilds_relay_wholesale relayDeltaEnv ⟨relayHeadController, []⟩
    ⟨false, relayHeadController.nodeInfo, true, [subscriber 2, subscriber 3]⟩ rfl
    (fun _ _ => ⟨rfl, rfl⟩) (fun _ _ => ⟨_, rfl⟩)).1 rfl


end XMPlus
